import Mathlib

/-!
CloudNotes: client-side synchronisation core of `public/main.js`

A shallow embedding of the note merge (`mergeAndRenderNotes`), the sync
reconciler, the debounced save pipeline (`handleInput` and its timer callback),
note selection, creation and sharing, the sign-in / sign-out callback, and the
pieces of browser environment they run against (the `setTimeout` table, the
log of `updateDoc` and `addDoc` calls, the promises still awaiting the store,
the registered snapshot listeners).

Conventions of the embedding

* A JavaScript value that may be `null`/`undefined` is an `Option`; the
  truthiness tests of the source (`x || d`, `x && ...`, `!x`) are the functions
  `truthy`, `orElse` below: `null` and the empty string are falsy.
* Module-level `let` variables and the DOM properties the code reads or writes
  are fields of `State` / `Dom`; every function of the source is a function
  `State → State`.
* Reading back `style.textAlign` returns the string last assigned.
* An assignment `el.innerHTML = v` makes the browser parse `v`, and `el.innerHTML`
  then reads the serialisation of what was parsed, which need not be `v`
  (`A & B` reads `A &amp; B`). The parser and the serialiser belong to the
  browser, not to the repository: `State.browser` carries them as functions
  (`readBack`, `spanText`). The general statements hold for every browser; the
  examples run in `exBrowser`. A `Dom` field holding an `innerHTML` is the
  string the property reads.
* An uncaught exception aborts the running handler: the state reached so far is
  kept and `uncaught` is incremented.
* Handles returned by `setTimeout` are positive integers (HTML standard), so
  `!saveTimeout` holds exactly when `saveTimeout` is `null`.
* `checkPlaceholder` only toggles the CSS class `empty` of the content element
  from its rendered text; no modelled field depends on it and it is left out.
* The clock counts milliseconds; a timeout runs when the clock reaches its due
  time, and an awaited `updateDoc` resumes in a later event (`saveAck`,
  `saveFail`).
* Records are values: the one assignment to a record object
  (`note.shareKey = key`) is applied to the elements equal to that record.
* A value of `Math.random()` is an exact rational; machine rounding of
  `Math.random() * 36` is not modelled.
* An `onSnapshot` call registers a listener under a fresh handle; the function
  it returns removes that listener. A snapshot reaches a listener for as long
  as it is registered (`deliverSnapshot`).
* `str.replace(/c/g, r)` for a one-character pattern acts on the characters of
  the string, one by one.
* The document store is outside the repository; `applyUpdate` and `applyCreate`
  describe what it does with the writes of the client (field assignment,
  `arrayUnion`, `arrayRemove`).
-/

namespace CloudNotes

/-! ## Data model -/

/-- Firestore `Timestamp`: whole seconds since the epoch and the nanosecond
fraction inside that second. -/
structure Timestamp where
  seconds : Int
  nanoseconds : Nat
  deriving DecidableEq, Repr

/-- Chronological order of two timestamps (`Timestamp.valueOf` order). -/
def Timestamp.le (a b : Timestamp) : Prop :=
  a.seconds < b.seconds ∨ (a.seconds = b.seconds ∧ a.nanoseconds ≤ b.nanoseconds)

instance (a b : Timestamp) : Decidable (Timestamp.le a b) :=
  inferInstanceAs
    (Decidable (a.seconds < b.seconds ∨ (a.seconds = b.seconds ∧ a.nanoseconds ≤ b.nanoseconds)))

/-- The signed-in user delivered by `onAuthStateChanged`. -/
structure User where
  uid : String
  email : String
  deriving DecidableEq, Repr

/-- An element of `ownedNotes` / `sharedNotes`:
`{ id: doc.id, ...doc.data(), hasPendingWrites: doc.metadata.hasPendingWrites }`.
Every data field may be missing from the document. -/
structure Note where
  id : String
  userId : Option String := none
  title : Option String := none
  content : Option String := none
  titleAlign : Option String := none
  updatedAt : Option Timestamp := none
  lockedBy : Option String := none
  lockedByEmail : Option String := none
  shareKey : Option String := none
  collaborators : Option (List String) := none
  hasPendingWrites : Bool := false
  deriving DecidableEq, Repr

/-- The shadow copy `lastSavedState = { id, title, content, titleAlign }`. -/
structure SavedState where
  id : Option String
  title : Option String
  content : Option String
  titleAlign : Option String
  deriving DecidableEq, Repr

/-- The value `{ id: null, title: null, content: null, titleAlign: null }`. -/
def SavedState.empty : SavedState := ⟨none, none, none, none⟩

/-- The element `#locked-indicator`: the text of its `span` and its
`style.display`. -/
structure Indicator where
  message : String
  display : String
  deriving DecidableEq, Repr

/-- One rendered entry of `#notes-list`: the note it selects, whether it has the
class `active`, and whether its menu offers "Delete" (owner) or "Leave". -/
structure ListItem where
  noteId : String
  active : Bool
  ownerMenu : Bool
  deriving DecidableEq, Repr

/-- The DOM properties read or written by the modelled functions. -/
structure Dom where
  /-- The property `noteTitleInput.innerHTML`. -/
  titleHtml : String := ""
  /-- The property `noteContentInput.innerHTML`. -/
  contentHtml : String := ""
  /-- The property `noteTitleInput.style.textAlign`; `""` when never set. -/
  titleTextAlign : String := ""
  /-- Whether `editorView` has the class `hidden`. -/
  editorHidden : Bool := true
  /-- Whether `emptyState` has the class `hidden`. -/
  emptyStateHidden : Bool := false
  /-- Whether `editorView` has the class `locked`. -/
  editorLocked : Bool := false
  /-- The property `noteTitleInput.contentEditable` as a boolean. -/
  titleEditable : Bool := true
  /-- The property `noteContentInput.contentEditable` as a boolean. -/
  contentEditable : Bool := true
  /-- The element `#locked-indicator`, once created. -/
  indicator : Option Indicator := none
  /-- The property `saveStatus.textContent`. -/
  saveStatusText : String := ""
  /-- Whether `saveStatus` has the class `show`. -/
  saveStatusShown : Bool := false
  /-- The children of `notesListEl`. -/
  notesList : List ListItem := []
  /-- Whether `#modal-overlay` has the class `hidden`. -/
  modalHidden : Bool := true
  /-- The property `modalTitle.textContent`. -/
  modalTitle : String := ""
  /-- The property `modalMessage.textContent`. -/
  modalMessage : String := ""
  /-- Whether `modalMessage` has the class `hidden`. -/
  modalMessageHidden : Bool := true
  /-- Whether `modalInput` has the class `hidden`. -/
  modalInputHidden : Bool := true
  /-- The property `modalInput.value`. -/
  modalInputValue : String := ""
  /-- The property `modalInput.placeholder`. -/
  modalInputPlaceholder : String := ""
  /-- The text of `#modal-confirm-btn`. -/
  modalConfirmText : String := ""
  /-- Whether `#share-modal-overlay` has the class `hidden`. -/
  shareModalHidden : Bool := true
  /-- The property `value` of `#share-key-input`. -/
  shareKeyInput : String := ""
  /-- Whether `loadingOverlay` has the class `fade-out`. -/
  loadingFaded : Bool := false
  /-- Whether `authContainer` has the class `hidden`. -/
  authContainerHidden : Bool := false
  /-- Whether `appContainer` has the class `hidden`. -/
  appContainerHidden : Bool := true
  /-- The property `userEmailDisplay.textContent`. -/
  userEmailText : String := ""
  deriving DecidableEq, Repr

/-- A value passed for one field of an `updateDoc` call. -/
inductive FieldValue where
  | str (s : String)
  | null
  | serverTimestamp
  | arrayUnion (x : String)
  | arrayRemove (x : String)
  deriving DecidableEq, Repr

/-- One call `updateDoc(doc(db, "notes", noteId), fields)`, with the clock
reading at which it was issued. -/
structure UpdateWrite where
  issuedAt : Nat
  noteId : String
  fields : List (String × FieldValue)
  deriving DecidableEq, Repr

/-- What the timer callback of `handleInput` still holds while it awaits
`updateDoc`: its own handle `thisTimeoutId` and the values it read from the
editor. -/
structure PendingSave where
  thisTimeoutId : Nat
  title : String
  content : String
  titleAlign : String
  deriving DecidableEq, Repr

/-- What `shareNote` still holds while it awaits `updateDoc`: the id it was
called with, the key it generated and the record `note` it found. -/
structure PendingShare where
  noteId : String
  key : String
  note : Note
  deriving DecidableEq, Repr

/-- One call `addDoc(collection(db, "notes"), fields)`, with the clock reading
at which it was issued. -/
structure CreateWrite where
  issuedAt : Nat
  fields : List (String × FieldValue)
  deriving DecidableEq, Repr

/-- A snapshot listener registered with `onSnapshot` and not unsubscribed: its
handle, whether it is the shared-notes listener (otherwise the owned-notes
one), and the uid its query was built with. -/
structure Listener where
  handle : Nat
  shared : Bool
  uid : String
  deriving DecidableEq, Repr

/-- What the browser does with markup the code assigns to `innerHTML`. The
parser and the serialiser are outside the repository, so they are kept as
functions of the environment; every statement about a `State` holds for
whatever functions its `browser` carries. -/
structure Browser where
  /-- The string `el.innerHTML` reads after `el.innerHTML = markup`: the content
  the parser builds from `markup`, written out again by the serialiser. -/
  readBack : String → String
  /-- The text of the `span` of the lock banner after the banner's `innerHTML`
  was assigned the template of lines 1852-1858 with `msg` interpolated as
  markup. -/
  spanText : String → String

/-- Module state of `main.js` together with the environment it runs in. -/
structure State where
  currentUser : Option User := none
  notes : List Note := []
  ownedNotes : List Note := []
  sharedNotes : List Note := []
  activeNoteId : Option String := none
  saveTimeout : Option Nat := none
  lastSavedState : SavedState := SavedState.empty
  isAcquiringLock : Bool := false
  dom : Dom := {}
  /-- Milliseconds on the clock of the event loop. -/
  now : Nat := 0
  /-- The handle the next `setTimeout` call returns; handles are positive. -/
  nextTimerId : Nat := 1
  /-- Timeouts set and neither fired nor cleared: handle and due time. -/
  timers : List (Nat × Nat) := []
  /-- Every `updateDoc` call issued so far, oldest first. -/
  writes : List UpdateWrite := []
  /-- Save callbacks suspended at `await updateDoc(...)`. -/
  inflight : List PendingSave := []
  /-- Lock-acquisition promises not yet settled. -/
  lockInflight : Nat := 0
  /-- Number of handlers aborted by an uncaught exception. -/
  uncaught : Nat := 0
  /-- Every `addDoc` call issued so far, oldest first. -/
  creates : List CreateWrite := []
  /-- Calls of `shareNote` suspended at `await updateDoc(...)`. -/
  shareInflight : List PendingShare := []
  /-- Calls of `connectToNote` suspended at `await updateDoc(...)`. -/
  connectInflight : Nat := 0
  /-- Calls of `createNote`'s confirm handler suspended at `await addDoc(...)`. -/
  createInflight : Nat := 0
  /-- Calls of `leaveNote`'s confirm handler suspended at `await updateDoc(...)`. -/
  leaveInflight : Nat := 0
  /-- The messages passed to `alert`, oldest first. -/
  alerts : List String := []
  /-- The variable `notesUnsubscribe`: the handle of the listener it unsubscribes. -/
  notesUnsubscribe : Option Nat := none
  /-- The variable `sharedNotesUnsubscribe`. -/
  sharedNotesUnsubscribe : Option Nat := none
  /-- The snapshot listeners currently registered with the store. -/
  listeners : List Listener := []
  /-- The handle the next `onSnapshot` call gets. -/
  nextListener : Nat := 1
  /-- The browser the page runs in. -/
  browser : Browser

/-! ## JavaScript truthiness -/

/-- Truthiness of a string-or-null value: `null` and `""` are falsy. -/
def truthy (o : Option String) : Bool :=
  match o with
  | some s => s != ""
  | none => false

/-- The expression `o || d` for a string-or-null `o` and a string `d`. -/
def orElse (o : Option String) (d : String) : String :=
  match o with
  | some s => if s != "" then s else d
  | none => d

/-! ## Merge: `mergeAndRenderNotes`, lines 151-159 -/

/-- The call `uniqueMap.set(k, v)` on a `Map` kept as its entries in insertion
order: an existing key keeps its position and takes the new value, a new key is
appended. -/
def mapSet (m : List (String × Note)) (k : String) (v : Note) : List (String × Note) :=
  match m with
  | [] => [(k, v)]
  | (k', v') :: rest => if k' = k then (k, v) :: rest else (k', v') :: mapSet rest k v

/-- The map built by `all.forEach(n => uniqueMap.set(n.id, n))` from the empty
map. -/
def uniqueMap (all : List Note) : List (String × Note) :=
  all.foldl (fun m n => mapSet m n.id n) []

/-- The sort key `x.updatedAt?.seconds || 0`. -/
def sortSeconds (n : Note) : Int :=
  match n.updatedAt with
  | some t => if t.seconds != 0 then t.seconds else 0
  | none => 0

/-- The comparator `(a, b) => (b.updatedAt?.seconds || 0) - (a.updatedAt?.seconds || 0)`. -/
def compareNotes (a b : Note) : Int := sortSeconds b - sortSeconds a

/-- The relation "the comparator does not put `b` before `a`":
`compareNotes a b ≤ 0`. -/
def notAfter (a b : Note) : Prop := compareNotes a b ≤ 0

instance (a b : Note) : Decidable (notAfter a b) :=
  inferInstanceAs (Decidable (compareNotes a b ≤ 0))

/-- `Array.prototype.sort` with `compareNotes`: the sort is stable, and for a
consistent comparator its result is the stable sorted arrangement, computed
here by insertion. -/
def sortNotes (l : List Note) : List Note := l.insertionSort notAfter

/-- The array assigned to `notes`: owned then shared, deduplicated through the
map, values in map order, sorted. -/
def mergeNotes (owned shared : List Note) : List Note :=
  sortNotes ((uniqueMap (owned ++ shared)).map Prod.snd)

/-- The call `notes.find(n => n.id === id)`. -/
def findNote (notes : List Note) (id : Option String) : Option Note :=
  notes.find? (fun n => decide (some n.id = id))

/-! ## Rendering helpers -/

/-- The entries `renderNotesList` appends, one per note, for a signed-in user. -/
def listItems (ns : List Note) (active : Option String) (u : User) : List ListItem :=
  ns.map (fun n => ⟨n.id, decide (some n.id = active), decide (n.userId = some u.uid)⟩)

/-- `renderNotesList`: empties the list and appends one entry per note. Building
an entry evaluates `note.userId === currentUser.uid`, which throws when nobody
is signed in; the result is then `Except.error` with the list left empty. -/
def renderNotesList (s : State) : Except State State :=
  match s.notes, s.currentUser with
  | [], _ => .ok { s with dom := { s.dom with notesList := [] } }
  | _ :: _, none => .error { s with dom := { s.dom with notesList := [] } }
  | ns, some u =>
    .ok { s with dom := { s.dom with notesList := listItems ns s.activeNoteId u } }

/-- `showEmptyState`. -/
def showEmptyState (s : State) : State :=
  { s with
    activeNoteId := none
    dom := { s.dom with editorHidden := true, emptyStateHidden := false }
    lastSavedState := SavedState.empty }

/-- The test `note.lockedBy && note.lockedBy !== currentUser.uid`. -/
def isLockedByOther (n : Note) (u : User) : Bool :=
  truthy n.lockedBy && decide (n.lockedBy ≠ some u.uid)

/-- The banner text chosen by `updateEditorLockState`. -/
def lockedMsg (n : Note) : String :=
  match n.lockedByEmail with
  | some e => if e != "" then e ++ " is editing the note..." else "Another user is editing the note..."
  | none => "Another user is editing the note..."

/-- The text of the banner's `span` after lines 1848-1863: when the element
`#locked-indicator` does not exist yet it is created and `lockedMsg` is written
into its `innerHTML` as markup; when it exists, `lockedMsg` is assigned to the
`textContent` of its `span`. -/
def bannerText (b : Browser) (old : Option Indicator) (msg : String) : String :=
  match old with
  | none => b.spanText msg
  | some _ => msg

/-- `updateEditorLockState(note)` for a note that was found, in browser `b`. -/
def updateEditorLockState (b : Browser) (n : Note) (u : User) (d : Dom) : Dom :=
  if isLockedByOther n u then
    { d with
      editorLocked := true
      titleEditable := false
      contentEditable := false
      indicator := some ⟨bannerText b d.indicator (lockedMsg n), "flex"⟩ }
  else
    { d with
      editorLocked := false
      titleEditable := true
      contentEditable := true
      indicator := d.indicator.map (fun i => { i with display := "none" }) }

/-- The overwrite block of `mergeAndRenderNotes` (lines 174-191): the three
guarded DOM assignments and the assignment of `lastSavedState`. After an
assignment to `innerHTML` the property reads what the browser serialises. -/
def acceptRemote (n : Note) (s : State) : State :=
  let d := s.dom
  let d1 :=
    if d.titleHtml ≠ orElse n.title "" then
      { d with titleHtml := s.browser.readBack (orElse n.title "") }
    else d
  let d2 :=
    if d1.contentHtml ≠ orElse n.content "" then
      { d1 with contentHtml := s.browser.readBack (orElse n.content "") }
    else d1
  let d3 :=
    match n.titleAlign with
    | some a => if a != "" ∧ d2.titleTextAlign ≠ a then { d2 with titleTextAlign := a } else d2
    | none => d2
  { s with
    dom := d3
    lastSavedState :=
      { id := some n.id
        title := some (orElse n.title "")
        content := some (orElse n.content "")
        titleAlign := some (orElse n.titleAlign "left") } }

/-- `mergeAndRenderNotes`. -/
def mergeAndRenderNotes (s : State) : State :=
  let s1 := { s with notes := mergeNotes s.ownedNotes s.sharedNotes }
  match renderNotesList s1 with
  | .error s2 => { s2 with uncaught := s2.uncaught + 1 }
  | .ok s2 =>
    if truthy s2.activeNoteId then
      match findNote s2.notes s2.activeNoteId with
      | some note =>
        match s2.currentUser with
        | none =>
          -- unreachable: `renderNotesList` has thrown for a non-empty list
          { s2 with uncaught := s2.uncaught + 1 }
        | some u =>
          let s3 :=
            if (isLockedByOther note u || s2.saveTimeout.isNone) && !note.hasPendingWrites then
              acceptRemote note s2
            else s2
          { s3 with dom := updateEditorLockState s.browser note u s3.dom }
      | none => showEmptyState s2
    else s2

/-! ## Save pipeline: `handleInput` and its timer callback, lines 535-630 -/

/-- `clearTimeout(h)`: a `null` or stale handle is ignored. -/
def clearTimeout (h : Option Nat) (timers : List (Nat × Nat)) : List (Nat × Nat) :=
  match h with
  | none => timers
  | some t => timers.filter (fun p => p.1 != t)

/-- The fields of the lock-acquisition write (lines 551-555). -/
def lockFields (u : User) : List (String × FieldValue) :=
  [("lockedBy", .str u.uid), ("lockedByEmail", .str u.email), ("lockedAt", .serverTimestamp)]

/-- The fields of the save write (lines 590-596). -/
def saveFields (title content titleAlign : String) : List (String × FieldValue) :=
  [("title", .str title), ("content", .str content), ("titleAlign", .str titleAlign),
   ("updatedAt", .serverTimestamp), ("lockedBy", .null)]

/-- The debounce delay passed to `setTimeout`. -/
def debounceMs : Nat := 2000

/-- The lock-acquisition block of `handleInput` (lines 547-561). -/
def acquireLock (note : Option Note) (u : User) (aid : String) (s : State) : State :=
  match note with
  | none => s
  | some n =>
    if !truthy n.lockedBy || decide (n.lockedBy ≠ some u.uid) then
      if !s.isAcquiringLock then
        { s with
          isAcquiringLock := true
          writes := s.writes ++ [⟨s.now, aid, lockFields u⟩]
          lockInflight := s.lockInflight + 1 }
      else s
    else s

/-- The guard `note && note.lockedBy && note.lockedBy !== currentUser.uid` of
`handleInput` (line 540). -/
def lockedOut (note : Option Note) (u : User) : Bool :=
  match note with
  | some n => isLockedByOther n u
  | none => false

/-- Lines 563-626 of `handleInput`: hide the status, clear the pending timeout,
set a new one and store its handle. The body of the timeout is `timerCallback`. -/
def armTimer (s : State) : State :=
  { s with
    dom := { s.dom with saveStatusShown := false }
    timers := clearTimeout s.saveTimeout s.timers ++ [(s.nextTimerId, s.now + debounceMs)]
    nextTimerId := s.nextTimerId + 1
    saveTimeout := some s.nextTimerId }

/-- `handleInput`. -/
def handleInput (s : State) : State :=
  match s.activeNoteId, s.currentUser with
  | some aid, some u =>
    if aid = "" then s
    else if lockedOut (findNote s.notes s.activeNoteId) u then s
    else armTimer (acquireLock (findNote s.notes s.activeNoteId) u aid s)
  | _, _ => s

/-- The expression `noteTitleInput.style.textAlign || 'left'`. -/
def displayedAlign (d : Dom) : String :=
  if d.titleTextAlign != "" then d.titleTextAlign else "left"

/-- The optimisation check of the timer callback (lines 576-579). -/
def matchesSaved (s : State) : Bool :=
  decide (s.lastSavedState.id = s.activeNoteId) &&
  decide (s.lastSavedState.title = some s.dom.titleHtml) &&
  decide (s.lastSavedState.content = some s.dom.contentHtml) &&
  decide (s.lastSavedState.titleAlign = some (displayedAlign s.dom))

/-- The statement `if (saveTimeout === thisTimeoutId) saveTimeout = null`. -/
def clearIfCurrent (tid : Nat) (s : State) : State :=
  if s.saveTimeout = some tid then { s with saveTimeout := none } else s

/-- The `catch` branch of the timer callback (lines 614-623). -/
def saveCatch (tid : Nat) (s : State) : State :=
  clearIfCurrent tid
    { s with dom := { s.dom with saveStatusText := "Error saving", saveStatusShown := true } }

/-- The timer callback after `await updateDoc(...)` has resolved (lines 598-613).
`activeNoteId` is read at this point, the other values were captured before the
await. -/
def saveResume (p : PendingSave) (s : State) : State :=
  clearIfCurrent p.thisTimeoutId
    { s with
      lastSavedState :=
        { id := s.activeNoteId
          title := some p.title
          content := some p.content
          titleAlign := some p.titleAlign }
      dom := { s.dom with saveStatusText := "Saved", saveStatusShown := true } }

/-- The timer callback up to its first suspension (lines 567-596). The call
`doc(db, "notes", activeNoteId)` throws for a `null` or empty id, which the
surrounding `try` catches. -/
def timerCallback (tid : Nat) (s : State) : State :=
  if matchesSaved s then
    clearIfCurrent tid
      { s with dom := { s.dom with saveStatusText := "Saved", saveStatusShown := true } }
  else
    match s.activeNoteId with
    | none => saveCatch tid s
    | some aid =>
      if aid = "" then saveCatch tid s
      else
        { s with
          writes := s.writes ++ [⟨s.now, aid, saveFields s.dom.titleHtml s.dom.contentHtml (displayedAlign s.dom)⟩]
          inflight := s.inflight ++
            [⟨tid, s.dom.titleHtml, s.dom.contentHtml, displayedAlign s.dom⟩] }

/-! ## Events of the event loop -/

/-- A local change of the editor followed by the `input` handler: typing in the
title or the content, or the title-alignment menu action (lines 860-877). -/
inductive Edit where
  | title (html : String)
  | content (html : String)
  | align (a : String)
  deriving DecidableEq, Repr

/-- The editor after the change, before `handleInput` runs. -/
def Edit.apply (e : Edit) (d : Dom) : Dom :=
  match e with
  | .title h => { d with titleHtml := h }
  | .content h => { d with contentHtml := h }
  | .align a => { d with titleTextAlign := a }

/-- An edit event: the DOM change, then `handleInput`. -/
def editEvent (e : Edit) (s : State) : State :=
  handleInput { s with dom := e.apply s.dom }

/-- The timeout with handle `tid` runs: it leaves the timer table and its
callback is executed. Nothing happens for a handle that is not pending. -/
def fireTimer (tid : Nat) (s : State) : State :=
  if s.timers.any (fun p => p.1 == tid) then
    timerCallback tid { s with timers := s.timers.filter (fun p => p.1 != tid) }
  else s

/-- The store acknowledges the save write awaited by the suspended callback `p`:
the callback resumes after the `await`. -/
def saveAck (p : PendingSave) (s : State) : State :=
  if p ∈ s.inflight then saveResume p { s with inflight := s.inflight.erase p } else s

/-- The save write awaited by the suspended callback `p` is rejected: the
callback resumes in its `catch` branch. -/
def saveFail (p : PendingSave) (s : State) : State :=
  if p ∈ s.inflight then saveCatch p.thisTimeoutId { s with inflight := s.inflight.erase p } else s

/-- A lock-acquisition promise settles (either way): the `finally` handler. -/
def lockSettled (s : State) : State :=
  if s.lockInflight = 0 then s
  else { s with lockInflight := s.lockInflight - 1, isAcquiringLock := false }

/-- The owned-notes listener (lines 124-130). -/
def onOwnedSnapshot (docs : List Note) (s : State) : State :=
  mergeAndRenderNotes { s with ownedNotes := docs }

/-- The shared-notes listener (lines 139-145). -/
def onSharedSnapshot (docs : List Note) (s : State) : State :=
  mergeAndRenderNotes { s with sharedNotes := docs }

/-- Whether timer `p` runs no later than timer `q`: earlier due time, and for
equal due times the one set first. -/
def runsFirst (p q : Nat × Nat) : Bool :=
  p.2 < q.2 || (p.2 == q.2 && p.1 ≤ q.1)

/-- The pending timeout that runs next among those due by `limit`, if any. -/
def nextDue (timers : List (Nat × Nat)) (limit : Nat) : Option (Nat × Nat) :=
  (timers.filter (fun p => p.2 ≤ limit)).foldl
    (fun acc p =>
      match acc with
      | none => some p
      | some q => if runsFirst q p then some q else some p)
    none

/-- Let the clock run up to `limit`, running due timeouts in order. -/
def elapseTo (fuel limit : Nat) (s : State) : State :=
  match fuel with
  | 0 => { s with now := max s.now limit }
  | fuel + 1 =>
    match nextDue s.timers limit with
    | none => { s with now := max s.now limit }
    | some (tid, due) => elapseTo fuel limit (fireTimer tid { s with now := max s.now due })

/-- `d` milliseconds pass with no other event. No callback sets a timeout, so
one round per pending timeout is enough. -/
def elapse (d : Nat) (s : State) : State :=
  elapseTo s.timers.length (s.now + d) s

/-- A series of edit events, each given with the time passed since the previous
event. -/
def runEdits (es : List (Nat × Edit)) (s : State) : State :=
  es.foldl (fun st ge => editEvent ge.2 (elapse ge.1 st)) s

/-- The states `runEdits` passes through, in order: for each edit event the
state when the waiting time before it has passed, then the state after it. -/
def editTrace (es : List (Nat × Edit)) (s : State) : List State :=
  match es with
  | [] => []
  | ge :: rest =>
    let s1 := elapse ge.1 s
    let s2 := editEvent ge.2 s1
    s1 :: s2 :: editTrace rest s2

/-- The guards of `handleInput` (lines 536-544) all pass: a note is active, a
user is signed in, and the active note's record is not locked by another user. -/
def qualifies (s : State) : Bool :=
  match s.activeNoteId, s.currentUser with
  | some aid, some u => aid != "" && !lockedOut (findNote s.notes s.activeNoteId) u
  | _, _ => false

/-- Whether a logged write is a save write (it carries the note's `title`). -/
def isSaveWrite (w : UpdateWrite) : Bool :=
  w.fields.any (fun f => f.1 == "title")

/-- The save writes among the logged writes. -/
def saveWrites (s : State) : List UpdateWrite :=
  s.writes.filter isSaveWrite

/-! ## Modal dialog: `showModal`, lines 264-336 -/

/-- `showModal({ title, message, showInput, inputPlaceholder, confirmText })`:
the assignments to the modal's elements. The confirm handler it installs is
modelled by the `...Confirm` function of each caller. -/
def showModal (title : String) (message : Option String) (showInput : Bool)
    (inputPlaceholder confirmText : String) (d : Dom) : Dom :=
  let d1 := { d with modalTitle := title }
  let d2 :=
    if truthy message then { d1 with modalMessage := orElse message "", modalMessageHidden := false }
    else { d1 with modalMessageHidden := true }
  let d3 :=
    if showInput then
      { d2 with modalInputHidden := false, modalInputValue := "", modalInputPlaceholder := inputPlaceholder }
    else { d2 with modalInputHidden := true }
  { d3 with modalConfirmText := confirmText, modalHidden := false }

/-! ## Sharing: `generateNoteKey`, `shareNote`, `connectToNote`, `leaveNote`,
lines 1724-1894 -/

/-- The constant `chars` of `generateNoteKey`. -/
def keyChars : String := "ABCDEFGHIJKLMNOPQRSTUVWXYZ0123456789"

/-- `s.charAt(i)`: the one-character string at index `i`, the empty string when
`i` is out of range. -/
def charAt (s : String) (i : Int) : String :=
  if i < 0 then ""
  else
    match s.data.get? i.toNat with
    | some c => String.singleton c
    | none => ""

/-- `Math.floor(r * n)` for a value `r` returned by `Math.random()`. The value
is taken as an exact rational and the product is exact. -/
def randomIndex (r : ℚ) (n : Nat) : Int := Int.floor (r * (n : ℚ))

/-- `generateNoteKey`, given the values the successive calls of `Math.random()`
return: eight rounds of `key += chars.charAt(Math.floor(Math.random() * chars.length))`. -/
def generateNoteKey (rand : Nat → ℚ) : String :=
  (List.range 8).foldl
    (fun key i => key ++ charAt keyChars (randomIndex (rand i) keyChars.length)) ""

/-- The fields of the share-key write (lines 1745-1748). -/
def shareFields (key : String) : List (String × FieldValue) :=
  [("shareKey", .str key), ("updatedAt", .serverTimestamp)]

/-- The end of `shareNote` (lines 1759-1762): the key is put in the share
dialog and the dialog is shown. -/
def showShareKey (key : String) (d : Dom) : Dom :=
  { d with shareKeyInput := key, shareModalHidden := false }

/-- The assignment `note.shareKey = key` on the record object `obj`, seen from an
array of records: the records of `ownedNotes`, `sharedNotes` and `notes` are
shared objects, and an element equal to `obj` is taken to be that object. -/
def assignShareKey (obj : Note) (key : String) (l : List Note) : List Note :=
  l.map (fun n => if n = obj then { n with shareKey := some key } else n)

/-- The `catch` branch of `shareNote` (lines 1751-1755). -/
def shareCatch (s : State) : State :=
  { s with alerts := s.alerts ++ ["Failed to generate share key"] }

/-- `window.shareNote(noteId)` up to its first suspension, given the values
`Math.random()` returns. The call `doc(db, "notes", noteId)` throws for an
empty id, which the surrounding `try` catches. -/
def shareNote (rand : Nat → ℚ) (noteId : String) (s : State) : State :=
  match findNote s.notes (some noteId) with
  | none => s
  | some note =>
    if truthy note.shareKey then
      { s with dom := showShareKey (orElse note.shareKey "") s.dom }
    else if noteId = "" then shareCatch s
    else
      { s with
        writes := s.writes ++ [⟨s.now, noteId, shareFields (generateNoteKey rand)⟩]
        shareInflight := s.shareInflight ++ [⟨noteId, generateNoteKey rand, note⟩] }

/-- The store acknowledges the share-key write awaited by the suspended call
`p`: the key is assigned to the record and shown. -/
def shareAck (p : PendingShare) (s : State) : State :=
  if p ∈ s.shareInflight then
    { s with
      shareInflight := s.shareInflight.erase p
      notes := assignShareKey p.note p.key s.notes
      ownedNotes := assignShareKey p.note p.key s.ownedNotes
      sharedNotes := assignShareKey p.note p.key s.sharedNotes
      dom := showShareKey p.key s.dom }
  else s

/-- The share-key write awaited by the suspended call `p` is rejected. -/
def shareFail (p : PendingShare) (s : State) : State :=
  if p ∈ s.shareInflight then shareCatch { s with shareInflight := s.shareInflight.erase p }
  else s

/-- The documents a one-shot query
`where("shareKey", "==", key)` returns from the collection `docs`. -/
def queryByShareKey (docs : List Note) (key : String) : List Note :=
  docs.filter (fun n => decide (n.shareKey = some key))

/-- The `catch` branch of `connectToNote` (lines 1827-1830). -/
def connectCatch (s : State) : State :=
  let d := showModal "Error" (some "Failed to connect to note. Please check the key.")
    false "" "OK" s.dom
  { s with dom := d }

/-- The test `noteData.collaborators && noteData.collaborators.includes(uid)`. -/
def alreadyJoined (noteData : Note) (uid : String) : Bool :=
  match noteData.collaborators with
  | some l => decide (uid ∈ l)
  | none => false

/-- `connectToNote` after `await getDocs(q)` (lines 1795-1816), up to its next
suspension. `result` is `none` when the query was rejected, otherwise the
documents of the query snapshot. `currentUser.uid` throws when nobody is signed
in any more, `doc(...)` throws for an empty id; the `try` catches both. -/
def connectResume (result : Option (List Note)) (s : State) : State :=
  match result with
  | none => connectCatch s
  | some [] =>
    let d := showModal "Error" (some "Note not found with that key. Please check and try again.")
      false "" "OK" s.dom
    { s with dom := d }
  | some (noteDoc :: _) =>
    match s.currentUser with
    | none => connectCatch s
    | some u =>
      if noteDoc.userId = some u.uid then
        let d := showModal "Info" (some "You are the owner of this note.") false "" "OK" s.dom
        { s with dom := d }
      else if alreadyJoined noteDoc u.uid then
        let d := showModal "Info" (some "You have already joined this note.") false "" "OK" s.dom
        { s with dom := d }
      else if noteDoc.id = "" then connectCatch s
      else
        { s with
          writes := s.writes ++ [⟨s.now, noteDoc.id, [("collaborators", .arrayUnion u.uid)]⟩]
          connectInflight := s.connectInflight + 1 }

/-- `connectToNote(key)` run against the notes collection `db` of the store
(`none`: the query is rejected), with no other event during the query. -/
def connectToNote (db : Option (List Note)) (key : String) (s : State) : State :=
  match s.currentUser with
  | none => s
  | some _ => connectResume (db.map (fun docs => queryByShareKey docs key)) s

/-- The collaborators write of `connectToNote` is acknowledged (lines 1818-1825). -/
def connectAck (s : State) : State :=
  if s.connectInflight = 0 then s
  else
    let d := showModal "Connected!" (some "You have successfully joined the note. Let's write!")
      false "" "OK" { s.dom with modalHidden := true }
    { s with connectInflight := s.connectInflight - 1, dom := d }

/-- The collaborators write of `connectToNote` is rejected. -/
def connectFail (s : State) : State :=
  if s.connectInflight = 0 then s
  else connectCatch { s with connectInflight := s.connectInflight - 1 }

/-- `window.leaveNote(id)`: the confirmation dialog is shown. -/
def leaveNote (s : State) : State :=
  let d := showModal "Leave Note"
    (some "Are you sure you want to leave this shared note? It will be removed from your list.")
    false "" "Leave" s.dom
  { s with dom := d }

/-- The `catch` branch of the confirm handler of `leaveNote` (lines 1888-1891). -/
def leaveCatch (s : State) : State :=
  { s with dom := showModal "Error" (some "Failed to leave note.") false "" "OK" s.dom }

/-- The confirm handler of `leaveNote(id)` (lines 1880-1891), up to its
suspension. -/
def leaveNoteConfirm (id : String) (s : State) : State :=
  if id = "" then leaveCatch s
  else
    match s.currentUser with
    | none => leaveCatch s
    | some u =>
      { s with
        writes := s.writes ++ [⟨s.now, id, [("collaborators", .arrayRemove u.uid)]⟩]
        leaveInflight := s.leaveInflight + 1 }

/-- The collaborators write of `leaveNote` settles; a rejection shows the error
dialog, an acknowledgement does nothing further. -/
def leaveSettled (ok : Bool) (s : State) : State :=
  if s.leaveInflight = 0 then s
  else if ok then { s with leaveInflight := s.leaveInflight - 1 }
  else leaveCatch { s with leaveInflight := s.leaveInflight - 1 }

/-! ## Creating a note: `createNote`, lines 339-393 -/

/-- The characters `String.prototype.trim` removes: ECMAScript white space and
line terminators. -/
def isJsWhitespace (c : Char) : Bool :=
  c.toNat = 0x09 || c.toNat = 0x0A || c.toNat = 0x0B || c.toNat = 0x0C || c.toNat = 0x0D ||
  c.toNat = 0x20 || c.toNat = 0xA0 || c.toNat = 0x1680 ||
  (0x2000 ≤ c.toNat && c.toNat ≤ 0x200A) ||
  c.toNat = 0x2028 || c.toNat = 0x2029 || c.toNat = 0x202F || c.toNat = 0x205F ||
  c.toNat = 0x3000 || c.toNat = 0xFEFF

/-- `s.trim()`. -/
def jsTrim (s : String) : String :=
  String.mk ((s.data.dropWhile isJsWhitespace).reverse.dropWhile isJsWhitespace).reverse

/-- `s.length`: the number of UTF-16 code units. -/
def utf16Length (s : String) : Nat :=
  (s.data.map (fun c => if c.toNat < 0x10000 then 1 else 2)).sum

/-- The character class `[A-Z0-9]`. -/
def isKeyChar (c : Char) : Bool :=
  ('A'.toNat ≤ c.toNat && c.toNat ≤ 'Z'.toNat) || ('0'.toNat ≤ c.toNat && c.toNat ≤ '9'.toNat)

/-- The test `trimmed.length === 8 && /^[A-Z0-9]+$/.test(trimmed)` (line 352). -/
def looksLikeShareKey (trimmed : String) : Bool :=
  utf16Length trimmed == 8 && !trimmed.data.isEmpty && trimmed.data.all isKeyChar

/-- `createNote()`: the dialog with the input field is shown. The `input`
handler that relabels the confirm button ("Join" / "Create") is left out. -/
def createNote (s : State) : State :=
  match s.currentUser with
  | none => s
  | some _ =>
    let d := showModal "Create a Note" none true "Enter note title or a note key..." "Create" s.dom
    { s with dom := d }

/-- The fields of the `addDoc` call of `createNote` (lines 360-367). -/
def createFields (uid finalTitle : String) : List (String × FieldValue) :=
  [("userId", .str uid), ("title", .str finalTitle), ("content", .str ""),
   ("titleAlign", .str "left"), ("createdAt", .serverTimestamp), ("updatedAt", .serverTimestamp)]

/-- The `catch` branch of the confirm handler of `createNote` (lines 369-372). -/
def createCatch (s : State) : State :=
  { s with alerts := s.alerts ++ ["Failed to create note"] }

/-- The expression `inputVal ? inputVal.trim() : ""` (line 348). -/
def trimmedInput (inputVal : Option String) : String :=
  if truthy inputVal then jsTrim (orElse inputVal "") else ""

/-- The expression `trimmed || "Untitled Note"` (line 359). -/
def finalTitle (trimmed : String) : String :=
  if trimmed != "" then trimmed else "Untitled Note"

/-- The confirm handler of `createNote` (lines 347-373), up to its suspension,
run against the notes collection `db` of the store. -/
def createNoteConfirm (db : Option (List Note)) (inputVal : Option String) (s : State) : State :=
  if looksLikeShareKey (trimmedInput inputVal) then connectToNote db (trimmedInput inputVal) s
  else
    match s.currentUser with
    | none => createCatch s
    | some u =>
      { s with
        creates := s.creates ++ [⟨s.now, createFields u.uid (finalTitle (trimmedInput inputVal))⟩]
        createInflight := s.createInflight + 1 }

/-- The `addDoc` call is acknowledged with the id of the new document. -/
def createAck (newId : String) (s : State) : State :=
  if s.createInflight = 0 then s
  else { s with createInflight := s.createInflight - 1, activeNoteId := some newId }

/-- The `addDoc` call is rejected. -/
def createFail (s : State) : State :=
  if s.createInflight = 0 then s
  else createCatch { s with createInflight := s.createInflight - 1 }

/-! ## The document store, as far as the client's writes reach it -/

/-- The string a field value stores, `null` for the other values. -/
def FieldValue.asString : FieldValue → Option String
  | .str s => some s
  | _ => none

/-- The array a field holds after a write of `v`: `arrayUnion` adds the element
unless present, `arrayRemove` removes every occurrence; a missing field counts
as the empty array. -/
def FieldValue.asArray (old : Option (List String)) : FieldValue → Option (List String)
  | .arrayUnion x => some (if x ∈ old.getD [] then old.getD [] else old.getD [] ++ [x])
  | .arrayRemove x => some ((old.getD []).filter (fun y => decide (y ≠ x)))
  | _ => none

/-- The store setting one field of a document; `t` is the server time. Fields
the record type does not carry (`createdAt`, `lockedAt`) leave it unchanged. -/
def applyField (t : Timestamp) (n : Note) (f : String × FieldValue) : Note :=
  if f.1 = "userId" then { n with userId := f.2.asString }
  else if f.1 = "title" then { n with title := f.2.asString }
  else if f.1 = "content" then { n with content := f.2.asString }
  else if f.1 = "titleAlign" then { n with titleAlign := f.2.asString }
  else if f.1 = "lockedBy" then { n with lockedBy := f.2.asString }
  else if f.1 = "lockedByEmail" then { n with lockedByEmail := f.2.asString }
  else if f.1 = "shareKey" then { n with shareKey := f.2.asString }
  else if f.1 = "updatedAt" then
    { n with updatedAt := if f.2 = .serverTimestamp then some t else none }
  else if f.1 = "collaborators" then { n with collaborators := f.2.asArray n.collaborators }
  else n

/-- What an `updateDoc` call makes of one document of the store: the document
with the id of the call takes the fields, every other document stays. -/
def updatedDoc (t : Timestamp) (w : UpdateWrite) (n : Note) : Note :=
  if n.id = w.noteId then w.fields.foldl (applyField t) n else n

/-- The store applying an `updateDoc` call; nothing happens when no document has
the id. -/
def applyUpdate (t : Timestamp) (w : UpdateWrite) (store : List Note) : List Note :=
  store.map (updatedDoc t w)

/-- The store applying an `addDoc` call: a document with the new id `newId` and
the given fields is added. -/
def applyCreate (t : Timestamp) (newId : String) (c : CreateWrite) (store : List Note) :
    List Note :=
  store ++ [c.fields.foldl (applyField t) { id := newId }]

/-- The calls logged in `s2` that were not yet logged in `s1`. -/
def newWrites (s1 s2 : State) : List UpdateWrite := s2.writes.drop s1.writes.length

/-- The `addDoc` calls logged in `s2` that were not yet logged in `s1`. -/
def newCreates (s1 s2 : State) : List CreateWrite := s2.creates.drop s1.creates.length

/-- The data-model invariant: no note lists its owner among its collaborators. -/
def OwnerNotCollaborator (store : List Note) : Prop :=
  ∀ n ∈ store, ∀ o l, n.userId = some o → n.collaborators = some l → o ∉ l

/-! ## Selecting a note: `selectNote`, lines 497-525 -/

/-- `selectNote(noteId)`. After the two assignments to `innerHTML` the
properties read what the browser serialises. -/
def selectNote (noteId : String) (s : State) : State :=
  let s1 := { s with activeNoteId := some noteId }
  match findNote s1.notes (some noteId) with
  | none => s1
  | some note =>
    match renderNotesList s1 with
    | .error s2 => { s2 with uncaught := s2.uncaught + 1 }
    | .ok s2 =>
      let d := { s2.dom with
        editorHidden := false
        emptyStateHidden := true
        titleHtml := s2.browser.readBack (orElse note.title "")
        contentHtml := s2.browser.readBack (orElse note.content "")
        titleTextAlign := orElse note.titleAlign "left" }
      { s2 with
        dom := d
        lastSavedState :=
          { id := some note.id
            title := some (orElse note.title "")
            content := some (orElse note.content "")
            titleAlign := some (orElse note.titleAlign "left") } }

/-! ## Sessions: `onAuthStateChanged` callback and `loadNotes`, lines 87-147 -/

/-- Calling the unsubscribe function kept in a variable, when the variable holds
one: the listener with that handle is removed. -/
def unsubscribe (h : Option Nat) (ls : List Listener) : List Listener :=
  match h with
  | none => ls
  | some k => ls.filter (fun l => l.handle != k)

/-- `loadNotes`: the two `onSnapshot` calls; their callbacks are
`onOwnedSnapshot` and `onSharedSnapshot`. -/
def loadNotes (s : State) : State :=
  match s.currentUser with
  | none => s
  | some u =>
    { s with
      notesUnsubscribe := some s.nextListener
      sharedNotesUnsubscribe := some (s.nextListener + 1)
      listeners := s.listeners ++
        [⟨s.nextListener, false, u.uid⟩, ⟨s.nextListener + 1, true, u.uid⟩]
      nextListener := s.nextListener + 2 }

/-- The callback passed to `onAuthStateChanged` (lines 87-104). -/
def onAuthStateChanged (user : Option User) (s : State) : State :=
  let s1 := { s with dom := { s.dom with loadingFaded := true }, currentUser := user }
  match user with
  | some u =>
    let d := { s1.dom with
      authContainerHidden := true
      appContainerHidden := false
      userEmailText := u.email }
    loadNotes { s1 with dom := d }
  | none =>
    let d := { s1.dom with authContainerHidden := false, appContainerHidden := true }
    let s2 := { s1 with
      dom := d
      listeners := unsubscribe s1.notesUnsubscribe s1.listeners
      notes := []
      activeNoteId := none }
    match renderNotesList s2 with
    | .error s3 => { s3 with uncaught := s3.uncaught + 1 }
    | .ok s3 => showEmptyState s3

/-- The store delivers a snapshot to the listener with handle `h`: the callback
of that listener runs. Nothing happens when no such listener is registered. -/
def deliverSnapshot (h : Nat) (docs : List Note) (s : State) : State :=
  match s.listeners.find? (fun l => l.handle == h) with
  | none => s
  | some l => if l.shared then onSharedSnapshot docs s else onOwnedSnapshot docs s

/-! ## `escapeHtml`, lines 224-232 -/

/-- `str.replace(/c/g, r)` for a single character `c`, on the characters of the
string. -/
def replaceAll (c : Char) (r : String) (l : List Char) : List Char :=
  l.flatMap (fun x => if x = c then r.data else [x])

/-- The double quote character. -/
def dquote : Char := Char.ofNat 34

/-- The single quote character. -/
def squote : Char := Char.ofNat 39

/-- `escapeHtml`: the five replacements, in the order of the source. -/
def escapeHtml (str : String) : String :=
  String.mk
    (replaceAll squote "&#039;"
      (replaceAll dquote "&quot;"
        (replaceAll '>' "&gt;"
          (replaceAll '<' "&lt;"
            (replaceAll '&' "&amp;" str.data)))))

/-- The entities `escapeHtml` writes. -/
def htmlEntities : List String := ["&amp;", "&lt;", "&gt;", "&quot;", "&#039;"]

/-- Whether every `&` of a text begins one of the entities of `htmlEntities`. -/
def ampsBeginEntities : List Char → Bool
  | [] => true
  | c :: rest =>
    (c != '&' || htmlEntities.any (fun e => e.data.isPrefixOf (c :: rest))) &&
      ampsBeginEntities rest

/-! ## The event loop as a whole -/

/-- Everything that can happen to the client: user actions, timeouts, and the
store or the authentication service calling back. -/
inductive Event where
  | authChanged (user : Option User)
  | snapshot (listener : Nat) (docs : List Note)
  | select (noteId : String)
  | edit (e : Edit)
  | elapse (ms : Nat)
  | saveAcked (p : PendingSave)
  | saveFailed (p : PendingSave)
  | lockSettled
  | share (rand : Nat → ℚ) (noteId : String)
  | shareAcked (p : PendingShare)
  | shareFailed (p : PendingShare)
  | connect (db : Option (List Note)) (key : String)
  | connectAcked
  | connectFailed
  | leaveOpen
  | leaveConfirm (id : String)
  | leaveSettled (ok : Bool)
  | createOpen
  | createConfirm (db : Option (List Note)) (inputVal : Option String)
  | createAcked (newId : String)
  | createFailed

/-- The effect of one event. -/
def step (e : Event) (s : State) : State :=
  match e with
  | .authChanged user => onAuthStateChanged user s
  | .snapshot h docs => deliverSnapshot h docs s
  | .select noteId => selectNote noteId s
  | .edit e => editEvent e s
  | .elapse ms => elapse ms s
  | .saveAcked p => saveAck p s
  | .saveFailed p => saveFail p s
  | .lockSettled => lockSettled s
  | .share rand noteId => shareNote rand noteId s
  | .shareAcked p => shareAck p s
  | .shareFailed p => shareFail p s
  | .connect db key => connectToNote db key s
  | .connectAcked => connectAck s
  | .connectFailed => connectFail s
  | .leaveOpen => leaveNote s
  | .leaveConfirm id => leaveNoteConfirm id s
  | .leaveSettled ok => leaveSettled ok s
  | .createOpen => createNote s
  | .createConfirm db inputVal => createNoteConfirm db inputVal s
  | .createAcked newId => createAck newId s
  | .createFailed => createFail s

/-- A run of the client: the events in order. -/
def run (es : List Event) (s : State) : State :=
  es.foldl (fun st e => step e st) s

/-- An `updateDoc` call that does not name the owner field `userId`. -/
def NoOwnerField (w : UpdateWrite) : Prop := ∀ f ∈ w.fields, f.1 ≠ "userId"

/-- The store applying a series of `updateDoc` calls, each at its server time. -/
def applyUpdates (tws : List (Timestamp × UpdateWrite)) (store : List Note) : List Note :=
  tws.foldl (fun st tw => applyUpdate tw.1 tw.2 st) store

/-! ## Auxiliary predicates -/

/-- Well-formedness of the map: keys are distinct and each entry is filed under
the id of its note. -/
def MapOk (m : List (String × Note)) : Prop :=
  (m.map Prod.fst).Nodup ∧ ∀ p ∈ m, p.2.id = p.1

/-- The value stored under key `k` in a map kept as its entries. -/
def mapGet (m : List (String × Note)) (k : String) : Option Note :=
  (m.find? (fun p => decide (p.1 = k))).map Prod.snd

/-- The state in which `mergeAndRenderNotes` examines the active note when a
user is signed in: `notes` reassigned and the list rendered. -/
def afterRender (s : State) (u : User) : State :=
  let ns := mergeNotes s.ownedNotes s.sharedNotes
  { s with
    notes := ns
    dom := { s.dom with notesList := listItems ns s.activeNoteId u } }

/-- Every pending timeout is the one `saveTimeout` designates. -/
def DebounceOk (s : State) : Prop := ∀ t ∈ s.timers, s.saveTimeout = some t.1

instance (s : State) : Decidable (DebounceOk s) :=
  inferInstanceAs (Decidable (∀ t ∈ s.timers, s.saveTimeout = some t.1))

/-- The state right after a qualifying edit: exactly one timeout is pending, it
is the one `saveTimeout` designates, and it is due one debounce delay from now. -/
def Armed (s : State) : Prop :=
  qualifies s = true ∧ s.saveTimeout = some (s.nextTimerId - 1) ∧
    s.timers = [(s.nextTimerId - 1, s.now + debounceMs)]

/-- The ordering the specification words describe between two `updatedAt`
values, the first belonging to the earlier position: the first is at least the
second, a missing value being earlier than every value that is present. -/
def stampNotEarlier (x y : Option Timestamp) : Bool :=
  match x, y with
  | _, none => true
  | none, some _ => false
  | some a, some b => decide (Timestamp.le b a)

/-- The ordering of the specification's words on a whole collection: each
note's `updatedAt` is at least that of the note following it. -/
def specDescending : List Note → Bool
  | a :: b :: rest => stampNotEarlier a.updatedAt b.updatedAt && specDescending (b :: rest)
  | _ => true

/-- The state carried by the result of `renderNotesList`, thrown or not. -/
def renderedState (r : Except State State) : State :=
  match r with
  | .ok s => s
  | .error s => s

/-- What `escapeHtml` writes for one character. -/
def escapeChar (c : Char) : List Char :=
  if c = '&' then "&amp;".data
  else if c = '<' then "&lt;".data
  else if c = '>' then "&gt;".data
  else if c = dquote then "&quot;".data
  else if c = squote then "&#039;".data
  else [c]

/-- The characters `escapeHtml` replaces. -/
def isHtmlSpecial (c : Char) : Bool :=
  c = '&' || c = '<' || c = '>' || c = dquote || c = squote

/-- The `updateDoc` calls `s2` has logged are those of `s1` followed by calls
that do not name the owner field. -/
def AddsNoOwnerWrite (s1 s2 : State) : Prop :=
  ∃ l, s2.writes = s1.writes ++ l ∧ ∀ w ∈ l, NoOwnerField w

/-- The record of a freshly created note, as an acknowledged snapshot carries
it: the fields of the `addDoc` call, set by the store at server time `t`. -/
def createdRecord (t : Timestamp) (newId uid title : String) : Note :=
  (createFields uid title).foldl (applyField t) { id := newId }

/-! ## Example states -/

/-- Signed-in user of the examples. -/
def exUser : User := ⟨"me", "me@example.org"⟩

/-- Note `n1` as stored: title `T`, content `C`, alignment `left`. -/
def exNote : Note :=
  { id := "n1", userId := some "me", title := some "T", content := some "C",
    titleAlign := some "left", updatedAt := some ⟨100, 0⟩ }

/-- The browser as far as the examples meet it. Assigned to `innerHTML`, the
title `A & B` is read back as `A &amp; B`; interpolated into the banner
template, `x<i>y</i>&amp;z@e.org is editing the note...` leaves the `span` with
the text `xy&z@e.org is editing the note...`. Every other string of the
examples holds neither a tag nor a character reference and comes back as it
was given. -/
def exBrowser : Browser :=
  { readBack := fun v => if v = "A & B" then "A &amp; B" else v
    spanText := fun m =>
      if m = "x<i>y</i>&amp;z@e.org is editing the note..." then
        "xy&z@e.org is editing the note..."
      else m }

/-- The user has `n1` open, nothing edited, nothing pending. -/
def exOpen : State :=
  { browser := exBrowser
    currentUser := some exUser
    notes := [exNote]
    ownedNotes := [exNote]
    activeNoteId := some "n1"
    lastSavedState := ⟨some "n1", some "T", some "C", some "left"⟩
    dom := { titleHtml := "T", contentHtml := "C", titleTextAlign := "left",
             editorHidden := false, emptyStateHidden := true } }

/-- Note `n1` in a record without `titleAlign`: title `T`, content `C`. -/
def exLegacy : Note :=
  { id := "n1", userId := some "me", title := some "T", content := some "C" }

/-- A later record of `n1`, still without `titleAlign`: another user holds the
lock and has changed the title to `T2`. -/
def exLegacyLocked : Note :=
  { id := "n1", userId := some "me", title := some "T2", content := some "C",
    lockedBy := some "u2", lockedByEmail := some "u2@example.org" }

/-- The user has `n1` (record `exLegacy`) open and has just chosen "Center" for
the title: the editor shows `center`, the lock write was issued and debounce
timer 1 is pending. -/
def exCentered : State :=
  { browser := exBrowser
    currentUser := some exUser
    notes := [exLegacy]
    ownedNotes := [exLegacy]
    activeNoteId := some "n1"
    saveTimeout := some 1
    lastSavedState := ⟨some "n1", some "T", some "C", some "left"⟩
    isAcquiringLock := true
    dom := { titleHtml := "T", contentHtml := "C", titleTextAlign := "center",
             editorHidden := false, emptyStateHidden := true }
    now := 0
    nextTimerId := 2
    timers := [(1, 2000)]
    writes := [⟨0, "n1", lockFields exUser⟩]
    lockInflight := 1 }

/-- The editor of `exOpen` one debounce delay after the title was changed to
`Tx`: timer 1 has run, its save write is awaiting the store. -/
def exAwaiting : State := elapse debounceMs (editEvent (.title "Tx") exOpen)

/-- The suspended callback of timer 1 in `exAwaiting`. -/
def exPending : PendingSave := ⟨1, "Tx", "C", "left"⟩

/-- The state `exAwaiting` after a further edit of the title: timer 2 is
pending while the save of timer 1 is still awaiting the store. -/
def exEditedInFlight : State := editEvent (.title "Txy") exAwaiting

/-- Two notes updated within the same second, `b` a little later than `a`. -/
def exSameSecondA : Note := { id := "a", updatedAt := some ⟨100, 0⟩ }

/-- The note updated later within second 100. -/
def exSameSecondB : Note := { id := "b", updatedAt := some ⟨100, 500⟩ }

/-- Note A of the specification's ordering example: `updatedAt` 100. -/
def exA : Note := { id := "A", updatedAt := some ⟨100, 0⟩ }

/-- Note B of the ordering example: `updatedAt` 200. -/
def exB : Note := { id := "B", updatedAt := some ⟨200, 0⟩ }

/-- Note C of the ordering example: no `updatedAt`. -/
def exC : Note := { id := "C" }

/-- The state `exOpen` when the local record of `n1` is `exLegacyLocked`: the
note is locked by user `u2`. -/
def exLocked : State := { exOpen with notes := [exLegacyLocked], ownedNotes := [exLegacyLocked] }

/-- Note `n1` with the lock held by the signed-in user. -/
def exMineNote : Note := { exNote with lockedBy := some "me", lockedByEmail := some "me@example.org" }

/-- The state `exOpen` when the local record of `n1` shows the user's own lock. -/
def exMine : State := { exOpen with notes := [exMineNote], ownedNotes := [exMineNote] }

/-- A note of user `u2` that has a share key and one collaborator. -/
def exSharedNote : Note :=
  { id := "n9", userId := some "u2", title := some "Plan", shareKey := some "ABCDEFGH",
    collaborators := some ["u3"] }

/-- A notes collection: the user's own note and the note of `u2`. -/
def exStore : List Note := [exNote, exSharedNote]

/-- A random source whose every value is one half. -/
def exRand : Nat → ℚ := fun _ => 1 / 2

/-- Note `n2` as stored: title `B`, content `CB`, alignment `left`. -/
def exOther : Note :=
  { id := "n2", userId := some "me", title := some "B", content := some "CB",
    titleAlign := some "left", updatedAt := some ⟨50, 0⟩ }

/-- The user has `n1` open and also owns `n2`; nothing edited, nothing pending. -/
def exTwo : State := { exOpen with notes := [exNote, exOther], ownedNotes := [exNote, exOther] }

/-- Note `n8` of user `u2`, which user `me` has joined. -/
def exJoined : Note :=
  { id := "n8", userId := some "u2", title := some "Plan", updatedAt := some ⟨90, 0⟩,
    collaborators := some ["me"] }

/-- A session of user `me`: signed in on a fresh page, the owned listener has
delivered `n1` and the shared listener `n8`. -/
def exSession : State :=
  deliverSnapshot 2 [exJoined] (deliverSnapshot 1 [exNote] (onAuthStateChanged (some exUser) { browser := exBrowser }))

/-- Another user, who owns no note and shares none. -/
def exNewUser : User := ⟨"u5", "u5@example.org"⟩

/-- Note `n1` as stored after its title was set to `A & B` by another client. -/
def exAmp : Note := { exNote with title := some "A & B" }

/-- Note `n1` locked by `u2`, whose `lockedByEmail` holds markup. -/
def exMarkupLocked : Note :=
  { exNote with lockedBy := some "u2", lockedByEmail := some "x<i>y</i>&amp;z@e.org" }

/-- The user of `exOpen` has created the note `A & B`, the store has named it
`n7`, and the first acknowledged owned snapshot, carrying it, has been merged. -/
def exCreatedAmp : State :=
  onOwnedSnapshot [createdRecord ⟨500, 0⟩ "n7" "me" "A & B", exNote]
    (createAck "n7" (createNoteConfirm none (some "A & B") exOpen))

/-! ## The merge: distinct ids, membership, ordering -/

theorem mapSet_keys (m : List (String × Note)) (k : String) (v : Note) :
    (mapSet m k v).map Prod.fst =
      if k ∈ m.map Prod.fst then m.map Prod.fst else m.map Prod.fst ++ [k] := by
  induction m with
  | nil => simp [mapSet]
  | cons p rest ih =>
    obtain ⟨k', v'⟩ := p
    by_cases h : k' = k
    · subst h; simp [mapSet]
    · have h' : ¬ k = k' := fun e => h e.symm
      by_cases hm : k ∈ rest.map Prod.fst
      · simp only [mapSet, h, if_false, List.map_cons, ih, hm, if_true, List.mem_cons, or_true]
      · simp only [mapSet, h, if_false, List.map_cons, ih, hm, List.mem_cons, h', or_self,
          List.cons_append]

theorem mapSet_entry_id (m : List (String × Note)) (n : Note)
    (h : ∀ p ∈ m, p.2.id = p.1) : ∀ p ∈ mapSet m n.id n, p.2.id = p.1 := by
  induction m with
  | nil => intro p hp; simp [mapSet] at hp; subst hp; rfl
  | cons q rest ih =>
    obtain ⟨k', v'⟩ := q
    intro p hp
    by_cases hk : k' = n.id
    · simp only [mapSet, hk, if_true, List.mem_cons] at hp
      rcases hp with hp | hp
      · subst hp; rfl
      · exact h p (List.mem_cons_of_mem _ hp)
    · simp only [mapSet, hk, if_false, List.mem_cons] at hp
      rcases hp with hp | hp
      · subst hp; exact h (k', v') (List.mem_cons_self _ _)
      · exact ih (fun p hp => h p (List.mem_cons_of_mem _ hp)) p hp

theorem mapSet_ok (m : List (String × Note)) (n : Note) (h : MapOk m) :
    MapOk (mapSet m n.id n) := by
  refine ⟨?_, mapSet_entry_id m n h.2⟩
  rw [mapSet_keys]
  by_cases hm : n.id ∈ m.map Prod.fst
  · simpa [hm] using h.1
  · simp only [hm, if_false]
    exact List.Nodup.append h.1 (List.nodup_singleton _) (by simpa using hm)

theorem foldl_mapSet_ok (all : List Note) (m : List (String × Note)) (h : MapOk m) :
    MapOk (all.foldl (fun m n => mapSet m n.id n) m) := by
  induction all generalizing m with
  | nil => simpa using h
  | cons n rest ih => exact ih _ (mapSet_ok m n h)

theorem foldl_mapSet_mem_keys (all : List Note) (m : List (String × Note)) (k : String) :
    k ∈ (all.foldl (fun m n => mapSet m n.id n) m).map Prod.fst ↔
      k ∈ m.map Prod.fst ∨ k ∈ all.map Note.id := by
  induction all generalizing m with
  | nil => simp
  | cons n rest ih =>
    rw [List.foldl_cons, ih, mapSet_keys]
    by_cases hm : n.id ∈ m.map Prod.fst
    · simp only [hm, if_true, List.map_cons, List.mem_cons]
      constructor
      · rintro (h | h)
        · exact Or.inl h
        · exact Or.inr (Or.inr h)
      · rintro (h | h | h)
        · exact Or.inl h
        · subst h; exact Or.inl hm
        · exact Or.inr h
    · simp only [hm, if_false, List.map_cons, List.mem_cons, List.mem_append,
        List.mem_singleton]
      tauto

theorem uniqueMap_ok (all : List Note) : MapOk (uniqueMap all) :=
  foldl_mapSet_ok all [] ⟨by simp, by simp⟩

theorem uniqueMap_values_ids (all : List Note) :
    ((uniqueMap all).map Prod.snd).map Note.id = (uniqueMap all).map Prod.fst := by
  rw [List.map_map]
  apply List.map_congr_left
  intro p hp
  exact (uniqueMap_ok all).2 p hp

theorem mergeNotes_perm (owned shared : List Note) :
    (mergeNotes owned shared).Perm ((uniqueMap (owned ++ shared)).map Prod.snd) :=
  List.perm_insertionSort _ _

theorem mergeNotes_ids_perm (owned shared : List Note) :
    ((mergeNotes owned shared).map Note.id).Perm ((uniqueMap (owned ++ shared)).map Prod.fst) := by
  rw [← uniqueMap_values_ids]
  exact (mergeNotes_perm owned shared).map _

theorem mergeNotes_ids_nodup (owned shared : List Note) :
    ((mergeNotes owned shared).map Note.id).Nodup :=
  (mergeNotes_ids_perm owned shared).nodup_iff.mpr (uniqueMap_ok _).1

theorem mem_mergeNotes_ids (owned shared : List Note) (i : String) :
    i ∈ (mergeNotes owned shared).map Note.id ↔ i ∈ (owned ++ shared).map Note.id := by
  rw [(mergeNotes_ids_perm owned shared).mem_iff]
  unfold uniqueMap
  rw [foldl_mapSet_mem_keys]
  simp

theorem sortSeconds_of_some (n : Note) (t : Timestamp) (h : n.updatedAt = some t) :
    sortSeconds n = t.seconds := by
  unfold sortSeconds
  rw [h]
  by_cases h0 : t.seconds = 0 <;> simp [h0]

theorem sortSeconds_of_none (n : Note) (h : n.updatedAt = none) : sortSeconds n = 0 := by
  unfold sortSeconds
  rw [h]

instance : IsTotal Note notAfter :=
  ⟨fun a b => by unfold notAfter compareNotes; omega⟩

instance : IsTrans Note notAfter :=
  ⟨fun a b c => by unfold notAfter compareNotes; omega⟩

theorem mergeNotes_sorted (owned shared : List Note) :
    List.Sorted notAfter (mergeNotes owned shared) :=
  List.sorted_insertionSort _ _

/-! ## The reconciler -/

theorem renderNotesList_signedIn (s : State) (u : User) (hu : s.currentUser = some u) :
    renderNotesList { s with notes := mergeNotes s.ownedNotes s.sharedNotes } =
      .ok (afterRender s u) := by
  unfold renderNotesList afterRender
  simp only [hu]
  cases h : mergeNotes s.ownedNotes s.sharedNotes <;> simp [listItems]

theorem mergeAndRenderNotes_found (s : State) (u : User) (n : Note)
    (hu : s.currentUser = some u) (hact : truthy s.activeNoteId = true)
    (hfind : findNote (mergeNotes s.ownedNotes s.sharedNotes) s.activeNoteId = some n) :
    mergeAndRenderNotes s =
      let s2 := afterRender s u
      let s3 :=
        if (isLockedByOther n u || s.saveTimeout.isNone) && !n.hasPendingWrites then
          acceptRemote n s2
        else s2
      { s3 with dom := updateEditorLockState s.browser n u s3.dom } := by
  unfold mergeAndRenderNotes
  simp only [renderNotesList_signedIn s u hu]
  have h1 : (afterRender s u).activeNoteId = s.activeNoteId := rfl
  have h2 : (afterRender s u).notes = mergeNotes s.ownedNotes s.sharedNotes := rfl
  have h3 : (afterRender s u).currentUser = some u := hu
  have h4 : (afterRender s u).saveTimeout = s.saveTimeout := rfl
  simp only [h1, h2, h3, h4, hact, if_true, hfind]

theorem mergeAndRenderNotes_inactive (s : State) (u : User)
    (hu : s.currentUser = some u) (hact : truthy s.activeNoteId = false) :
    mergeAndRenderNotes s = afterRender s u := by
  unfold mergeAndRenderNotes
  simp only [renderNotesList_signedIn s u hu]
  have h1 : (afterRender s u).activeNoteId = s.activeNoteId := rfl
  simp [h1, hact]

theorem updateEditorLockState_frame (b : Browser) (n : Note) (u : User) (d : Dom) :
    (updateEditorLockState b n u d).titleHtml = d.titleHtml ∧
    (updateEditorLockState b n u d).contentHtml = d.contentHtml ∧
    (updateEditorLockState b n u d).titleTextAlign = d.titleTextAlign := by
  unfold updateEditorLockState
  split <;> simp

theorem acceptRemote_title (n : Note) (s : State) :
    (acceptRemote n s).dom.titleHtml =
      (if s.dom.titleHtml = orElse n.title "" then orElse n.title ""
       else s.browser.readBack (orElse n.title "")) := by
  unfold acceptRemote
  cases hta : n.titleAlign <;> simp only [] <;> (repeat' split) <;> simp_all

theorem acceptRemote_content (n : Note) (s : State) :
    (acceptRemote n s).dom.contentHtml =
      (if s.dom.contentHtml = orElse n.content "" then orElse n.content ""
       else s.browser.readBack (orElse n.content "")) := by
  unfold acceptRemote
  cases hta : n.titleAlign <;> simp only [] <;> (repeat' split) <;> simp_all

theorem findNote_id (ns : List Note) (i : Option String) (n : Note)
    (h : findNote ns i = some n) : some n.id = i := by
  unfold findNote at h
  have := List.find?_some h
  simpa using this

/-! ## The save pipeline -/

theorem clearIfCurrent_frame (tid : Nat) (s : State) :
    (clearIfCurrent tid s).writes = s.writes ∧
    (clearIfCurrent tid s).dom = s.dom ∧
    (clearIfCurrent tid s).lastSavedState = s.lastSavedState ∧
    (clearIfCurrent tid s).inflight = s.inflight ∧
    (clearIfCurrent tid s).timers = s.timers ∧
    (clearIfCurrent tid s).activeNoteId = s.activeNoteId ∧
    (clearIfCurrent tid s).now = s.now := by
  unfold clearIfCurrent
  split <;> simp

theorem clearIfCurrent_saveTimeout (tid : Nat) (s : State) :
    (clearIfCurrent tid s).saveTimeout = if s.saveTimeout = some tid then none else s.saveTimeout := by
  unfold clearIfCurrent
  split <;> simp [*]

theorem fireTimer_pending (tid : Nat) (s : State)
    (hp : s.timers.any (fun p => p.1 == tid) = true) :
    fireTimer tid s = timerCallback tid { s with timers := s.timers.filter (fun p => p.1 != tid) } := by
  unfold fireTimer
  rw [if_pos hp]

theorem clearTimeout_of_ok (s : State) (h : DebounceOk s) :
    clearTimeout s.saveTimeout s.timers = [] := by
  cases hs : s.saveTimeout with
  | none =>
    cases ht : s.timers with
    | nil => rfl
    | cons t rest =>
      have := h t (by rw [ht]; exact List.mem_cons_self _ _)
      rw [hs] at this
      cases this
  | some h0 =>
    unfold clearTimeout
    simp only [List.filter_eq_nil_iff]
    intro t ht
    have := h t ht
    rw [hs] at this
    simp only [Option.some.injEq] at this
    simp [this]

theorem acquireLock_frame (note : Option Note) (u : User) (aid : String) (s : State) :
    (acquireLock note u aid s).saveTimeout = s.saveTimeout ∧
    (acquireLock note u aid s).timers = s.timers ∧
    (acquireLock note u aid s).nextTimerId = s.nextTimerId ∧
    (acquireLock note u aid s).now = s.now ∧
    (acquireLock note u aid s).dom = s.dom ∧
    (acquireLock note u aid s).lastSavedState = s.lastSavedState ∧
    (acquireLock note u aid s).inflight = s.inflight ∧
    (acquireLock note u aid s).activeNoteId = s.activeNoteId ∧
    (acquireLock note u aid s).currentUser = s.currentUser ∧
    (acquireLock note u aid s).notes = s.notes ∧
    saveWrites (acquireLock note u aid s) = saveWrites s := by
  unfold acquireLock
  cases note with
  | none => simp
  | some n =>
    simp only []
    split
    · split
      · simp [saveWrites, List.filter_append, isSaveWrite, lockFields]
      · simp
    · simp

theorem handleInput_of_qualifies (s : State) (hq : qualifies s = true) :
    ∃ u aid, s.currentUser = some u ∧ s.activeNoteId = some aid ∧ aid ≠ "" ∧
      handleInput s = armTimer (acquireLock (findNote s.notes s.activeNoteId) u aid s) := by
  unfold qualifies at hq
  unfold handleInput
  cases ha : s.activeNoteId with
  | none => simp [ha] at hq
  | some aid =>
    cases hu : s.currentUser with
    | none => simp [ha, hu] at hq
    | some u =>
      simp only [ha, hu, Bool.and_eq_true, bne_iff_ne, ne_eq, Bool.not_eq_true'] at hq
      obtain ⟨hne, hl⟩ := hq
      exact ⟨u, aid, rfl, rfl, hne, by simp [hne, hl]⟩

/-- What a qualifying call of `handleInput` does to the fields the save
pipeline depends on. -/
theorem handleInput_qualifying (s : State) (hq : qualifies s = true) :
    (handleInput s).saveTimeout = some s.nextTimerId ∧
    (handleInput s).timers =
      clearTimeout s.saveTimeout s.timers ++ [(s.nextTimerId, s.now + debounceMs)] ∧
    (handleInput s).nextTimerId = s.nextTimerId + 1 ∧
    (handleInput s).now = s.now ∧
    (handleInput s).dom.titleHtml = s.dom.titleHtml ∧
    (handleInput s).dom.contentHtml = s.dom.contentHtml ∧
    (handleInput s).dom.titleTextAlign = s.dom.titleTextAlign ∧
    (handleInput s).lastSavedState = s.lastSavedState ∧
    (handleInput s).inflight = s.inflight ∧
    (handleInput s).activeNoteId = s.activeNoteId ∧
    (handleInput s).currentUser = s.currentUser ∧
    (handleInput s).notes = s.notes ∧
    saveWrites (handleInput s) = saveWrites s := by
  obtain ⟨u, aid, hu, ha, hne, heq⟩ := handleInput_of_qualifies s hq
  rw [heq]
  obtain ⟨h1, h2, h3, h4, h5, h6, h7, h8, h9, h10, h11⟩ :=
    acquireLock_frame (findNote s.notes s.activeNoteId) u aid s
  unfold armTimer
  refine ⟨by rw [h3], by rw [h1, h2, h3, h4], by rw [h3], h4, by rw [h5], by rw [h5],
    by rw [h5], h6, h7, h8, h9, h10, ?_⟩
  rw [← h11]
  rfl

theorem qualifies_congr (s s' : State) (h1 : s'.activeNoteId = s.activeNoteId)
    (h2 : s'.currentUser = s.currentUser) (h3 : s'.notes = s.notes) :
    qualifies s' = qualifies s := by
  unfold qualifies
  rw [h1, h2, h3]

theorem editEvent_qualifying (s : State) (e : Edit) (hq : qualifies s = true)
    (hok : DebounceOk s) :
    Armed (editEvent e s) ∧
    (editEvent e s).saveTimeout = some s.nextTimerId ∧
    (editEvent e s).timers = [(s.nextTimerId, s.now + debounceMs)] ∧
    (editEvent e s).now = s.now ∧
    (editEvent e s).lastSavedState = s.lastSavedState ∧
    (editEvent e s).inflight = s.inflight ∧
    (editEvent e s).activeNoteId = s.activeNoteId ∧
    saveWrites (editEvent e s) = saveWrites s := by
  have hq' : qualifies { s with dom := e.apply s.dom } = true := hq
  obtain ⟨h1, h2, h3, h4, -, -, -, h8, h9, h10, h11, h12, h13⟩ :=
    handleInput_qualifying { s with dom := e.apply s.dom } hq'
  have hclear : clearTimeout s.saveTimeout s.timers = [] := clearTimeout_of_ok s hok
  simp only [hclear, List.nil_append] at h2
  have hq2 : qualifies (editEvent e s) = true := by
    rw [← hq]
    exact qualifies_congr _ _ h10 h11 h12
  refine ⟨⟨hq2, ?_, ?_⟩, h1, h2, h4, h8, h9, h10, h13⟩
  · show (handleInput _).saveTimeout = some ((handleInput _).nextTimerId - 1)
    rw [h1, h3]; simp
  · show (handleInput _).timers = [((handleInput _).nextTimerId - 1, (handleInput _).now + debounceMs)]
    rw [h2, h3, h4]; simp

theorem nextDue_single_late (t due limit : Nat) (h : limit < due) :
    nextDue [(t, due)] limit = none := by
  have : ¬ due ≤ limit := by omega
  simp [nextDue, List.filter, this]

theorem nextDue_single_due (t due limit : Nat) (h : due ≤ limit) :
    nextDue [(t, due)] limit = some (t, due) := by
  simp [nextDue, List.filter, h]

theorem elapse_before_due (s : State) (t due g : Nat) (ht : s.timers = [(t, due)])
    (hlt : s.now + g < due) : elapse g s = { s with now := s.now + g } := by
  have hlen : s.timers.length = 1 := by rw [ht]; rfl
  unfold elapse
  rw [hlen]
  unfold elapseTo
  rw [ht, nextDue_single_late t due _ hlt]
  simp

theorem timerCallback_frame (tid : Nat) (s : State) :
    (timerCallback tid s).now = s.now ∧
    (timerCallback tid s).timers = s.timers ∧
    (timerCallback tid s).activeNoteId = s.activeNoteId ∧
    (timerCallback tid s).lastSavedState = s.lastSavedState := by
  unfold timerCallback saveCatch
  split
  · obtain ⟨-, -, h3, -, h5, h6, h7⟩ := clearIfCurrent_frame tid
      { s with dom := { s.dom with saveStatusText := "Saved", saveStatusShown := true } }
    exact ⟨h7, h5, h6, h3⟩
  · obtain ⟨-, -, h3, -, h5, h6, h7⟩ := clearIfCurrent_frame tid
      { s with dom := { s.dom with saveStatusText := "Error saving", saveStatusShown := true } }
    split
    · exact ⟨h7, h5, h6, h3⟩
    · split
      · exact ⟨h7, h5, h6, h3⟩
      · exact ⟨rfl, rfl, rfl, rfl⟩

theorem timerCallback_saveWrites (tid : Nat) (s : State) (aid : String)
    (hact : s.activeNoteId = some aid) (hne : aid ≠ "") :
    saveWrites (timerCallback tid s) = saveWrites s ++
      (if matchesSaved s then []
       else [⟨s.now, aid, saveFields s.dom.titleHtml s.dom.contentHtml (displayedAlign s.dom)⟩]) := by
  unfold timerCallback
  by_cases hm : matchesSaved s = true
  · simp only [hm, if_true, List.append_nil]
    unfold saveWrites
    rw [(clearIfCurrent_frame tid _).1]
  · simp only [hm, if_false, hact, hne, Bool.false_eq_true]
    simp [saveWrites, List.filter_append, isSaveWrite, saveFields]

theorem fireTimer_single (s : State) (t due : Nat) (ht : s.timers = [(t, due)]) :
    fireTimer t s = timerCallback t { s with timers := [] } := by
  unfold fireTimer
  simp [ht]

theorem elapseTo_zero_of_now (x : State) (limit : Nat) (h : x.now = limit) :
    elapseTo 0 limit x = x := by
  unfold elapseTo
  cases x
  simp only [] at h
  subst h
  simp

theorem elapse_due (s : State) (t d : Nat) (ht : s.timers = [(t, s.now + d)]) :
    elapse d s = timerCallback t { s with now := s.now + d, timers := [] } := by
  have hmax : max s.now (s.now + d) = s.now + d := by omega
  have hlen : s.timers.length = 1 := by rw [ht]; rfl
  unfold elapse
  rw [hlen]
  unfold elapseTo
  rw [ht, nextDue_single_due t _ _ (le_refl _)]
  simp only [hmax]
  rw [fireTimer_single _ t (s.now + d) rfl]
  exact elapseTo_zero_of_now _ _ (timerCallback_frame t _).1

theorem armed_debounceOk (s : State) (h : Armed s) : DebounceOk s := by
  obtain ⟨-, h2, h3⟩ := h
  intro t ht
  rw [h3] at ht
  simp only [List.mem_singleton] at ht
  rw [ht, h2]

theorem elapse_armed (s : State) (g : Nat) (h : Armed s) (hg : g < debounceMs) :
    elapse g s = { s with now := s.now + g } :=
  elapse_before_due s _ _ g h.2.2 (by omega)

/-- One round of `runEdits` from an armed state: waiting less than the debounce
delay runs no callback, and the edit re-arms the timer. -/
theorem armed_step (s : State) (g : Nat) (e : Edit) (h : Armed s) (hg : g < debounceMs) :
    Armed (editEvent e (elapse g s)) ∧
    (elapse g s).timers.length = 1 ∧
    (editEvent e (elapse g s)).timers.length = 1 ∧
    (editEvent e (elapse g s)).lastSavedState = s.lastSavedState ∧
    (editEvent e (elapse g s)).activeNoteId = s.activeNoteId ∧
    (editEvent e (elapse g s)).inflight = s.inflight ∧
    saveWrites (editEvent e (elapse g s)) = saveWrites s := by
  rw [elapse_armed s g h hg]
  have hq : qualifies { s with now := s.now + g } = true := h.1
  have hok : DebounceOk { s with now := s.now + g } := armed_debounceOk s h
  obtain ⟨a, -, c, -, e1, f, g1, h1⟩ := editEvent_qualifying { s with now := s.now + g } e hq hok
  refine ⟨a, ?_, ?_, e1, g1, f, h1⟩
  · show s.timers.length = 1
    rw [h.2.2]; rfl
  · rw [c]; rfl

theorem runEdits_armed (rest : List (Nat × Edit)) (s : State) (h : Armed s)
    (hgap : ∀ ge ∈ rest, ge.1 < debounceMs) :
    Armed (runEdits rest s) ∧
    (∀ st ∈ editTrace rest s, st.timers.length = 1) ∧
    (runEdits rest s).lastSavedState = s.lastSavedState ∧
    (runEdits rest s).activeNoteId = s.activeNoteId ∧
    (runEdits rest s).inflight = s.inflight ∧
    saveWrites (runEdits rest s) = saveWrites s := by
  induction rest generalizing s with
  | nil => exact ⟨h, (by intro st hst; cases hst), rfl, rfl, rfl, rfl⟩
  | cons ge rest ih =>
    obtain ⟨a, b, c, d, e1, f, g1⟩ :=
      armed_step s ge.1 ge.2 h (hgap ge (List.mem_cons_self _ _))
    obtain ⟨a', b', c', d', e', f'⟩ :=
      ih (editEvent ge.2 (elapse ge.1 s)) a (fun x hx => hgap x (List.mem_cons_of_mem _ hx))
    have hrun : runEdits (ge :: rest) s = runEdits rest (editEvent ge.2 (elapse ge.1 s)) := rfl
    rw [hrun]
    refine ⟨a', ?_, by rw [c', d], by rw [d', e1], by rw [e', f], by rw [f', g1]⟩
    intro st hst
    simp only [editTrace, List.mem_cons] at hst
    rcases hst with hst | hst | hst
    · rw [hst]; exact b
    · rw [hst]; exact c
    · exact b' st hst

theorem saveResume_frame (p : PendingSave) (s : State) :
    (saveResume p s).timers = s.timers ∧
    (saveResume p s).now = s.now ∧
    (saveResume p s).writes = s.writes ∧
    (saveResume p s).saveTimeout =
      (if s.saveTimeout = some p.thisTimeoutId then none else s.saveTimeout) := by
  unfold saveResume
  obtain ⟨h1, -, -, -, h5, -, h7⟩ := clearIfCurrent_frame p.thisTimeoutId
    { s with
      lastSavedState :=
        { id := s.activeNoteId
          title := some p.title
          content := some p.content
          titleAlign := some p.titleAlign }
      dom := { s.dom with saveStatusText := "Saved", saveStatusShown := true } }
  exact ⟨h5, h7, h1, clearIfCurrent_saveTimeout _ _⟩

theorem saveCatch_frame (tid : Nat) (s : State) :
    (saveCatch tid s).timers = s.timers ∧
    (saveCatch tid s).now = s.now ∧
    (saveCatch tid s).writes = s.writes ∧
    (saveCatch tid s).lastSavedState = s.lastSavedState ∧
    (saveCatch tid s).inflight = s.inflight ∧
    (saveCatch tid s).dom.saveStatusText = "Error saving" ∧
    (saveCatch tid s).dom.saveStatusShown = true ∧
    (saveCatch tid s).saveTimeout = (if s.saveTimeout = some tid then none else s.saveTimeout) := by
  unfold saveCatch
  obtain ⟨h1, h2, h3, h4, h5, -, h7⟩ := clearIfCurrent_frame tid
    { s with dom := { s.dom with saveStatusText := "Error saving", saveStatusShown := true } }
  exact ⟨h5, h7, h1, h3, h4, by rw [h2], by rw [h2], clearIfCurrent_saveTimeout _ _⟩

theorem saveAck_frame (p : PendingSave) (s : State) :
    (saveAck p s).timers = s.timers ∧
    (saveAck p s).now = s.now ∧
    (saveAck p s).writes = s.writes ∧
    ((saveAck p s).saveTimeout = s.saveTimeout ∨
      (s.saveTimeout = some p.thisTimeoutId ∧ (saveAck p s).saveTimeout = none)) := by
  unfold saveAck
  split
  · obtain ⟨h1, h2, h3, h4⟩ := saveResume_frame p { s with inflight := s.inflight.erase p }
    refine ⟨h1, h2, h3, ?_⟩
    rw [h4]
    by_cases hc : s.saveTimeout = some p.thisTimeoutId
    · exact Or.inr ⟨hc, by simp [hc]⟩
    · exact Or.inl (by simp [hc])
  · exact ⟨rfl, rfl, rfl, Or.inl rfl⟩

theorem saveFail_frame (p : PendingSave) (s : State) :
    (saveFail p s).timers = s.timers ∧
    (saveFail p s).now = s.now ∧
    (saveFail p s).writes = s.writes ∧
    (saveFail p s).lastSavedState = s.lastSavedState ∧
    ((saveFail p s).saveTimeout = s.saveTimeout ∨
      (s.saveTimeout = some p.thisTimeoutId ∧ (saveFail p s).saveTimeout = none)) := by
  unfold saveFail
  split
  · obtain ⟨h1, h2, h3, h4, -, -, -, h8⟩ :=
      saveCatch_frame p.thisTimeoutId { s with inflight := s.inflight.erase p }
    refine ⟨h1, h2, h3, h4, ?_⟩
    rw [h8]
    by_cases hc : s.saveTimeout = some p.thisTimeoutId
    · exact Or.inr ⟨hc, by simp [hc]⟩
    · exact Or.inl (by simp [hc])
  · exact ⟨rfl, rfl, rfl, rfl, Or.inl rfl⟩

theorem timerCallback_saveTimeout (tid : Nat) (s : State) :
    (timerCallback tid s).saveTimeout = s.saveTimeout ∨
      (s.saveTimeout = some tid ∧ (timerCallback tid s).saveTimeout = none) := by
  have key : ∀ x : State, x.saveTimeout = s.saveTimeout →
      ((clearIfCurrent tid x).saveTimeout = s.saveTimeout ∨
        (s.saveTimeout = some tid ∧ (clearIfCurrent tid x).saveTimeout = none)) := by
    intro x hx
    rw [clearIfCurrent_saveTimeout, hx]
    by_cases hc : s.saveTimeout = some tid
    · exact Or.inr ⟨hc, by simp [hc]⟩
    · exact Or.inl (by simp [hc])
  unfold timerCallback saveCatch
  split
  · exact key _ rfl
  · split
    · exact key _ rfl
    · split
      · exact key _ rfl
      · exact Or.inl rfl

theorem elapse_no_timers (s : State) (d : Nat) (h : s.timers = []) :
    elapse d s = { s with now := s.now + d } := by
  have hlen : s.timers.length = 0 := by rw [h]; rfl
  unfold elapse
  rw [hlen]
  unfold elapseTo
  simp

/-! ## Last write wins in the merge -/

theorem mapGet_mapSet (m : List (String × Note)) (k k' : String) (v : Note) :
    mapGet (mapSet m k v) k' = if k' = k then some v else mapGet m k' := by
  induction m with
  | nil =>
    by_cases h : k' = k
    · subst h; simp [mapSet, mapGet]
    · have h' : ¬ k = k' := fun e => h e.symm
      simp [mapSet, mapGet, h, h']
  | cons p rest ih =>
    obtain ⟨k0, v0⟩ := p
    unfold mapGet at ih ⊢
    by_cases h0 : k0 = k
    · subst h0
      by_cases h : k' = k0
      · subst h; simp [mapSet]
      · have h' : ¬ k0 = k' := fun e => h e.symm
        simp [mapSet, h, h']
    · by_cases h1 : k0 = k'
      · subst h1
        have : ¬ k0 = k := h0
        simp [mapSet, h0]
      · simp only [mapSet, h0, if_false, List.find?_cons, h1, decide_False]
        exact ih

theorem findNote_append (l1 l2 : List Note) (i : Option String) :
    findNote (l1 ++ l2) i = (findNote l1 i).or (findNote l2 i) := by
  unfold findNote
  rw [List.find?_append]

theorem mapGet_foldl (all : List Note) (m : List (String × Note)) (k : String) :
    mapGet (all.foldl (fun m n => mapSet m n.id n) m) k =
      (findNote all.reverse (some k)).or (mapGet m k) := by
  induction all generalizing m with
  | nil => simp [findNote]
  | cons x rest ih =>
    rw [List.foldl_cons, ih, mapGet_mapSet, List.reverse_cons, findNote_append]
    cases hr : findNote rest.reverse (some k) with
    | some n => simp
    | none =>
      by_cases hk : k = x.id
      · subst hk; simp [findNote]
      · have hk' : ¬ x.id = k := fun e => hk e.symm
        simp [findNote, hk, hk']

theorem findNote_some (l : List Note) (i : String) :
    findNote l (some i) = l.find? (fun n => decide (n.id = i)) := by
  unfold findNote
  congr
  funext n
  simp

theorem findNote_values (m : List (String × Note)) (h : ∀ p ∈ m, p.2.id = p.1) (k : String) :
    findNote (m.map Prod.snd) (some k) = mapGet m k := by
  rw [findNote_some]
  unfold mapGet
  induction m with
  | nil => rfl
  | cons p rest ih =>
    have hp := h p (List.mem_cons_self _ _)
    have ih' := ih (fun q hq => h q (List.mem_cons_of_mem _ hq))
    simp only [List.map_cons, List.find?_cons]
    by_cases hk : p.1 = k
    · simp [hk, hp]
    · have : ¬ p.2.id = k := by rw [hp]; exact hk
      simp only [hk, this, Option.some.injEq, decide_False]
      exact ih'

theorem findNote_eq_some_iff (l : List Note) (hnd : (l.map Note.id).Nodup) (i : String) (n : Note) :
    findNote l (some i) = some n ↔ n ∈ l ∧ n.id = i := by
  induction l with
  | nil => simp [findNote]
  | cons x rest ih =>
    rw [List.map_cons, List.nodup_cons] at hnd
    have ih' := ih hnd.2
    rw [findNote_some] at ih' ⊢
    by_cases hx : x.id = i
    · simp only [List.find?_cons, hx, Option.some.injEq, decide_True, List.mem_cons]
      constructor
      · intro h; subst h; exact ⟨Or.inl rfl, hx⟩
      · rintro ⟨h | h, hid⟩
        · exact h.symm
        · exfalso
          apply hnd.1
          rw [hx, ← hid]
          exact List.mem_map_of_mem _ h
    · simp only [List.find?_cons, hx, Option.some.injEq, decide_False, List.mem_cons]
      rw [ih']
      constructor
      · rintro ⟨h, hid⟩; exact ⟨Or.inr h, hid⟩
      · rintro ⟨h | h, hid⟩
        · subst h; exact absurd hid hx
        · exact ⟨h, hid⟩

theorem findNote_eq_none_iff (l : List Note) (i : String) :
    findNote l (some i) = none ↔ i ∉ l.map Note.id := by
  unfold findNote
  simp [List.find?_eq_none]

theorem findNote_perm (l1 l2 : List Note) (hp : l1.Perm l2) (hnd : (l1.map Note.id).Nodup)
    (i : String) : findNote l1 (some i) = findNote l2 (some i) := by
  have hnd2 : (l2.map Note.id).Nodup := (hp.map Note.id).nodup_iff.mp hnd
  cases h : findNote l2 (some i) with
  | none =>
    rw [findNote_eq_none_iff] at h ⊢
    intro hc
    exact h ((hp.map Note.id).mem_iff.mp hc)
  | some n =>
    rw [findNote_eq_some_iff l2 hnd2] at h
    rw [findNote_eq_some_iff l1 hnd]
    exact ⟨hp.mem_iff.mpr h.1, h.2⟩

theorem findNote_mergeNotes (owned shared : List Note) (i : String) :
    findNote (mergeNotes owned shared) (some i) = findNote (owned ++ shared).reverse (some i) := by
  rw [findNote_perm _ _ (mergeNotes_perm owned shared) (mergeNotes_ids_nodup owned shared),
    findNote_values _ (uniqueMap_ok _).2]
  unfold uniqueMap
  rw [mapGet_foldl]
  simp [mapGet]

/-! ## Reconciler and lock manager -/

theorem mergeAndRenderNotes_missing (s : State) (u : User)
    (hu : s.currentUser = some u) (hact : truthy s.activeNoteId = true)
    (hfind : findNote (mergeNotes s.ownedNotes s.sharedNotes) s.activeNoteId = none) :
    mergeAndRenderNotes s = showEmptyState (afterRender s u) := by
  unfold mergeAndRenderNotes
  simp only [renderNotesList_signedIn s u hu]
  have h1 : (afterRender s u).activeNoteId = s.activeNoteId := rfl
  have h2 : (afterRender s u).notes = mergeNotes s.ownedNotes s.sharedNotes := rfl
  simp only [h1, h2, hact, if_true, hfind]

theorem handleInput_of_not_qualifies (s : State) (hq : qualifies s = false) :
    handleInput s = s := by
  unfold qualifies at hq
  unfold handleInput
  cases ha : s.activeNoteId with
  | none => rfl
  | some aid =>
    cases hu : s.currentUser with
    | none => rfl
    | some u =>
      simp only [ha, hu] at hq
      by_cases hne : aid = ""
      · simp [hne]
      · have hl : lockedOut (findNote s.notes (some aid)) u = true := by
          simpa [hne] using hq
        simp [hne, hl]

theorem handleInput_active (s : State) (u : User) (aid : String) (n : Note)
    (hu : s.currentUser = some u) (ha : s.activeNoteId = some aid) (hne : aid ≠ "")
    (hf : findNote s.notes s.activeNoteId = some n) (hl : isLockedByOther n u = false) :
    handleInput s = armTimer (acquireLock (some n) u aid s) := by
  unfold handleInput
  simp only [ha, hu, hne, if_false]
  rw [ha] at hf
  simp [hf, lockedOut, hl]

theorem handleInput_writes_of_acquiring (x : State) (h : x.isAcquiringLock = true) :
    (handleInput x).writes = x.writes ∧ (handleInput x).isAcquiringLock = true := by
  unfold handleInput
  cases ha : x.activeNoteId with
  | none => exact ⟨rfl, h⟩
  | some aid =>
    cases hu : x.currentUser with
    | none => exact ⟨rfl, h⟩
    | some u =>
      simp only []
      split
      · exact ⟨rfl, h⟩
      · split
        · exact ⟨rfl, h⟩
        · have hacq : acquireLock (findNote x.notes (some aid)) u aid x = x := by
            unfold acquireLock
            cases findNote x.notes (some aid) with
            | none => rfl
            | some n => simp [h]
          rw [hacq]
          exact ⟨rfl, h⟩

theorem acceptRemote_lock_ui (n : Note) (s : State) :
    (acceptRemote n s).dom.indicator = s.dom.indicator ∧
    (acceptRemote n s).dom.editorLocked = s.dom.editorLocked := by
  unfold acceptRemote
  cases hta : n.titleAlign <;> simp only [] <;> (repeat' split) <;> simp_all

theorem lockedMsg_eq (n : Note) :
    lockedMsg n =
      if truthy n.lockedByEmail then orElse n.lockedByEmail "" ++ " is editing the note..."
      else "Another user is editing the note..." := by
  unfold lockedMsg truthy orElse
  cases h : n.lockedByEmail with
  | none => simp
  | some e => by_cases he : e = "" <;> simp [he]

/-! ## Share keys -/

theorem keyChars_length : keyChars.data.length = 36 := by decide

theorem keyChars_all : ∀ c ∈ keyChars.data, isKeyChar c = true := by decide

theorem randomIndex_range (r : ℚ) (n : Nat) (h0 : 0 ≤ r) (h1 : r < 1) (hn : 0 < n) :
    0 ≤ randomIndex r n ∧ randomIndex r n < n := by
  unfold randomIndex
  have hn' : (0 : ℚ) < (n : ℚ) := by exact_mod_cast hn
  constructor
  · exact Int.floor_nonneg.mpr (mul_nonneg h0 hn'.le)
  · rw [Int.floor_lt]
    have : r * (n : ℚ) < 1 * (n : ℚ) := mul_lt_mul_of_pos_right h1 hn'
    simpa using this

theorem charAt_keyChars (r : ℚ) (h0 : 0 ≤ r) (h1 : r < 1) :
    ∃ c, isKeyChar c = true ∧
      charAt keyChars (randomIndex r keyChars.length) = String.singleton c := by
  have hlen : keyChars.length = 36 := keyChars_length
  obtain ⟨ha, hb⟩ := randomIndex_range r keyChars.length h0 h1 (by rw [hlen]; norm_num)
  have hb' : randomIndex r keyChars.length < 36 := by
    rw [hlen] at hb
    exact_mod_cast hb
  have hlt : (randomIndex r keyChars.length).toNat < keyChars.data.length := by
    rw [keyChars_length]
    omega
  refine ⟨keyChars.data.get ⟨_, hlt⟩, keyChars_all _ (List.get_mem _ _ _), ?_⟩
  unfold charAt
  rw [if_neg (by omega)]
  rw [List.get?_eq_get hlt]

theorem keyLoop_data (rand : Nat → ℚ) (is : List Nat)
    (h : ∀ i ∈ is, 0 ≤ rand i ∧ rand i < 1) (init : String) :
    ∃ cs : List Char, cs.length = is.length ∧ (∀ c ∈ cs, isKeyChar c = true) ∧
      (is.foldl (fun key i => key ++ charAt keyChars (randomIndex (rand i) keyChars.length))
        init).data = init.data ++ cs := by
  induction is generalizing init with
  | nil => exact ⟨[], rfl, by simp, by simp⟩
  | cons i rest ih =>
    obtain ⟨c, hc, hch⟩ := charAt_keyChars (rand i) (h i (List.mem_cons_self _ _)).1
      (h i (List.mem_cons_self _ _)).2
    obtain ⟨cs, hlen, hall, hdata⟩ := ih (fun j hj => h j (List.mem_cons_of_mem _ hj))
      (init ++ charAt keyChars (randomIndex (rand i) keyChars.length))
    refine ⟨c :: cs, by simp [hlen], ?_, ?_⟩
    · intro x hx
      rcases List.mem_cons.mp hx with hx | hx
      · rw [hx]; exact hc
      · exact hall x hx
    · rw [List.foldl_cons, hdata, hch]
      simp [String.data_append, String.singleton]

theorem generateNoteKey_data (rand : Nat → ℚ) (h : ∀ i, i < 8 → 0 ≤ rand i ∧ rand i < 1) :
    (generateNoteKey rand).data.length = 8 ∧
    ∀ c ∈ (generateNoteKey rand).data, isKeyChar c = true := by
  obtain ⟨cs, hlen, hall, hdata⟩ := keyLoop_data rand (List.range 8)
    (fun i hi => h i (List.mem_range.mp hi)) ""
  unfold generateNoteKey
  rw [hdata]
  have he : ("" : String).data = [] := rfl
  rw [he, List.nil_append]
  exact ⟨by rw [hlen]; rfl, hall⟩

theorem findNote_assignShareKey (l : List Note) (i : String) (n : Note) (key : String)
    (h : findNote l (some i) = some n) :
    findNote (assignShareKey n key l) (some i) = some { n with shareKey := some key } := by
  have hid : n.id = i := by
    have := findNote_id l (some i) n h
    simpa using this
  rw [findNote_some] at h ⊢
  unfold assignShareKey
  induction l with
  | nil => simp at h
  | cons x rest ih =>
    simp only [List.find?_cons] at h
    by_cases hx : x.id = i
    · simp only [hx, decide_True, Option.some.injEq] at h
      subst h
      simp [hx]
    · simp only [hx, decide_False] at h
      have hxn : x ≠ n := by
        intro e; rw [e] at hx; exact hx hid
      simp only [List.map_cons, hxn, if_false, List.find?_cons, hx, decide_False]
      exact ih h

theorem generateNoteKey_truthy (rand : Nat → ℚ) (h : ∀ i, i < 8 → 0 ≤ rand i ∧ rand i < 1) :
    truthy (some (generateNoteKey rand)) = true ∧
    orElse (some (generateNoteKey rand)) "" = generateNoteKey rand := by
  have hl : (generateNoteKey rand).data.length = 8 := (generateNoteKey_data rand h).1
  have hne : generateNoteKey rand ≠ "" := by
    intro e
    rw [e] at hl
    simp at hl
  simp [truthy, orElse, hne]

theorem shareNote_of_key (rand : Nat → ℚ) (noteId : String) (x : State) (n : Note)
    (hf : findNote x.notes (some noteId) = some n) (hk : truthy n.shareKey = true) :
    shareNote rand noteId x = { x with dom := showShareKey (orElse n.shareKey "") x.dom } := by
  unfold shareNote
  simp only [hf, hk, if_true]

theorem shareNote_of_no_key (rand : Nat → ℚ) (noteId : String) (x : State) (n : Note)
    (hf : findNote x.notes (some noteId) = some n) (hk : truthy n.shareKey = false)
    (hne : noteId ≠ "") :
    shareNote rand noteId x =
      { x with
        writes := x.writes ++ [⟨x.now, noteId, shareFields (generateNoteKey rand)⟩]
        shareInflight := x.shareInflight ++ [⟨noteId, generateNoteKey rand, n⟩] } := by
  unfold shareNote
  simp [hf, hk, hne]

/-! ## Joining, leaving and the store -/

theorem showModal_open (title : String) (message : String) (hm : message ≠ "")
    (confirmText : String) (d : Dom) :
    (showModal title (some message) false "" confirmText d).modalHidden = false ∧
    (showModal title (some message) false "" confirmText d).modalTitle = title ∧
    (showModal title (some message) false "" confirmText d).modalMessage = message ∧
    (showModal title (some message) false "" confirmText d).modalMessageHidden = false := by
  unfold showModal
  simp [truthy, orElse, hm]

theorem connectToNote_signedIn (db : List Note) (key : String) (s : State) (u : User)
    (hu : s.currentUser = some u) :
    connectToNote (some db) key s = connectResume (some (queryByShareKey db key)) s := by
  unfold connectToNote
  simp [hu]

/-- The outcome of `connectToNote` for a signed-in user, by cases on the first
document of the query result. -/
theorem connectResume_cases (docs : List Note) (s : State) (u : User)
    (hu : s.currentUser = some u) :
    (docs = [] →
      (connectResume (some docs) s).writes = s.writes ∧
      (connectResume (some docs) s).dom = showModal "Error"
        (some "Note not found with that key. Please check and try again.") false "" "OK" s.dom) ∧
    (∀ d rest, docs = d :: rest → d.userId = some u.uid →
      (connectResume (some docs) s).writes = s.writes ∧
      (connectResume (some docs) s).dom =
        showModal "Info" (some "You are the owner of this note.") false "" "OK" s.dom) ∧
    (∀ d rest, docs = d :: rest → d.userId ≠ some u.uid → alreadyJoined d u.uid = true →
      (connectResume (some docs) s).writes = s.writes ∧
      (connectResume (some docs) s).dom =
        showModal "Info" (some "You have already joined this note.") false "" "OK" s.dom) ∧
    (∀ d rest, docs = d :: rest → d.userId ≠ some u.uid → alreadyJoined d u.uid = false →
      d.id ≠ "" →
      (connectResume (some docs) s).writes =
        s.writes ++ [⟨s.now, d.id, [("collaborators", .arrayUnion u.uid)]⟩] ∧
      (connectResume (some docs) s).dom = s.dom) := by
  refine ⟨?_, ?_, ?_, ?_⟩
  · intro h; subst h
    exact ⟨rfl, rfl⟩
  · intro d rest h ho; subst h
    unfold connectResume
    simp only [hu, ho, if_true]
    exact ⟨trivial, trivial⟩
  · intro d rest h ho hj; subst h
    unfold connectResume
    simp only [hu, ho, hj, if_true, if_false]
    exact ⟨trivial, trivial⟩
  · intro d rest h ho hj hid; subst h
    unfold connectResume
    simp only [hu, ho, hj, hid, if_false, Bool.false_eq_true]
    exact ⟨trivial, trivial⟩

theorem connectToNote_newWrites (db : List Note) (key : String) (s : State) :
    newWrites s (connectToNote (some db) key s) = [] ∨
    ∃ u d, s.currentUser = some u ∧ d ∈ db ∧ d.userId ≠ some u.uid ∧
      newWrites s (connectToNote (some db) key s) =
        [⟨s.now, d.id, [("collaborators", .arrayUnion u.uid)]⟩] := by
  unfold connectToNote newWrites
  cases hu : s.currentUser with
  | none => left; simp
  | some u =>
    simp only [Option.map_some']
    cases hq : queryByShareKey db key with
    | nil => left; simp [connectResume, hu]
    | cons d rest =>
      have hd : d ∈ db := by
        have : d ∈ queryByShareKey db key := by rw [hq]; exact List.mem_cons_self _ _
        unfold queryByShareKey at this
        exact (List.mem_filter.mp this).1
      unfold connectResume
      simp only [hu]
      by_cases ho : d.userId = some u.uid
      · left; simp [ho]
      · by_cases hj : alreadyJoined d u.uid = true
        · left; simp [ho, hj]
        · by_cases hid : d.id = ""
          · left; simp [ho, hj, hid, connectCatch]
          · right
            exact ⟨u, d, rfl, hd, ho, by simp [ho, hj, hid]⟩

theorem applyField_collaborators (t : Timestamp) (n : Note) (v : FieldValue) :
    applyField t n ("collaborators", v) = { n with collaborators := v.asArray n.collaborators } := by
  unfold applyField
  simp

theorem mem_applyUpdate (t : Timestamp) (w : UpdateWrite) (store : List Note) (m : Note)
    (h : m ∈ applyUpdate t w store) :
    ∃ n ∈ store, m = if n.id = w.noteId then w.fields.foldl (applyField t) n else n := by
  unfold applyUpdate at h
  obtain ⟨n, hn, rfl⟩ := List.mem_map.mp h
  exact ⟨n, hn, rfl⟩

theorem union_preserves (store : List Note) (t : Timestamp) (id uid : String) (issuedAt : Nat)
    (hinv : OwnerNotCollaborator store)
    (hown : ∀ n ∈ store, n.id = id → n.userId ≠ some uid) :
    OwnerNotCollaborator
      (applyUpdate t ⟨issuedAt, id, [("collaborators", .arrayUnion uid)]⟩ store) := by
  intro m hm o l ho hl
  obtain ⟨n, hn, rfl⟩ := mem_applyUpdate t _ store m hm
  by_cases hid : n.id = id
  · simp only [hid, if_true, List.foldl_cons, List.foldl_nil, applyField_collaborators] at ho hl
    have hne : o ≠ uid := by
      intro e
      exact hown n hn hid (by rw [← e]; exact ho)
    simp only [FieldValue.asArray, Option.some.injEq] at hl
    cases hc : n.collaborators with
    | none =>
      rw [hc] at hl
      simp only [Option.getD_none, List.not_mem_nil, if_false, List.nil_append] at hl
      rw [← hl]
      simpa using hne
    | some l0 =>
      rw [hc] at hl
      simp only [Option.getD_some] at hl
      have h0 : o ∉ l0 := hinv n hn o l0 ho hc
      by_cases hx : uid ∈ l0
      · rw [if_pos hx] at hl; rw [← hl]; exact h0
      · rw [if_neg hx] at hl; rw [← hl]
        simp [h0, hne]
  · simp only [hid, if_false] at ho hl
    exact hinv n hn o l ho hl

theorem remove_preserves (store : List Note) (t : Timestamp) (id uid : String) (issuedAt : Nat)
    (hinv : OwnerNotCollaborator store) :
    OwnerNotCollaborator
      (applyUpdate t ⟨issuedAt, id, [("collaborators", .arrayRemove uid)]⟩ store) := by
  intro m hm o l ho hl
  obtain ⟨n, hn, rfl⟩ := mem_applyUpdate t _ store m hm
  by_cases hid : n.id = id
  · simp only [hid, if_true, List.foldl_cons, List.foldl_nil, applyField_collaborators] at ho hl
    simp only [FieldValue.asArray, Option.some.injEq] at hl
    cases hc : n.collaborators with
    | none =>
      rw [hc] at hl
      rw [← hl]; simp
    | some l0 =>
      rw [hc] at hl
      have h0 : o ∉ l0 := hinv n hn o l0 ho hc
      rw [← hl]
      simp only [Option.getD_some]
      intro hmem
      exact h0 (List.mem_filter.mp hmem).1
  · simp only [hid, if_false] at ho hl
    exact hinv n hn o l ho hl

theorem create_preserves (store : List Note) (t : Timestamp) (newId uid title : String)
    (issuedAt : Nat) (hinv : OwnerNotCollaborator store) :
    OwnerNotCollaborator (applyCreate t newId ⟨issuedAt, createFields uid title⟩ store) ∧
    ∀ m ∈ applyCreate t newId ⟨issuedAt, createFields uid title⟩ store, m ∉ store →
      m.collaborators = none ∧ m.userId = some uid := by
  have hdoc : (createFields uid title).foldl (applyField t) { id := newId } =
      { id := newId, userId := some uid, title := some title, content := some "",
        titleAlign := some "left", updatedAt := some t } := by
    simp [createFields, applyField, FieldValue.asString]
  constructor
  · intro m hm o l ho hl
    unfold applyCreate at hm
    rcases List.mem_append.mp hm with hm | hm
    · exact hinv m hm o l ho hl
    · simp only [List.mem_singleton] at hm
      rw [hm, hdoc] at hl
      cases hl
  · intro m hm hnot
    unfold applyCreate at hm
    rcases List.mem_append.mp hm with hm | hm
    · exact absurd hm hnot
    · simp only [List.mem_singleton] at hm
      rw [hm, hdoc]
      exact ⟨rfl, rfl⟩

theorem newWrites_append (s s' : State) (ws : List UpdateWrite) (h : s'.writes = s.writes ++ ws) :
    newWrites s s' = ws := by
  unfold newWrites
  rw [h]
  simp

theorem connectToNote_creates (db : Option (List Note)) (key : String) (s : State) :
    (connectToNote db key s).creates = s.creates := by
  unfold connectToNote
  cases s.currentUser with
  | none => rfl
  | some u =>
    simp only []
    unfold connectResume connectCatch
    (repeat' split) <;> rfl

theorem createNoteConfirm_cases (db : Option (List Note)) (inputVal : Option String) (s : State) :
    (newCreates s (createNoteConfirm db inputVal s) = [] ∧
      ∃ key, newWrites s (createNoteConfirm db inputVal s) = newWrites s (connectToNote db key s)) ∨
    (newWrites s (createNoteConfirm db inputVal s) = [] ∧
      (newCreates s (createNoteConfirm db inputVal s) = [] ∨
        ∃ u title, s.currentUser = some u ∧
          newCreates s (createNoteConfirm db inputVal s) = [⟨s.now, createFields u.uid title⟩])) := by
  unfold createNoteConfirm
  by_cases hk : looksLikeShareKey (trimmedInput inputVal) = true
  · left
    rw [if_pos hk]
    refine ⟨?_, _, rfl⟩
    unfold newCreates
    rw [connectToNote_creates]
    simp
  · right
    rw [if_neg hk]
    cases hu : s.currentUser with
    | none =>
      simp only []
      refine ⟨by simp [newWrites, createCatch], Or.inl (by simp [newCreates, createCatch])⟩
    | some u =>
      simp only []
      refine ⟨by simp [newWrites], Or.inr ⟨u, finalTitle (trimmedInput inputVal), rfl, by simp [newCreates]⟩⟩

theorem leaveNoteConfirm_newWrites (id : String) (s : State) :
    newWrites s (leaveNoteConfirm id s) = [] ∨
    ∃ u, s.currentUser = some u ∧
      newWrites s (leaveNoteConfirm id s) = [⟨s.now, id, [("collaborators", .arrayRemove u.uid)]⟩] := by
  unfold leaveNoteConfirm
  split
  · left; simp [newWrites, leaveCatch]
  · cases hu : s.currentUser with
    | none => left; simp [newWrites, leaveCatch]
    | some u => right; exact ⟨u, rfl, by simp [newWrites]⟩

theorem connect_write_preserves (store db : List Note) (s : State) (t : Timestamp) (key : String)
    (hinv : OwnerNotCollaborator store)
    (hown : ∀ n ∈ store, ∀ d ∈ db, n.id = d.id → n.userId = d.userId) :
    ∀ w ∈ newWrites s (connectToNote (some db) key s), OwnerNotCollaborator (applyUpdate t w store) := by
  intro w hw
  rcases connectToNote_newWrites db key s with h | ⟨u, d, -, hd, ho, h⟩
  · rw [h] at hw; cases hw
  · rw [h] at hw
    simp only [List.mem_singleton] at hw
    rw [hw]
    apply union_preserves store t d.id u.uid s.now hinv
    intro n hn hid
    rw [hown n hn d hd hid]
    exact ho

theorem exStore_ok : OwnerNotCollaborator exStore := by
  intro n hn o l ho hl
  simp only [exStore, List.mem_cons, List.mem_singleton, List.not_mem_nil, or_false] at hn
  rcases hn with rfl | rfl
  · simp [exNote] at hl
  · simp only [exSharedNote, Option.some.injEq] at ho hl
    subst ho; subst hl
    decide

theorem exRand_range : ∀ i, i < 8 → 0 ≤ exRand i ∧ exRand i < 1 := by
  intro i _
  unfold exRand
  norm_num

/-! ## Snapshots and the merged collection -/

theorem renderNotesList_only_list (s : State) :
    ∃ l, renderedState (renderNotesList s) = { s with dom := { s.dom with notesList := l } } := by
  unfold renderNotesList
  split <;> exact ⟨_, rfl⟩

theorem showEmptyState_lists (s : State) :
    (showEmptyState s).notes = s.notes ∧ (showEmptyState s).ownedNotes = s.ownedNotes ∧
    (showEmptyState s).sharedNotes = s.sharedNotes ∧ (showEmptyState s).writes = s.writes :=
  ⟨rfl, rfl, rfl, rfl⟩

theorem acceptRemote_lists (n : Note) (s : State) :
    (acceptRemote n s).notes = s.notes ∧ (acceptRemote n s).ownedNotes = s.ownedNotes ∧
    (acceptRemote n s).sharedNotes = s.sharedNotes ∧ (acceptRemote n s).writes = s.writes :=
  ⟨rfl, rfl, rfl, rfl⟩

/-- `mergeAndRenderNotes` assigns the merge of the two lists to `notes`, leaves
the two lists alone and issues no write, whatever branch it takes. -/
theorem mergeAndRenderNotes_lists (s : State) :
    (mergeAndRenderNotes s).notes = mergeNotes s.ownedNotes s.sharedNotes ∧
    (mergeAndRenderNotes s).ownedNotes = s.ownedNotes ∧
    (mergeAndRenderNotes s).sharedNotes = s.sharedNotes ∧
    (mergeAndRenderNotes s).writes = s.writes := by
  obtain ⟨l, hr⟩ :=
    renderNotesList_only_list { s with notes := mergeNotes s.ownedNotes s.sharedNotes }
  unfold mergeAndRenderNotes
  simp only []
  cases hres : renderNotesList { s with notes := mergeNotes s.ownedNotes s.sharedNotes } with
  | error s2 =>
    rw [hres] at hr
    simp only [renderedState] at hr
    simp only []
    rw [hr]
    exact ⟨rfl, rfl, rfl, rfl⟩
  | ok s2 =>
    rw [hres] at hr
    simp only [renderedState] at hr
    have h1 : s2.notes = mergeNotes s.ownedNotes s.sharedNotes := by rw [hr]
    have h2 : s2.ownedNotes = s.ownedNotes := by rw [hr]
    have h3 : s2.sharedNotes = s.sharedNotes := by rw [hr]
    have h4 : s2.writes = s.writes := by rw [hr]
    simp only []
    split
    · split
      · split
        · exact ⟨h1, h2, h3, h4⟩
        · split
          · exact ⟨h1, h2, h3, h4⟩
          · exact ⟨h1, h2, h3, h4⟩
      · exact ⟨h1, h2, h3, h4⟩
    · exact ⟨h1, h2, h3, h4⟩

theorem uniqueMap_of_nodup_aux (l : List Note) (m : List (String × Note))
    (h : ∀ n ∈ l, n.id ∉ m.map Prod.fst) (hnd : (l.map Note.id).Nodup) :
    l.foldl (fun m n => mapSet m n.id n) m = m ++ l.map (fun n => (n.id, n)) := by
  induction l generalizing m with
  | nil => simp
  | cons x rest ih =>
    rw [List.map_cons, List.nodup_cons] at hnd
    have hx : x.id ∉ m.map Prod.fst := h x (List.mem_cons_self _ _)
    have hset : mapSet m x.id x = m ++ [(x.id, x)] := by
      clear ih h hnd
      induction m with
      | nil => rfl
      | cons p m ihm =>
        obtain ⟨k, v⟩ := p
        have hk : ¬ k = x.id := by
          intro e; apply hx; simp [e]
        have hx' : x.id ∉ m.map Prod.fst := by
          intro hc; apply hx; simp only [List.map_cons, List.mem_cons]; exact Or.inr hc
        simp only [mapSet, hk, if_false, List.cons_append, ihm hx']
    rw [List.foldl_cons, hset, ih]
    · simp
    · intro n hn
      simp only [List.map_append, List.map_cons, List.map_nil, List.mem_append, List.mem_singleton,
        not_or]
      refine ⟨h n (List.mem_cons_of_mem _ hn), ?_⟩
      intro e
      apply hnd.1
      rw [← e]
      exact List.mem_map_of_mem _ hn
    · exact hnd.2

theorem mergeNotes_merged (owned shared : List Note) :
    mergeNotes (mergeNotes owned shared) [] = mergeNotes owned shared := by
  have hnd := mergeNotes_ids_nodup owned shared
  have hs := mergeNotes_sorted owned shared
  generalize mergeNotes owned shared = l at hnd hs
  unfold mergeNotes uniqueMap
  rw [List.append_nil, uniqueMap_of_nodup_aux l [] (by simp) hnd]
  simp only [List.nil_append, List.map_map]
  have : (l.map (Prod.snd ∘ fun n => (n.id, n))) = l := by
    simp [Function.comp_def]
  rw [this]
  exact List.Sorted.insertionSort_eq hs

/-! ## The input check of createNote -/

theorem isKeyChar_iff (c : Char) :
    isKeyChar c = true ↔ ('A' ≤ c ∧ c ≤ 'Z') ∨ ('0' ≤ c ∧ c ≤ '9') := by
  unfold isKeyChar
  simp only [Bool.or_eq_true, Bool.and_eq_true, decide_eq_true_eq]
  rfl

theorem isKeyChar_range (c : Char) (h : isKeyChar c = true) :
    (65 ≤ c.toNat ∧ c.toNat ≤ 90) ∨ (48 ≤ c.toNat ∧ c.toNat ≤ 57) := by
  unfold isKeyChar at h
  simp only [Bool.or_eq_true, Bool.and_eq_true, decide_eq_true_eq] at h
  exact h

theorem not_whitespace_of_keyChar (c : Char) (h : isKeyChar c = true) :
    isJsWhitespace c = false := by
  have hr := isKeyChar_range c h
  unfold isJsWhitespace
  simp only [Bool.or_eq_false_iff, Bool.and_eq_false_imp, decide_eq_false_iff_not,
    decide_eq_true_eq]
  omega

theorem utf16Length_of_keyChars (l : List Char) (h : ∀ c ∈ l, isKeyChar c = true) :
    (l.map (fun c => if c.toNat < 0x10000 then 1 else 2)).sum = l.length := by
  induction l with
  | nil => rfl
  | cons x rest ih =>
    have hx := isKeyChar_range x (h x (List.mem_cons_self _ _))
    have hlt : x.toNat < 0x10000 := by omega
    simp only [List.map_cons, List.sum_cons, hlt, if_true, List.length_cons,
      ih (fun c hc => h c (List.mem_cons_of_mem _ hc))]
    omega

theorem looksLikeShareKey_iff (t : String) :
    looksLikeShareKey t = true ↔ t.length = 8 ∧ ∀ c ∈ t.data, isKeyChar c = true := by
  unfold looksLikeShareKey utf16Length
  simp only [Bool.and_eq_true, beq_iff_eq, Bool.not_eq_true', List.all_eq_true]
  constructor
  · rintro ⟨⟨h8, -⟩, hall⟩
    rw [utf16Length_of_keyChars t.data hall] at h8
    exact ⟨h8, hall⟩
  · rintro ⟨h8, hall⟩
    refine ⟨⟨?_, ?_⟩, hall⟩
    · rw [utf16Length_of_keyChars t.data hall]; exact h8
    · cases hd : t.data with
      | nil =>
        have : t.length = 0 := by simp [String.length, hd]
        omega
      | cons x rest => rfl

theorem dropWhile_of_none (p : Char → Bool) (l : List Char) (h : ∀ c ∈ l, p c = false) :
    l.dropWhile p = l := by
  cases l with
  | nil => rfl
  | cons x rest => simp [List.dropWhile, h x (List.mem_cons_self _ _)]

theorem jsTrim_of_no_whitespace (t : String) (h : ∀ c ∈ t.data, isJsWhitespace c = false) :
    jsTrim t = t := by
  unfold jsTrim
  rw [dropWhile_of_none _ _ h, dropWhile_of_none _ _ (by simpa using h), List.reverse_reverse]

theorem trimmedInput_some (v : String) : trimmedInput (some v) = jsTrim v := by
  unfold trimmedInput truthy orElse
  by_cases hv : v = ""
  · subst hv
    simp [jsTrim, List.dropWhile]
  · simp [hv]

theorem createNoteConfirm_join (db : Option (List Note)) (inputVal : Option String) (s : State)
    (h : looksLikeShareKey (trimmedInput inputVal) = true) :
    createNoteConfirm db inputVal s = connectToNote db (trimmedInput inputVal) s := by
  unfold createNoteConfirm
  rw [if_pos h]

theorem createNoteConfirm_create (db : Option (List Note)) (inputVal : Option String) (s : State)
    (u : User) (hu : s.currentUser = some u)
    (h : looksLikeShareKey (trimmedInput inputVal) = false) :
    createNoteConfirm db inputVal s =
      { s with
        creates := s.creates ++ [⟨s.now, createFields u.uid (finalTitle (trimmedInput inputVal))⟩]
        createInflight := s.createInflight + 1 } := by
  unfold createNoteConfirm
  simp [h, hu]

/-! ## escapeHtml, character by character -/

theorem replaceAll_flatMap (c : Char) (r : String) (f : Char → List Char) (l : List Char) :
    replaceAll c r (l.flatMap f) = l.flatMap (fun x => replaceAll c r (f x)) := by
  unfold replaceAll
  induction l with
  | nil => rfl
  | cons x rest ih => simp [List.flatMap_cons, List.flatMap_append, ih]

theorem replaceAll_single (c : Char) (r : String) (x : Char) :
    replaceAll c r [x] = if x = c then r.data else [x] := by
  simp [replaceAll]

theorem escape_pointwise (x : Char) :
    replaceAll squote "&#039;"
      (replaceAll dquote "&quot;"
        (replaceAll '>' "&gt;"
          (replaceAll '<' "&lt;"
            (replaceAll '&' "&amp;" [x])))) = escapeChar x := by
  unfold escapeChar
  rw [replaceAll_single]
  by_cases h1 : x = '&'
  · subst h1; decide
  · rw [if_neg h1, if_neg h1, replaceAll_single]
    by_cases h2 : x = '<'
    · subst h2; decide
    · rw [if_neg h2, if_neg h2, replaceAll_single]
      by_cases h3 : x = '>'
      · subst h3; decide
      · rw [if_neg h3, if_neg h3, replaceAll_single]
        by_cases h4 : x = dquote
        · subst h4; decide
        · rw [if_neg h4, if_neg h4, replaceAll_single]

theorem escapeHtml_data (str : String) :
    (escapeHtml str).data = str.data.flatMap escapeChar := by
  unfold escapeHtml
  show replaceAll squote "&#039;" (replaceAll dquote "&quot;" (replaceAll '>' "&gt;"
    (replaceAll '<' "&lt;" (replaceAll '&' "&amp;" str.data)))) = _
  have h0 : replaceAll '&' "&amp;" str.data =
      str.data.flatMap (fun x => replaceAll '&' "&amp;" [x]) := by
    unfold replaceAll
    simp
  rw [h0, replaceAll_flatMap, replaceAll_flatMap, replaceAll_flatMap, replaceAll_flatMap]
  congr
  funext x
  exact escape_pointwise x

theorem escapeChar_cases (c : Char) :
    (isHtmlSpecial c = false ∧ escapeChar c = [c]) ∨
    escapeChar c = "&amp;".data ∨ escapeChar c = "&lt;".data ∨ escapeChar c = "&gt;".data ∨
    escapeChar c = "&quot;".data ∨ escapeChar c = "&#039;".data := by
  by_cases h1 : c = '&'
  · subst h1; right; left; decide
  by_cases h2 : c = '<'
  · subst h2; right; right; left; decide
  by_cases h3 : c = '>'
  · subst h3; right; right; right; left; decide
  by_cases h4 : c = dquote
  · subst h4; right; right; right; right; left; decide
  by_cases h5 : c = squote
  · subst h5; right; right; right; right; right; decide
  · left
    unfold escapeChar isHtmlSpecial
    simp [h1, h2, h3, h4, h5]

theorem escaped_no_markup (l : List Char) :
    ∀ c ∈ l.flatMap escapeChar, c ≠ '<' ∧ c ≠ '>' ∧ c ≠ dquote ∧ c ≠ squote := by
  intro c hc
  rw [List.mem_flatMap] at hc
  obtain ⟨x, -, hx⟩ := hc
  rcases escapeChar_cases x with ⟨hs, h⟩ | h | h | h | h | h
  · rw [h] at hx
    simp only [List.mem_singleton] at hx
    subst hx
    unfold isHtmlSpecial at hs
    simp only [Bool.or_eq_false_iff, decide_eq_false_iff_not] at hs
    exact ⟨hs.1.1.1.2, hs.1.1.2, hs.1.2, hs.2⟩
  all_goals
    rw [h] at hx
    revert c
    decide

theorem ampsBeginEntities_block (b rest : List Char)
    (hb : b = "&amp;".data ∨ b = "&lt;".data ∨ b = "&gt;".data ∨ b = "&quot;".data ∨
      b = "&#039;".data) :
    ampsBeginEntities (b ++ rest) = ampsBeginEntities rest := by
  rcases hb with h | h | h | h | h <;> subst h <;>
    simp [ampsBeginEntities, htmlEntities, List.isPrefixOf]

theorem escaped_amps (l : List Char) : ampsBeginEntities (l.flatMap escapeChar) = true := by
  induction l with
  | nil => rfl
  | cons x rest ih =>
    rw [List.flatMap_cons]
    rcases escapeChar_cases x with ⟨hs, h⟩ | h
    · rw [h]
      have hx : x ≠ '&' := by
        unfold isHtmlSpecial at hs
        simp only [Bool.or_eq_false_iff, decide_eq_false_iff_not] at hs
        exact hs.1.1.1.1
      simp [ampsBeginEntities, hx, ih]
    · rw [ampsBeginEntities_block _ _ h, ih]

theorem escaped_plain (l : List Char) (h : ∀ c ∈ l, isHtmlSpecial c = false) :
    l.flatMap escapeChar = l := by
  induction l with
  | nil => rfl
  | cons x rest ih =>
    rw [List.flatMap_cons, ih (fun c hc => h c (List.mem_cons_of_mem _ hc))]
    rcases escapeChar_cases x with ⟨-, hx⟩ | hx
    · rw [hx]; rfl
    · exfalso
      have hs := h x (List.mem_cons_self _ _)
      unfold isHtmlSpecial at hs
      simp only [Bool.or_eq_false_iff, decide_eq_false_iff_not] at hs
      unfold escapeChar at hx
      simp only [hs.1.1.1.1, hs.1.1.1.2, hs.1.1.2, hs.1.2, hs.2, if_false] at hx
      rcases hx with hx | hx | hx | hx | hx <;> simp at hx

/-! ## The owner field -/

theorem addsNoOwnerWrite_of_eq (s1 s2 : State) (h : s2.writes = s1.writes) :
    AddsNoOwnerWrite s1 s2 :=
  ⟨[], by rw [h, List.append_nil], by intro w hw; cases hw⟩

theorem addsNoOwnerWrite_one (s1 s2 : State) (w : UpdateWrite) (h : s2.writes = s1.writes ++ [w])
    (hw : NoOwnerField w) : AddsNoOwnerWrite s1 s2 :=
  ⟨[w], h, by intro x hx; rw [List.mem_singleton] at hx; rw [hx]; exact hw⟩

theorem addsNoOwnerWrite_trans (s1 s2 s3 : State) (h12 : AddsNoOwnerWrite s1 s2)
    (h23 : AddsNoOwnerWrite s2 s3) : AddsNoOwnerWrite s1 s3 := by
  obtain ⟨l1, e1, n1⟩ := h12
  obtain ⟨l2, e2, n2⟩ := h23
  refine ⟨l1 ++ l2, by rw [e2, e1, List.append_assoc], ?_⟩
  intro w hw
  rcases List.mem_append.mp hw with h | h
  · exact n1 w h
  · exact n2 w h

theorem lockFields_noOwner (t : Nat) (aid : String) (u : User) :
    NoOwnerField ⟨t, aid, lockFields u⟩ := by
  intro f hf
  simp only [lockFields, List.mem_cons, List.mem_singleton, List.not_mem_nil, or_false] at hf
  rcases hf with h | h | h <;> rw [h] <;> show _ ≠ _ <;> simp only [] <;> decide

theorem saveFields_noOwner (t : Nat) (aid title content align : String) :
    NoOwnerField ⟨t, aid, saveFields title content align⟩ := by
  intro f hf
  simp only [saveFields, List.mem_cons, List.mem_singleton, List.not_mem_nil, or_false] at hf
  rcases hf with h | h | h | h | h <;> rw [h] <;> show _ ≠ _ <;> simp only [] <;> decide

theorem shareFields_noOwner (t : Nat) (aid key : String) :
    NoOwnerField ⟨t, aid, shareFields key⟩ := by
  intro f hf
  simp only [shareFields, List.mem_cons, List.mem_singleton, List.not_mem_nil, or_false] at hf
  rcases hf with h | h <;> rw [h] <;> show _ ≠ _ <;> simp only [] <;> decide

theorem collaboratorsField_noOwner (t : Nat) (aid : String) (v : FieldValue) :
    NoOwnerField ⟨t, aid, [("collaborators", v)]⟩ := by
  intro f hf
  simp only [List.mem_singleton] at hf
  rw [hf]
  show "collaborators" ≠ "userId"
  decide

theorem onAuthStateChanged_writes (user : Option User) (s : State) :
    (onAuthStateChanged user s).writes = s.writes := by
  unfold onAuthStateChanged
  cases user with
  | some u =>
    simp only []
    unfold loadNotes
    split <;> rfl
  | none =>
    simp only []
    obtain ⟨l, hr⟩ := renderNotesList_only_list
      { s with
        dom := { s.dom with loadingFaded := true, authContainerHidden := false,
                            appContainerHidden := true }
        currentUser := none
        listeners := unsubscribe s.notesUnsubscribe s.listeners
        notes := []
        activeNoteId := none }
    revert hr
    generalize renderNotesList _ = r
    intro hr
    cases r with
    | error s3 =>
      simp only [renderedState] at hr
      simp only []
      rw [hr]
    | ok s3 =>
      simp only [renderedState] at hr
      simp only []
      rw [(showEmptyState_lists s3).2.2.2, hr]

theorem deliverSnapshot_writes (h : Nat) (docs : List Note) (s : State) :
    (deliverSnapshot h docs s).writes = s.writes := by
  unfold deliverSnapshot
  split
  · rfl
  · split
    · unfold onSharedSnapshot
      rw [(mergeAndRenderNotes_lists _).2.2.2]
    · unfold onOwnedSnapshot
      rw [(mergeAndRenderNotes_lists _).2.2.2]

theorem selectNote_writes (noteId : String) (s : State) :
    (selectNote noteId s).writes = s.writes := by
  unfold selectNote
  simp only []
  split
  · rfl
  · obtain ⟨l, hr⟩ := renderNotesList_only_list { s with activeNoteId := some noteId }
    revert hr
    generalize renderNotesList _ = r
    intro hr
    cases r with
    | error s3 =>
      simp only [renderedState] at hr
      simp only []
      rw [hr]
    | ok s3 =>
      simp only [renderedState] at hr
      simp only []
      rw [hr]

theorem acquireLock_adds (note : Option Note) (u : User) (aid : String) (s : State) :
    AddsNoOwnerWrite s (acquireLock note u aid s) := by
  unfold acquireLock
  split
  · exact addsNoOwnerWrite_of_eq _ _ rfl
  · split
    · split
      · exact addsNoOwnerWrite_one _ _ _ rfl (lockFields_noOwner _ _ _)
      · exact addsNoOwnerWrite_of_eq _ _ rfl
    · exact addsNoOwnerWrite_of_eq _ _ rfl

theorem handleInput_adds (s : State) : AddsNoOwnerWrite s (handleInput s) := by
  unfold handleInput
  split
  · split
    · exact addsNoOwnerWrite_of_eq _ _ rfl
    · split
      · exact addsNoOwnerWrite_of_eq _ _ rfl
      · exact addsNoOwnerWrite_trans _ _ _ (acquireLock_adds _ _ _ s)
          (addsNoOwnerWrite_of_eq _ _ rfl)
  · exact addsNoOwnerWrite_of_eq _ _ rfl

theorem timerCallback_adds (tid : Nat) (s : State) : AddsNoOwnerWrite s (timerCallback tid s) := by
  unfold timerCallback
  split
  · exact addsNoOwnerWrite_of_eq _ _ (clearIfCurrent_frame _ _).1
  · split
    · exact addsNoOwnerWrite_of_eq _ _ (saveCatch_frame _ _).2.2.1
    · split
      · exact addsNoOwnerWrite_of_eq _ _ (saveCatch_frame _ _).2.2.1
      · exact addsNoOwnerWrite_one _ _ _ rfl (saveFields_noOwner _ _ _ _ _)

theorem fireTimer_adds (tid : Nat) (s : State) : AddsNoOwnerWrite s (fireTimer tid s) := by
  unfold fireTimer
  split
  · exact addsNoOwnerWrite_trans s { s with timers := s.timers.filter (fun p => p.1 != tid) } _
      (addsNoOwnerWrite_of_eq _ _ rfl) (timerCallback_adds _ _)
  · exact addsNoOwnerWrite_of_eq _ _ rfl

theorem elapseTo_adds (fuel limit : Nat) (s : State) :
    AddsNoOwnerWrite s (elapseTo fuel limit s) := by
  induction fuel generalizing s with
  | zero => exact addsNoOwnerWrite_of_eq _ _ rfl
  | succ k ih =>
    unfold elapseTo
    split
    · exact addsNoOwnerWrite_of_eq _ _ rfl
    · rename_i tid due _
      exact addsNoOwnerWrite_trans s (fireTimer tid { s with now := max s.now due }) _
        (addsNoOwnerWrite_trans s { s with now := max s.now due } _
          (addsNoOwnerWrite_of_eq _ _ rfl) (fireTimer_adds _ _))
        (ih _)

theorem shareNote_adds (rand : Nat → ℚ) (noteId : String) (s : State) :
    AddsNoOwnerWrite s (shareNote rand noteId s) := by
  unfold shareNote
  split
  · exact addsNoOwnerWrite_of_eq _ _ rfl
  · split
    · exact addsNoOwnerWrite_of_eq _ _ rfl
    · split
      · exact addsNoOwnerWrite_of_eq _ _ rfl
      · exact addsNoOwnerWrite_one _ _ _ rfl (shareFields_noOwner _ _ _)

theorem connectResume_adds (result : Option (List Note)) (s : State) :
    AddsNoOwnerWrite s (connectResume result s) := by
  unfold connectResume
  split
  · exact addsNoOwnerWrite_of_eq _ _ rfl
  · exact addsNoOwnerWrite_of_eq _ _ rfl
  · split
    · exact addsNoOwnerWrite_of_eq _ _ rfl
    · split
      · exact addsNoOwnerWrite_of_eq _ _ rfl
      · split
        · exact addsNoOwnerWrite_of_eq _ _ rfl
        · split
          · exact addsNoOwnerWrite_of_eq _ _ rfl
          · exact addsNoOwnerWrite_one _ _ _ rfl (collaboratorsField_noOwner _ _ _)

theorem connectToNote_adds (db : Option (List Note)) (key : String) (s : State) :
    AddsNoOwnerWrite s (connectToNote db key s) := by
  unfold connectToNote
  split
  · exact addsNoOwnerWrite_of_eq _ _ rfl
  · exact connectResume_adds _ _

theorem leaveNoteConfirm_adds (id : String) (s : State) :
    AddsNoOwnerWrite s (leaveNoteConfirm id s) := by
  unfold leaveNoteConfirm
  split
  · exact addsNoOwnerWrite_of_eq _ _ rfl
  · split
    · exact addsNoOwnerWrite_of_eq _ _ rfl
    · exact addsNoOwnerWrite_one _ _ _ rfl (collaboratorsField_noOwner _ _ _)

theorem createNoteConfirm_adds (db : Option (List Note)) (inputVal : Option String) (s : State) :
    AddsNoOwnerWrite s (createNoteConfirm db inputVal s) := by
  unfold createNoteConfirm
  split
  · exact connectToNote_adds _ _ _
  · split
    · exact addsNoOwnerWrite_of_eq _ _ rfl
    · exact addsNoOwnerWrite_of_eq _ _ rfl

/-- Every event adds only `updateDoc` calls that do not name the owner field. -/
theorem step_adds (e : Event) (s : State) : AddsNoOwnerWrite s (step e s) := by
  cases e with
  | authChanged user => exact addsNoOwnerWrite_of_eq _ _ (onAuthStateChanged_writes _ _)
  | snapshot h docs => exact addsNoOwnerWrite_of_eq _ _ (deliverSnapshot_writes _ _ _)
  | select noteId => exact addsNoOwnerWrite_of_eq _ _ (selectNote_writes _ _)
  | edit e =>
    exact addsNoOwnerWrite_trans s { s with dom := e.apply s.dom } _
      (addsNoOwnerWrite_of_eq _ _ rfl) (handleInput_adds _)
  | elapse ms => exact elapseTo_adds _ _ _
  | saveAcked p => exact addsNoOwnerWrite_of_eq _ _ (saveAck_frame _ _).2.2.1
  | saveFailed p => exact addsNoOwnerWrite_of_eq _ _ (saveFail_frame _ _).2.2.1
  | lockSettled =>
    refine addsNoOwnerWrite_of_eq _ _ ?_
    show (lockSettled s).writes = s.writes
    unfold lockSettled
    split <;> rfl
  | share rand noteId => exact shareNote_adds _ _ _
  | shareAcked p =>
    refine addsNoOwnerWrite_of_eq _ _ ?_
    show (shareAck p s).writes = s.writes
    unfold shareAck
    split <;> rfl
  | shareFailed p =>
    refine addsNoOwnerWrite_of_eq _ _ ?_
    show (shareFail p s).writes = s.writes
    unfold shareFail
    split <;> rfl
  | connect db key => exact connectToNote_adds _ _ _
  | connectAcked =>
    refine addsNoOwnerWrite_of_eq _ _ ?_
    show (connectAck s).writes = s.writes
    unfold connectAck
    split <;> rfl
  | connectFailed =>
    refine addsNoOwnerWrite_of_eq _ _ ?_
    show (connectFail s).writes = s.writes
    unfold connectFail
    split <;> rfl
  | leaveOpen => exact addsNoOwnerWrite_of_eq _ _ rfl
  | leaveConfirm id => exact leaveNoteConfirm_adds _ _
  | leaveSettled ok =>
    refine addsNoOwnerWrite_of_eq _ _ ?_
    show (leaveSettled ok s).writes = s.writes
    unfold leaveSettled
    split
    · rfl
    · split <;> rfl
  | createOpen =>
    refine addsNoOwnerWrite_of_eq _ _ ?_
    show (createNote s).writes = s.writes
    unfold createNote
    split <;> rfl
  | createConfirm db inputVal => exact createNoteConfirm_adds _ _ _
  | createAcked newId =>
    refine addsNoOwnerWrite_of_eq _ _ ?_
    show (createAck newId s).writes = s.writes
    unfold createAck
    split <;> rfl
  | createFailed =>
    refine addsNoOwnerWrite_of_eq _ _ ?_
    show (createFail s).writes = s.writes
    unfold createFail
    split <;> rfl

theorem run_adds (es : List Event) (s : State) : AddsNoOwnerWrite s (run es s) := by
  induction es generalizing s with
  | nil => exact addsNoOwnerWrite_of_eq _ _ rfl
  | cons e rest ih =>
    show AddsNoOwnerWrite s (run rest (step e s))
    exact addsNoOwnerWrite_trans _ _ _ (step_adds e s) (ih _)

theorem applyField_owner (t : Timestamp) (n : Note) (f : String × FieldValue)
    (h : f.1 ≠ "userId") :
    (applyField t n f).userId = n.userId ∧ (applyField t n f).id = n.id := by
  unfold applyField
  rw [if_neg h]
  repeat' split
  all_goals exact ⟨rfl, rfl⟩

theorem foldl_applyField_owner (t : Timestamp) (fs : List (String × FieldValue)) (n : Note)
    (h : ∀ f ∈ fs, f.1 ≠ "userId") :
    (fs.foldl (applyField t) n).userId = n.userId ∧ (fs.foldl (applyField t) n).id = n.id := by
  induction fs generalizing n with
  | nil => exact ⟨rfl, rfl⟩
  | cons f rest ih =>
    rw [List.foldl_cons]
    obtain ⟨h1, h2⟩ := ih (applyField t n f) (fun g hg => h g (List.mem_cons_of_mem _ hg))
    obtain ⟨h3, h4⟩ := applyField_owner t n f (h f (List.mem_cons_self _ _))
    exact ⟨h1.trans h3, h2.trans h4⟩

theorem updatedDoc_owner (t : Timestamp) (w : UpdateWrite) (n : Note) (h : NoOwnerField w) :
    (updatedDoc t w n).userId = n.userId ∧ (updatedDoc t w n).id = n.id := by
  unfold updatedDoc
  split
  · exact foldl_applyField_owner t w.fields n h
  · exact ⟨rfl, rfl⟩

theorem applyUpdate_owner (t : Timestamp) (w : UpdateWrite) (store : List Note)
    (h : NoOwnerField w) :
    (applyUpdate t w store).map (fun n => (n.id, n.userId)) =
      store.map (fun n => (n.id, n.userId)) := by
  unfold applyUpdate
  rw [List.map_map]
  apply List.map_congr_left
  intro n _
  obtain ⟨h1, h2⟩ := updatedDoc_owner t w n h
  simp only [Function.comp, h1, h2]

theorem applyUpdates_owner (tws : List (Timestamp × UpdateWrite)) (store : List Note)
    (h : ∀ tw ∈ tws, NoOwnerField tw.2) :
    (applyUpdates tws store).map (fun n => (n.id, n.userId)) =
      store.map (fun n => (n.id, n.userId)) := by
  induction tws generalizing store with
  | nil => rfl
  | cons tw rest ih =>
    show (applyUpdates rest (applyUpdate tw.1 tw.2 store)).map _ = _
    rw [ih _ (fun x hx => h x (List.mem_cons_of_mem _ hx)),
      applyUpdate_owner _ _ _ (h tw (List.mem_cons_self _ _))]

theorem createdDoc_owner (t : Timestamp) (newId uid title : String) :
    ((createFields uid title).foldl (applyField t) { id := newId }).userId = some uid ∧
    ((createFields uid title).foldl (applyField t) { id := newId }).id = newId := by
  simp [createFields, applyField, FieldValue.asString]

/-! ## A created note -/

theorem acceptRemote_align (n : Note) (s : State) (a : String) (ha : n.titleAlign = some a)
    (hne : a ≠ "") : (acceptRemote n s).dom.titleTextAlign = a := by
  unfold acceptRemote
  simp only [ha]
  (repeat' split) <;> simp_all

theorem orElse_some_empty (t : String) : orElse (some t) "" = t := by
  unfold orElse
  by_cases h : t = "" <;> simp [h]

theorem acceptRemote_saved (n : Note) (s : State) :
    (acceptRemote n s).lastSavedState =
      ⟨some n.id, some (orElse n.title ""), some (orElse n.content ""),
        some (orElse n.titleAlign "left")⟩ ∧
    (acceptRemote n s).activeNoteId = s.activeNoteId ∧
    (acceptRemote n s).writes = s.writes :=
  ⟨rfl, rfl, rfl⟩

theorem createdRecord_fields (t : Timestamp) (newId uid title : String) :
    createdRecord t newId uid title =
      { id := newId, userId := some uid, title := some title, content := some "",
        titleAlign := some "left", updatedAt := some t } := by
  simp [createdRecord, createFields, applyField, FieldValue.asString]

/-- A timeout that runs while the editor shows what `lastSavedState` records
issues no `updateDoc` call. -/
theorem fireTimer_unchanged (z : State) (tid : Nat)
    (hid : z.lastSavedState.id = z.activeNoteId)
    (ht : z.lastSavedState.title = some z.dom.titleHtml)
    (hc : z.lastSavedState.content = some z.dom.contentHtml)
    (ha : z.lastSavedState.titleAlign = some (displayedAlign z.dom)) :
    (fireTimer tid z).writes = z.writes ∧ (fireTimer tid z).inflight = z.inflight := by
  unfold fireTimer
  split
  · have hm : matchesSaved { z with timers := z.timers.filter (fun p => p.1 != tid) } = true := by
      simp [matchesSaved, hid, ht, hc, ha]
    unfold timerCallback
    rw [if_pos hm]
    obtain ⟨h1, -, -, h4, -, -, -⟩ := clearIfCurrent_frame tid
      { z with
        timers := z.timers.filter (fun p => p.1 != tid)
        dom := { z.dom with saveStatusText := "Saved", saveStatusShown := true } }
    exact ⟨h1, h4⟩
  · exact ⟨rfl, rfl⟩

/-! ## Read-back of assigned markup -/

/-- The snapshot that carries the created note reaches `mergeAndRenderNotes`
while the note is active and no timer is pending, in a browser that reads the
title and the empty string back as assigned. -/
theorem mergeAndRenderNotes_created (x : State) (u : User) (t : Timestamp)
    (newId uid title : String) (hid : newId ≠ "")
    (hx : x.activeNoteId = some newId) (hu : x.currentUser = some u)
    (hto : x.saveTimeout = none)
    (hrt : x.browser.readBack title = title) (hre : x.browser.readBack "" = "")
    (hfind : findNote (mergeNotes x.ownedNotes x.sharedNotes) (some newId) =
      some (createdRecord t newId uid title)) :
    (mergeAndRenderNotes x).lastSavedState = ⟨some newId, some title, some "", some "left"⟩ ∧
    (mergeAndRenderNotes x).activeNoteId = some newId ∧
    (mergeAndRenderNotes x).dom.titleHtml = title ∧
    (mergeAndRenderNotes x).dom.contentHtml = "" ∧
    (mergeAndRenderNotes x).dom.titleTextAlign = "left" := by
  have hact : truthy x.activeNoteId = true := by
    rw [hx]
    simp [truthy, hid]
  rw [mergeAndRenderNotes_found x u (createdRecord t newId uid title) hu hact (by rw [hx]; exact hfind)]
  have hp : (createdRecord t newId uid title).hasPendingWrites = false := by
    rw [createdRecord_fields]
  simp only [hto, hp, Option.isNone_none, Bool.or_true, Bool.not_false, Bool.and_self, if_true]
  obtain ⟨f1, f2, f3⟩ := updateEditorLockState_frame x.browser (createdRecord t newId uid title) u
    (acceptRemote (createdRecord t newId uid title) (afterRender x u)).dom
  have hb : (afterRender x u).browser = x.browser := rfl
  refine ⟨?_, ?_, ?_, ?_, ?_⟩
  · show (acceptRemote _ _).lastSavedState = _
    rw [(acceptRemote_saved _ _).1, createdRecord_fields]
    simp only [orElse_some_empty]
    rfl
  · show (acceptRemote _ _).activeNoteId = _
    rw [(acceptRemote_saved _ _).2.1]
    exact hx
  · show (updateEditorLockState _ _ _ _).titleHtml = _
    rw [f1, acceptRemote_title, createdRecord_fields]
    simp only [orElse_some_empty, hb, hrt, ite_self]
  · show (updateEditorLockState _ _ _ _).contentHtml = _
    rw [f2, acceptRemote_content, createdRecord_fields]
    simp only [orElse_some_empty, hb, hre, ite_self]
  · show (updateEditorLockState _ _ _ _).titleTextAlign = _
    rw [f3]
    exact acceptRemote_align _ _ "left" (by rw [createdRecord_fields]) (by decide)

/-- What `mergeAndRenderNotes` makes of the lock interface when the active note
`n` is in the merged collection: read-only exactly when `n` is locked by
another user, the banner then shown with the text `bannerText` gives, and
otherwise hidden if it exists. -/
theorem mergeAndRenderNotes_lock_state (s : State) (u : User) (n : Note)
    (hu : s.currentUser = some u) (hact : truthy s.activeNoteId = true)
    (hfind : findNote (mergeNotes s.ownedNotes s.sharedNotes) s.activeNoteId = some n) :
    (mergeAndRenderNotes s).dom.editorLocked = isLockedByOther n u ∧
    (mergeAndRenderNotes s).dom.titleEditable = !isLockedByOther n u ∧
    (mergeAndRenderNotes s).dom.contentEditable = !isLockedByOther n u ∧
    (isLockedByOther n u = true →
      (mergeAndRenderNotes s).dom.indicator =
        some ⟨bannerText s.browser s.dom.indicator
          (if truthy n.lockedByEmail then orElse n.lockedByEmail "" ++ " is editing the note..."
           else "Another user is editing the note..."), "flex"⟩) ∧
    (isLockedByOther n u = false →
      (mergeAndRenderNotes s).dom.indicator =
        s.dom.indicator.map (fun i => { i with display := "none" })) := by
  rw [mergeAndRenderNotes_found s u n hu hact hfind]
  simp only []
  generalize hs3 : (if ((isLockedByOther n u || s.saveTimeout.isNone) && !n.hasPendingWrites) = true
      then acceptRemote n (afterRender s u) else afterRender s u) = s3
  have hind3 : s3.dom.indicator = s.dom.indicator := by
    rw [← hs3]
    by_cases hc : ((isLockedByOther n u || s.saveTimeout.isNone) && !n.hasPendingWrites) = true
    · rw [if_pos hc]; exact (acceptRemote_lock_ui n (afterRender s u)).1
    · rw [if_neg hc]; rfl
  unfold updateEditorLockState
  by_cases hl : isLockedByOther n u = true
  · simp only [hl, if_true, Bool.not_true]
    refine ⟨trivial, trivial, trivial, ?_, ?_⟩
    · intro _; rw [lockedMsg_eq, hind3]
    · intro h; cases h
  · have hl' : isLockedByOther n u = false := by simpa using hl
    simp only [hl', Bool.false_eq_true, if_false, Bool.not_false]
    refine ⟨trivial, trivial, trivial, ?_, ?_⟩
    · intro h; cases h
    · intro _; rw [hind3]

/-! ## Claims -/

/-- C1. Whenever the merged collection contains the active note `n` and either
`n.hasPendingWrites` is true, or a save timer is pending (`saveTimeout` is not
null) while `n` is not locked by another user, `mergeAndRenderNotes` leaves the
displayed title, content and title alignment and `lastSavedState` exactly as
they were, for every value of `n.lockedBy`, `n.title` and `n.content`. -/
theorem pending_or_typing_keeps_editor (s : State) (u : User) (n : Note)
    (hu : s.currentUser = some u)
    (hfind : findNote (mergeNotes s.ownedNotes s.sharedNotes) s.activeNoteId = some n)
    (h : n.hasPendingWrites = true ∨ (s.saveTimeout ≠ none ∧ isLockedByOther n u = false)) :
    (mergeAndRenderNotes s).dom.titleHtml = s.dom.titleHtml ∧
    (mergeAndRenderNotes s).dom.contentHtml = s.dom.contentHtml ∧
    (mergeAndRenderNotes s).dom.titleTextAlign = s.dom.titleTextAlign ∧
    (mergeAndRenderNotes s).lastSavedState = s.lastSavedState := by
  by_cases hact : truthy s.activeNoteId = true
  · rw [mergeAndRenderNotes_found s u n hu hact hfind]
    have hcond : ((isLockedByOther n u || s.saveTimeout.isNone) && !n.hasPendingWrites) = false := by
      rcases h with h | ⟨h1, h2⟩
      · simp [h]
      · cases hs : s.saveTimeout with
        | none => exact absurd hs h1
        | some t => simp [h2]
    simp only [hcond]
    obtain ⟨a, b, c⟩ := updateEditorLockState_frame s.browser n u (afterRender s u).dom
    exact ⟨a, b, c, rfl⟩
  · rw [mergeAndRenderNotes_inactive s u hu (by simpa using hact)]
    exact ⟨rfl, rfl, rfl, rfl⟩

/-- Witness for C1: timer 1 is pending and the note is not locked. -/
theorem pending_or_typing_keeps_editor_witness :
    (mergeAndRenderNotes exCentered).dom.titleHtml = "T" ∧
    (mergeAndRenderNotes exCentered).dom.contentHtml = "C" ∧
    (mergeAndRenderNotes exCentered).dom.titleTextAlign = "center" ∧
    (mergeAndRenderNotes exCentered).lastSavedState = ⟨some "n1", some "T", some "C", some "left"⟩ :=
  pending_or_typing_keeps_editor exCentered exUser exLegacy rfl (by decide)
    (Or.inr ⟨by decide, by decide⟩)

/-- C2 (counterexample). Note `n1` is open showing title `T`, no timer is
pending, and an acknowledged snapshot carries the record with title `A & B`.
The overwrite is accepted and `lastSavedState.title` is `A & B`, but the title
element, assigned `A & B`, reads `A &amp; B`: the displayed title is not the
string `n.title`, and the guard `innerHTML !== note.title` still holds. -/
theorem accepted_title_read_back :
    exOpen.saveTimeout = none ∧
    findNote (mergeNotes [exAmp] exOpen.sharedNotes) exOpen.activeNoteId = some exAmp ∧
    exAmp.title = some "A & B" ∧
    (onOwnedSnapshot [exAmp] exOpen).lastSavedState =
      ⟨some "n1", some "A & B", some "C", some "left"⟩ ∧
    (onOwnedSnapshot [exAmp] exOpen).dom.titleHtml = "A &amp; B" ∧
    (onOwnedSnapshot [exAmp] exOpen).dom.titleHtml ≠ "A & B" := by
  decide

/-- C2 (amended). Whenever the merged collection contains the active note `n`,
`n.hasPendingWrites` is false, and either no save timer is pending or
`n.lockedBy` is present and differs from the current user's uid, then after
`mergeAndRenderNotes`: `lastSavedState` is
`{ id: n.id, title: n.title || "", content: n.content || "", titleAlign: n.titleAlign || 'left' }`;
the title element is left alone when its `innerHTML` already read
`n.title || ""` and is otherwise assigned `n.title || ""`, so that its
`innerHTML` reads what the browser serialises for that markup; the same for the
content element. In particular the displayed title (content) is the string
`n.title || ""` (`n.content || ""`) whenever the browser reads that string back
as assigned. -/
theorem accepted_update_overwrites (s : State) (u : User) (n : Note)
    (hu : s.currentUser = some u) (hact : truthy s.activeNoteId = true)
    (hfind : findNote (mergeNotes s.ownedNotes s.sharedNotes) s.activeNoteId = some n)
    (hpw : n.hasPendingWrites = false)
    (h : s.saveTimeout = none ∨ isLockedByOther n u = true) :
    (mergeAndRenderNotes s).lastSavedState =
      { id := some n.id
        title := some (orElse n.title "")
        content := some (orElse n.content "")
        titleAlign := some (orElse n.titleAlign "left") } ∧
    (mergeAndRenderNotes s).dom.titleHtml =
      (if s.dom.titleHtml = orElse n.title "" then orElse n.title ""
       else s.browser.readBack (orElse n.title "")) ∧
    (mergeAndRenderNotes s).dom.contentHtml =
      (if s.dom.contentHtml = orElse n.content "" then orElse n.content ""
       else s.browser.readBack (orElse n.content "")) ∧
    (s.browser.readBack (orElse n.title "") = orElse n.title "" →
      (mergeAndRenderNotes s).dom.titleHtml = orElse n.title "") ∧
    (s.browser.readBack (orElse n.content "") = orElse n.content "" →
      (mergeAndRenderNotes s).dom.contentHtml = orElse n.content "") := by
  rw [mergeAndRenderNotes_found s u n hu hact hfind]
  have hcond : ((isLockedByOther n u || s.saveTimeout.isNone) && !n.hasPendingWrites) = true := by
    rcases h with h | h
    · simp [h, hpw]
    · simp [h, hpw]
  simp only [hcond, if_true]
  obtain ⟨a, b, _⟩ := updateEditorLockState_frame s.browser n u
    (acceptRemote n (afterRender s u)).dom
  have ht : (updateEditorLockState s.browser n u (acceptRemote n (afterRender s u)).dom).titleHtml =
      (if s.dom.titleHtml = orElse n.title "" then orElse n.title ""
       else s.browser.readBack (orElse n.title "")) := by
    rw [a]; exact acceptRemote_title n _
  have hc : (updateEditorLockState s.browser n u (acceptRemote n (afterRender s u)).dom).contentHtml =
      (if s.dom.contentHtml = orElse n.content "" then orElse n.content ""
       else s.browser.readBack (orElse n.content "")) := by
    rw [b]; exact acceptRemote_content n _
  refine ⟨rfl, ht, hc, ?_, ?_⟩
  · intro hr
    show (updateEditorLockState _ _ _ _).titleHtml = _
    rw [ht, hr, ite_self]
  · intro hr
    show (updateEditorLockState _ _ _ _).contentHtml = _
    rw [hc, hr, ite_self]

/-- Witness for C2: no timer is pending and the record, titled `T2`, is not a
pending write. -/
theorem accepted_update_overwrites_witness :
    (mergeAndRenderNotes { exOpen with ownedNotes := [exLegacyLocked] }).dom.titleHtml = "T2" ∧
    (mergeAndRenderNotes { exOpen with ownedNotes := [exLegacyLocked] }).lastSavedState =
      ⟨some "n1", some "T2", some "C", some "left"⟩ :=
  have h := accepted_update_overwrites { exOpen with ownedNotes := [exLegacyLocked] } exUser
    exLegacyLocked rfl (by decide) (by decide) (by decide) (Or.inl rfl)
  ⟨h.2.2.2.1 (by decide), h.1⟩

/-- C3 (defect). The user has note `n1` open with the title centred and timer 1
pending; a snapshot of `n1` without `titleAlign`, locked by another user who
changed the title to `T2`, is accepted: the displayed title becomes `T2`.
`lastSavedState.titleAlign` becomes `left` while the editor still shows
`center`, so the optimisation check fails and the timer that fires next issues
a save write although nothing was edited after the overwrite. -/
theorem accepted_overwrite_alignment_mismatch :
    (onOwnedSnapshot [exLegacyLocked] exCentered).lastSavedState =
      ⟨some "n1", some "T2", some "C", some "left"⟩ ∧
    (onOwnedSnapshot [exLegacyLocked] exCentered).dom.titleHtml = "T2" ∧
    (onOwnedSnapshot [exLegacyLocked] exCentered).dom.contentHtml = "C" ∧
    displayedAlign (onOwnedSnapshot [exLegacyLocked] exCentered).dom = "center" ∧
    matchesSaved (onOwnedSnapshot [exLegacyLocked] exCentered) = false ∧
    saveWrites (fireTimer 1 (onOwnedSnapshot [exLegacyLocked] exCentered)) =
      [⟨0, "n1", saveFields "T2" "C" "center"⟩] := by
  decide

/-- C4. When the save timer `tid` fires while the displayed title, content and
title alignment (an empty alignment read as `left`) equal the fields of
`lastSavedState` and `lastSavedState.id` equals `activeNoteId`: no store write
is issued and no save is left awaiting the store, the status reads "Saved" and
is shown, `lastSavedState` is unchanged, and `saveTimeout` becomes null if it
still held `tid` and is untouched otherwise. -/
theorem unchanged_editor_suppresses_write (s : State) (tid : Nat)
    (hp : s.timers.any (fun p => p.1 == tid) = true)
    (hid : s.lastSavedState.id = s.activeNoteId)
    (ht : s.lastSavedState.title = some s.dom.titleHtml)
    (hc : s.lastSavedState.content = some s.dom.contentHtml)
    (ha : s.lastSavedState.titleAlign = some (displayedAlign s.dom)) :
    (fireTimer tid s).writes = s.writes ∧
    (fireTimer tid s).inflight = s.inflight ∧
    (fireTimer tid s).dom.saveStatusText = "Saved" ∧
    (fireTimer tid s).dom.saveStatusShown = true ∧
    (fireTimer tid s).lastSavedState = s.lastSavedState ∧
    (fireTimer tid s).saveTimeout = (if s.saveTimeout = some tid then none else s.saveTimeout) := by
  rw [fireTimer_pending tid s hp]
  have hm : matchesSaved { s with timers := s.timers.filter (fun p => p.1 != tid) } = true := by
    simp [matchesSaved, hid, ht, hc, ha]
  unfold timerCallback
  rw [if_pos hm]
  obtain ⟨h1, h2, h3, h4, -, -, -⟩ := clearIfCurrent_frame tid
    { s with
      timers := s.timers.filter (fun p => p.1 != tid)
      dom := { s.dom with saveStatusText := "Saved", saveStatusShown := true } }
  refine ⟨h1, h4, ?_, ?_, h3, ?_⟩
  · rw [h2]
  · rw [h2]
  · rw [clearIfCurrent_saveTimeout]

/-- Witness for C4: timer 1 runs on the unedited note. -/
theorem unchanged_editor_suppresses_write_witness :
    (fireTimer 1 { exOpen with saveTimeout := some 1, timers := [(1, 2000)], now := 2000 }).writes = [] ∧
    (fireTimer 1 { exOpen with saveTimeout := some 1, timers := [(1, 2000)], now := 2000 }).dom.saveStatusText = "Saved" ∧
    (fireTimer 1 { exOpen with saveTimeout := some 1, timers := [(1, 2000)], now := 2000 }).saveTimeout = none :=
  have h := unchanged_editor_suppresses_write
    { exOpen with saveTimeout := some 1, timers := [(1, 2000)], now := 2000 } 1
    (by decide) (by decide) (by decide) (by decide) (by decide)
  ⟨h.1, h.2.2.1, h.2.2.2.2.2⟩

/-- C5. When the save timer `tid` fires for the active note `aid` while the
displayed values differ from `lastSavedState` (or `lastSavedState.id` differs
from `activeNoteId`): exactly one `updateDoc` is issued, to note `aid`, with
fields title, content, titleAlign as displayed, `updatedAt: serverTimestamp()`
and `lockedBy: null`, and the callback is left awaiting it; whenever that write
is acknowledged afterwards, `lastSavedState` holds the title, content and
alignment that were written and the status reads "Saved" and is shown. -/
theorem changed_editor_issues_one_write (s : State) (tid : Nat) (aid : String)
    (hp : s.timers.any (fun p => p.1 == tid) = true)
    (hact : s.activeNoteId = some aid) (hne : aid ≠ "")
    (hdiff : matchesSaved s = false) :
    (fireTimer tid s).writes = s.writes ++
      [⟨s.now, aid,
        [("title", .str s.dom.titleHtml), ("content", .str s.dom.contentHtml),
         ("titleAlign", .str (displayedAlign s.dom)), ("updatedAt", .serverTimestamp),
         ("lockedBy", .null)]⟩] ∧
    (fireTimer tid s).inflight = s.inflight ++
      [⟨tid, s.dom.titleHtml, s.dom.contentHtml, displayedAlign s.dom⟩] ∧
    (fireTimer tid s).lastSavedState = s.lastSavedState ∧
    ∀ s2 : State, (⟨tid, s.dom.titleHtml, s.dom.contentHtml, displayedAlign s.dom⟩ : PendingSave) ∈ s2.inflight →
      (saveAck ⟨tid, s.dom.titleHtml, s.dom.contentHtml, displayedAlign s.dom⟩ s2).lastSavedState.title
        = some s.dom.titleHtml ∧
      (saveAck ⟨tid, s.dom.titleHtml, s.dom.contentHtml, displayedAlign s.dom⟩ s2).lastSavedState.content
        = some s.dom.contentHtml ∧
      (saveAck ⟨tid, s.dom.titleHtml, s.dom.contentHtml, displayedAlign s.dom⟩ s2).lastSavedState.titleAlign
        = some (displayedAlign s.dom) ∧
      (saveAck ⟨tid, s.dom.titleHtml, s.dom.contentHtml, displayedAlign s.dom⟩ s2).dom.saveStatusText = "Saved" ∧
      (saveAck ⟨tid, s.dom.titleHtml, s.dom.contentHtml, displayedAlign s.dom⟩ s2).dom.saveStatusShown = true ∧
      (saveAck ⟨tid, s.dom.titleHtml, s.dom.contentHtml, displayedAlign s.dom⟩ s2).writes = s2.writes := by
  rw [fireTimer_pending tid s hp]
  have hm : matchesSaved { s with timers := s.timers.filter (fun p => p.1 != tid) } = false := hdiff
  unfold timerCallback
  rw [hm]
  simp only [hact, hne, if_false, Bool.false_eq_true]
  refine ⟨rfl, trivial, trivial, ?_⟩
  intro s2 hin
  unfold saveAck
  rw [if_pos hin]
  unfold saveResume
  obtain ⟨h1, h2, h3, -, -, -, -⟩ := clearIfCurrent_frame tid
    { s2 with
      inflight := s2.inflight.erase ⟨tid, s.dom.titleHtml, s.dom.contentHtml, displayedAlign s.dom⟩
      lastSavedState :=
        { id := s2.activeNoteId
          title := some s.dom.titleHtml
          content := some s.dom.contentHtml
          titleAlign := some (displayedAlign s.dom) }
      dom := { s2.dom with saveStatusText := "Saved", saveStatusShown := true } }
  simp only [] at h1 h2 h3 ⊢
  rw [h1, h2, h3]
  exact ⟨rfl, rfl, rfl, rfl, rfl, rfl⟩

/-- Witness for C5: timer 1 runs after the title was changed to `Tx`. -/
theorem changed_editor_issues_one_write_witness :
    (fireTimer 1 (editEvent (.title "Tx") exOpen)).writes =
      (editEvent (.title "Tx") exOpen).writes ++ [⟨0, "n1", saveFields "Tx" "C" "left"⟩] :=
  (changed_editor_issues_one_write (editEvent (.title "Tx") exOpen) 1 "n1"
    (by decide) (by decide) (by decide) (by decide)).1

/-- C6 (counterexample). The title is changed from `T` to `Tx` and, 500 ms
later, back to `T`; when the timer of the second edit has run there is no save
write at all. -/
theorem debounce_toggle_back_no_write :
    qualifies exOpen = true ∧
    saveWrites (elapse debounceMs
      (runEdits [(500, .title "T")] (editEvent (.title "Tx") exOpen))) = [] := by
  decide

/-- C6 (amended). For a qualifying first edit `e0` followed by edits `rest`, each
less than 2000 ms after the previous one: after every edit and at every moment
in between exactly one debounce timer is pending; no save write is issued
before the timer of the last edit runs; that timer runs 2000 ms after the last
edit and then no timer is pending; and the save writes of the whole sequence
are none when the editor then shows what `lastSavedState` records, and
otherwise exactly one, issued at that moment to the active note and carrying
the title, content and alignment displayed after the last edit. -/
theorem debounce_supersession (s : State) (aid : String) (e0 : Edit)
    (rest : List (Nat × Edit))
    (hq : qualifies s = true) (hok : DebounceOk s) (hact : s.activeNoteId = some aid)
    (hgap : ∀ ge ∈ rest, ge.1 < debounceMs) :
    (∀ st ∈ editEvent e0 s :: editTrace rest (editEvent e0 s), st.timers.length = 1) ∧
    saveWrites (runEdits rest (editEvent e0 s)) = saveWrites s ∧
    (runEdits rest (editEvent e0 s)).lastSavedState = s.lastSavedState ∧
    (elapse debounceMs (runEdits rest (editEvent e0 s))).timers = [] ∧
    (elapse debounceMs (runEdits rest (editEvent e0 s))).now =
      (runEdits rest (editEvent e0 s)).now + debounceMs ∧
    saveWrites (elapse debounceMs (runEdits rest (editEvent e0 s))) =
      saveWrites s ++
        (if matchesSaved (runEdits rest (editEvent e0 s)) then []
         else [⟨(runEdits rest (editEvent e0 s)).now + debounceMs, aid,
                saveFields (runEdits rest (editEvent e0 s)).dom.titleHtml
                  (runEdits rest (editEvent e0 s)).dom.contentHtml
                  (displayedAlign (runEdits rest (editEvent e0 s)).dom)⟩]) := by
  obtain ⟨a0, -, c0, -, e0', f0, g0, h0⟩ := editEvent_qualifying s e0 hq hok
  obtain ⟨a, b, c, d, -, f⟩ := runEdits_armed rest (editEvent e0 s) a0 hgap
  have hne : aid ≠ "" := by
    intro h
    unfold qualifies at hq
    cases hu : s.currentUser <;> simp [hact, hu, h] at hq
  have hactN : (runEdits rest (editEvent e0 s)).activeNoteId = some aid := by
    rw [d, g0, hact]
  have hdue := elapse_due (runEdits rest (editEvent e0 s)) _ debounceMs a.2.2
  obtain ⟨t1, t2, -, -⟩ := timerCallback_frame ((runEdits rest (editEvent e0 s)).nextTimerId - 1)
    { runEdits rest (editEvent e0 s) with
      now := (runEdits rest (editEvent e0 s)).now + debounceMs, timers := [] }
  refine ⟨?_, by rw [f, h0], by rw [c, e0'], by rw [hdue, t2], by rw [hdue, t1], ?_⟩
  · intro st hst
    rcases List.mem_cons.mp hst with hst | hst
    · rw [hst, c0]; rfl
    · exact b st hst
  · have hw := timerCallback_saveWrites ((runEdits rest (editEvent e0 s)).nextTimerId - 1)
      { runEdits rest (editEvent e0 s) with
        now := (runEdits rest (editEvent e0 s)).now + debounceMs, timers := [] } aid hactN hne
    have hs : saveWrites s = saveWrites (runEdits rest (editEvent e0 s)) := by rw [f, h0]
    rw [hdue, hw, hs]
    rfl

/-- Witness for C6: the title is edited twice, 500 ms apart; one save write is
issued 2000 ms after the second edit, with the second edit's title. -/
theorem debounce_supersession_witness :
    saveWrites (elapse debounceMs
      (runEdits [(500, .title "Ty")] (editEvent (.title "Tx") exOpen))) =
        [⟨2500, "n1", saveFields "Ty" "C" "left"⟩] :=
  (debounce_supersession exOpen "n1" (.title "Tx") [(500, .title "Ty")]
    (by decide) (by decide) rfl (by decide)).2.2.2.2.2.trans (by decide)

/-- C7. A save completion, whether suppressed (the timer callback returning at
once), acknowledged or failed, leaves `saveTimeout` as it is unless
`saveTimeout` still holds the handle of the timer that started that save, in
which case it becomes null. If a qualifying edit starts a newer timer while the
save of callback `p` is in flight, then after `p` completes (acknowledged or
failed) `saveTimeout` still holds the newer handle, the newer timer is still
pending with its due time, and it runs when that time has passed. -/
theorem completion_keeps_newer_timer (s : State) (p : PendingSave) (e : Edit)
    (hold : p.thisTimeoutId < s.nextTimerId)
    (hq : qualifies s = true) (hok : DebounceOk s) :
    (∀ (x : State) (tid : Nat), (timerCallback tid x).saveTimeout = x.saveTimeout ∨
      (x.saveTimeout = some tid ∧ (timerCallback tid x).saveTimeout = none)) ∧
    (∀ x : State, (saveAck p x).saveTimeout = x.saveTimeout ∨
      (x.saveTimeout = some p.thisTimeoutId ∧ (saveAck p x).saveTimeout = none)) ∧
    (∀ x : State, (saveFail p x).saveTimeout = x.saveTimeout ∨
      (x.saveTimeout = some p.thisTimeoutId ∧ (saveFail p x).saveTimeout = none)) ∧
    (saveAck p (editEvent e s)).saveTimeout = some s.nextTimerId ∧
    (saveFail p (editEvent e s)).saveTimeout = some s.nextTimerId ∧
    (saveAck p (editEvent e s)).timers = [(s.nextTimerId, s.now + debounceMs)] ∧
    (saveFail p (editEvent e s)).timers = [(s.nextTimerId, s.now + debounceMs)] ∧
    elapse debounceMs (saveAck p (editEvent e s)) =
      timerCallback s.nextTimerId
        { saveAck p (editEvent e s) with now := s.now + debounceMs, timers := [] } ∧
    elapse debounceMs (saveFail p (editEvent e s)) =
      timerCallback s.nextTimerId
        { saveFail p (editEvent e s) with now := s.now + debounceMs, timers := [] } := by
  obtain ⟨-, hst, htm, hnow, -, -, -, -⟩ := editEvent_qualifying s e hq hok
  obtain ⟨a1, a2, -, a4⟩ := saveAck_frame p (editEvent e s)
  obtain ⟨f1, f2, -, -, f5⟩ := saveFail_frame p (editEvent e s)
  have hne : ¬ (editEvent e s).saveTimeout = some p.thisTimeoutId := by
    rw [hst]
    intro h
    have := Option.some.inj h
    omega
  have hack : (saveAck p (editEvent e s)).saveTimeout = some s.nextTimerId := by
    rcases a4 with h | ⟨h, -⟩
    · rw [h, hst]
    · exact absurd h hne
  have hfail : (saveFail p (editEvent e s)).saveTimeout = some s.nextTimerId := by
    rcases f5 with h | ⟨h, -⟩
    · rw [h, hst]
    · exact absurd h hne
  refine ⟨fun x tid => timerCallback_saveTimeout tid x, fun x => (saveAck_frame p x).2.2.2,
    fun x => (saveFail_frame p x).2.2.2.2, hack, hfail, by rw [a1, htm], by rw [f1, htm], ?_, ?_⟩
  · have := elapse_due (saveAck p (editEvent e s)) s.nextTimerId debounceMs
      (by rw [a1, htm, a2, hnow])
    rw [this, a2, hnow]
  · have := elapse_due (saveFail p (editEvent e s)) s.nextTimerId debounceMs
      (by rw [f1, htm, f2, hnow])
    rw [this, f2, hnow]

/-- Witness for C7: timer 2 was started while the save of timer 1 was in flight. -/
theorem completion_keeps_newer_timer_witness :
    (saveAck exPending exEditedInFlight).saveTimeout = some 2 ∧
    (saveFail exPending exEditedInFlight).saveTimeout = some 2 ∧
    (saveAck exPending exEditedInFlight).timers = [(2, 4000)] ∧
    (saveFail exPending exEditedInFlight).timers = [(2, 4000)] :=
  have h := completion_keeps_newer_timer exAwaiting exPending (.title "Txy")
    (by decide) (by decide) (by decide)
  ⟨h.2.2.2.1, h.2.2.2.2.1, h.2.2.2.2.2.1, h.2.2.2.2.2.2.1⟩

/-- C8 (counterexample). The save of timer 1 is in flight, an edit has started
timer 2, and the save fails: `saveTimeout` still holds handle 2, the debounce
handle is not cleared. -/
theorem failed_save_keeps_newer_handle :
    exPending ∈ exEditedInFlight.inflight ∧
    (saveFail exPending exEditedInFlight).dom.saveStatusText = "Error saving" ∧
    (saveFail exPending exEditedInFlight).saveTimeout = some 2 := by
  decide

/-- C8 (amended). When the save write awaited by callback `p` fails: the status
reads "Error saving" and is shown, `lastSavedState` is unchanged, `saveTimeout`
becomes null if it still held the handle of `p` and is untouched otherwise, the
callback is no longer awaiting anything, and the failure itself issues no write
and sets no timeout; so when no newer timer is pending, no write is issued
however much time passes. -/
theorem failed_save_no_retry (s : State) (p : PendingSave) (hin : p ∈ s.inflight) :
    (saveFail p s).dom.saveStatusText = "Error saving" ∧
    (saveFail p s).dom.saveStatusShown = true ∧
    (saveFail p s).lastSavedState = s.lastSavedState ∧
    (saveFail p s).saveTimeout =
      (if s.saveTimeout = some p.thisTimeoutId then none else s.saveTimeout) ∧
    (saveFail p s).inflight = s.inflight.erase p ∧
    (saveFail p s).writes = s.writes ∧
    (saveFail p s).timers = s.timers ∧
    (s.timers = [] → ∀ d : Nat, (elapse d (saveFail p s)).writes = s.writes) := by
  have heq : saveFail p s = saveCatch p.thisTimeoutId { s with inflight := s.inflight.erase p } := by
    unfold saveFail
    rw [if_pos hin]
  obtain ⟨h1, -, h3, h4, h5, h6, h7, h8⟩ :=
    saveCatch_frame p.thisTimeoutId { s with inflight := s.inflight.erase p }
  rw [heq]
  refine ⟨h6, h7, h4, h8, h5, h3, h1, ?_⟩
  intro ht d
  rw [elapse_no_timers _ d (by rw [h1]; exact ht)]
  exact h3

/-- Witness for C8: the save of timer 1 fails with no newer timer set. -/
theorem failed_save_no_retry_witness :
    (saveFail exPending exAwaiting).dom.saveStatusText = "Error saving" ∧
    (saveFail exPending exAwaiting).saveTimeout = none ∧
    (saveFail exPending exAwaiting).writes = exAwaiting.writes :=
  have h := failed_save_no_retry exAwaiting exPending (by decide)
  ⟨h.1, h.2.2.2.1.trans (by decide), h.2.2.2.2.2.1⟩

/-- C9. For all owned and shared lists, every note id occurring in either list
occurs exactly once among the ids of the merged collection, and no other id
occurs there at all. -/
theorem merged_ids_exactly_once (owned shared : List Note) (i : String) :
    ((mergeNotes owned shared).map Note.id).count i =
      if i ∈ owned.map Note.id ∨ i ∈ shared.map Note.id then 1 else 0 := by
  have hmem := mem_mergeNotes_ids owned shared i
  rw [List.map_append, List.mem_append] at hmem
  by_cases h : i ∈ owned.map Note.id ∨ i ∈ shared.map Note.id
  · rw [if_pos h]
    exact List.count_eq_one_of_mem (mergeNotes_ids_nodup owned shared) (hmem.mpr h)
  · rw [if_neg h]
    exact List.count_eq_zero_of_not_mem (fun hc => h (hmem.mp hc))

/-- C10 (counterexample). Two notes updated within the same second, the second
one later: the merged collection keeps them in the order given, so the first
note's `updatedAt` is earlier than that of the note following it. -/
theorem same_second_notes_out_of_order :
    mergeNotes [exSameSecondA, exSameSecondB] [] = [exSameSecondA, exSameSecondB] ∧
    specDescending (mergeNotes [exSameSecondA, exSameSecondB] []) = false := by
  decide

/-- C10 (amended). For all owned and shared lists the merged collection is
sorted descending by the whole seconds of `updatedAt`, a missing `updatedAt`
counting as 0 seconds: every note's seconds are at least those of every note
after it; hence no note without `updatedAt` comes before a note whose
`updatedAt` has positive seconds; notes whose seconds do not call for a swap
keep the order they have in the deduplicated list; and for A with `updatedAt`
100, B with 200 and C with none the order is [B, A, C]. -/
theorem merged_sorted_by_seconds (owned shared : List Note) :
    List.Sorted (fun a b => sortSeconds b ≤ sortSeconds a) (mergeNotes owned shared) ∧
    List.Pairwise (fun a b => a.updatedAt = none → ∀ t, b.updatedAt = some t → t.seconds ≤ 0)
      (mergeNotes owned shared) ∧
    (∀ a b : Note, sortSeconds b ≤ sortSeconds a →
      List.Sublist [a, b] ((uniqueMap (owned ++ shared)).map Prod.snd) →
      List.Sublist [a, b] (mergeNotes owned shared)) ∧
    mergeNotes [exC, exA] [exB] = [exB, exA, exC] := by
  have hs : List.Sorted (fun a b => sortSeconds b ≤ sortSeconds a) (mergeNotes owned shared) := by
    have := mergeNotes_sorted owned shared
    refine List.Pairwise.imp ?_ this
    intro a b hab
    unfold notAfter compareNotes at hab
    omega
  refine ⟨hs, ?_, ?_, by decide⟩
  · refine List.Pairwise.imp ?_ hs
    intro a b hab ha t hb
    rw [sortSeconds_of_none a ha, sortSeconds_of_some b t hb] at hab
    exact hab
  · intro a b hab hsub
    exact List.pair_sublist_insertionSort (r := notAfter)
      (by unfold notAfter compareNotes; omega) hsub

/-- C11. For every id, the record the merged collection holds for it is the
last record with that id in the concatenation owned-then-shared; so for an id
present in the shared list it is the shared list's last record with that id,
whatever the owned list holds. -/
theorem merged_keeps_last_occurrence (owned shared : List Note) (i : String) :
    findNote (mergeNotes owned shared) (some i) = findNote (owned ++ shared).reverse (some i) ∧
    (i ∈ shared.map Note.id →
      findNote (mergeNotes owned shared) (some i) = findNote shared.reverse (some i)) := by
  refine ⟨findNote_mergeNotes owned shared i, ?_⟩
  intro hi
  rw [findNote_mergeNotes, List.reverse_append, findNote_append]
  cases h : findNote shared.reverse (some i) with
  | some n => rfl
  | none =>
    rw [findNote_eq_none_iff] at h
    exact absurd (by simpa using hi) (by simpa using h)

/-- C12. If a user is signed in, the active note id is set, and no note of the
freshly merged collection has that id, `mergeAndRenderNotes` sets
`activeNoteId` to null, hides the editor and shows the empty state, and resets
`lastSavedState` to `{ id: null, title: null, content: null, titleAlign: null }`. -/
theorem vanished_note_shows_empty_state (s : State) (u : User) (aid : String)
    (hu : s.currentUser = some u) (ha : s.activeNoteId = some aid) (hne : aid ≠ "")
    (hgone : aid ∉ (mergeNotes s.ownedNotes s.sharedNotes).map Note.id) :
    (mergeAndRenderNotes s).activeNoteId = none ∧
    (mergeAndRenderNotes s).dom.editorHidden = true ∧
    (mergeAndRenderNotes s).dom.emptyStateHidden = false ∧
    (mergeAndRenderNotes s).lastSavedState = ⟨none, none, none, none⟩ := by
  have hact : truthy s.activeNoteId = true := by simp [ha, truthy, hne]
  have hfind : findNote (mergeNotes s.ownedNotes s.sharedNotes) s.activeNoteId = none := by
    rw [ha]
    unfold findNote
    simpa [List.find?_eq_none] using hgone
  rw [mergeAndRenderNotes_missing s u hu hact hfind]
  exact ⟨rfl, rfl, rfl, rfl⟩

/-- Witness for C12: the owned snapshot no longer holds the open note. -/
theorem vanished_note_shows_empty_state_witness :
    (mergeAndRenderNotes { exOpen with ownedNotes := [] }).activeNoteId = none ∧
    (mergeAndRenderNotes { exOpen with ownedNotes := [] }).dom.editorHidden = true :=
  have h := vanished_note_shows_empty_state { exOpen with ownedNotes := [] } exUser "n1"
    rfl rfl (by decide) (by decide)
  ⟨h.1, h.2.1⟩

/-- C13. `handleInput` changes nothing at all, so it issues no lock write,
neither clears nor sets a timeout and leaves `saveTimeout` and `lastSavedState`
as they are, in each of these cases: no note is active, nobody is signed in,
or the record of the active note has `lockedBy` present and different from the
current user's uid. -/
theorem handleInput_no_effect (s : State)
    (h : truthy s.activeNoteId = false ∨ s.currentUser = none ∨
      ∃ u n, s.currentUser = some u ∧ findNote s.notes s.activeNoteId = some n ∧
        isLockedByOther n u = true) :
    handleInput s = s := by
  apply handleInput_of_not_qualifies
  unfold qualifies
  cases ha : s.activeNoteId with
  | none => rfl
  | some aid =>
    cases hu : s.currentUser with
    | none => rfl
    | some u =>
      rcases h with h | h | ⟨u', n, h1, h2, h3⟩
      · rw [ha] at h
        have : aid = "" := by simpa [truthy] using h
        simp [this]
      · rw [hu] at h; cases h
      · rw [hu] at h1
        cases h1
        rw [ha] at h2
        simp [h2, lockedOut, h3]

/-- Witness for C13: the open note is locked by user `u2`. -/
theorem handleInput_no_effect_witness : handleInput exLocked = exLocked :=
  handleInput_no_effect exLocked
    (Or.inr (Or.inr ⟨exUser, exLegacyLocked, rfl, by decide, by decide⟩))

/-- C14. On a qualifying edit of an active note whose record has no `lockedBy`,
with no acquisition in flight, `handleInput` issues exactly one `updateDoc`, to
that note, with `lockedBy` the current user's uid, `lockedByEmail` the current
user's email and `lockedAt: serverTimestamp()`, and raises `isAcquiringLock`;
as long as the flag is raised no call of `handleInput` issues any write; and
the flag is lowered when the write settles, whether it succeeded or failed. -/
theorem lock_acquired_once (s : State) (u : User) (aid : String) (n : Note)
    (hu : s.currentUser = some u) (ha : s.activeNoteId = some aid) (hne : aid ≠ "")
    (hf : findNote s.notes s.activeNoteId = some n) (hl : truthy n.lockedBy = false)
    (hflag : s.isAcquiringLock = false) :
    (handleInput s).writes = s.writes ++
      [⟨s.now, aid, [("lockedBy", .str u.uid), ("lockedByEmail", .str u.email),
        ("lockedAt", .serverTimestamp)]⟩] ∧
    (handleInput s).isAcquiringLock = true ∧
    (handleInput s).lockInflight = s.lockInflight + 1 ∧
    (∀ x : State, x.isAcquiringLock = true →
      (handleInput x).writes = x.writes ∧ (handleInput x).isAcquiringLock = true) ∧
    (lockSettled (handleInput s)).isAcquiringLock = false ∧
    (∀ x : State, x.lockInflight ≠ 0 → (lockSettled x).isAcquiringLock = false) := by
  have hlo : isLockedByOther n u = false := by simp [isLockedByOther, hl]
  rw [handleInput_active s u aid n hu ha hne hf hlo]
  have hacq : acquireLock (some n) u aid s =
      { s with
        isAcquiringLock := true
        writes := s.writes ++ [⟨s.now, aid, lockFields u⟩]
        lockInflight := s.lockInflight + 1 } := by
    unfold acquireLock
    simp [hl, hflag]
  rw [hacq]
  refine ⟨rfl, rfl, rfl, handleInput_writes_of_acquiring, ?_, ?_⟩
  · unfold lockSettled armTimer
    simp
  · intro x hx
    unfold lockSettled
    simp [hx]

/-- Witness for C14: the first edit of the unlocked note `n1`. -/
theorem lock_acquired_once_witness :
    (handleInput exOpen).writes = [⟨0, "n1", lockFields exUser⟩] ∧
    (handleInput exOpen).isAcquiringLock = true ∧
    (lockSettled (handleInput exOpen)).isAcquiringLock = false :=
  have h := lock_acquired_once exOpen exUser "n1" exNote rfl rfl (by decide) (by decide)
    (by decide) rfl
  ⟨h.1, h.2.1, h.2.2.2.2.1⟩

/-- C15. A qualifying edit of an active note whose record already has `lockedBy`
equal to the current user's uid issues no write, leaves the acquisition flag as
it is, and still restarts the debounce timer: the pending timeout is cleared, a
new one is set 2000 ms ahead and `saveTimeout` holds its handle. -/
theorem lock_held_no_reacquire (s : State) (u : User) (aid : String) (n : Note)
    (hu : s.currentUser = some u) (ha : s.activeNoteId = some aid) (hne : aid ≠ "")
    (huid : u.uid ≠ "")
    (hf : findNote s.notes s.activeNoteId = some n) (hl : n.lockedBy = some u.uid) :
    (handleInput s).writes = s.writes ∧
    (handleInput s).isAcquiringLock = s.isAcquiringLock ∧
    (handleInput s).lockInflight = s.lockInflight ∧
    (handleInput s).saveTimeout = some s.nextTimerId ∧
    (handleInput s).timers =
      clearTimeout s.saveTimeout s.timers ++ [(s.nextTimerId, s.now + debounceMs)] := by
  have hlo : isLockedByOther n u = false := by simp [isLockedByOther, hl]
  rw [handleInput_active s u aid n hu ha hne hf hlo]
  have hacq : acquireLock (some n) u aid s = s := by
    unfold acquireLock
    simp [hl, truthy, huid]
  rw [hacq]
  exact ⟨rfl, rfl, rfl, rfl, rfl⟩

/-- Witness for C15: an edit of `n1` while the record shows the user's own lock. -/
theorem lock_held_no_reacquire_witness :
    (handleInput exMine).writes = [] ∧ (handleInput exMine).saveTimeout = some 1 :=
  have h := lock_held_no_reacquire exMine exUser "n1" exMineNote rfl rfl (by decide) (by decide)
    (by decide) rfl
  ⟨h.1, h.2.2.2.1⟩

/-- C16 (defect). Note `n1` is open, the banner does not exist yet, and a
snapshot shows the note locked by `u2` with `lockedByEmail`
`x<i>y</i>&amp;z@e.org`. The editor becomes read-only and the banner is created
with the message interpolated into `innerHTML`, so its text is
`xy&z@e.org is editing the note...`, not the address followed by
" is editing the note...". When the same record arrives again the banner
exists and the message goes through `textContent`: the text is then the
address as stored. -/
theorem lock_banner_parses_email :
    exOpen.dom.indicator = none ∧
    isLockedByOther exMarkupLocked exUser = true ∧
    lockedMsg exMarkupLocked = "x<i>y</i>&amp;z@e.org is editing the note..." ∧
    (onOwnedSnapshot [exMarkupLocked] exOpen).dom.editorLocked = true ∧
    (onOwnedSnapshot [exMarkupLocked] exOpen).dom.indicator =
      some ⟨"xy&z@e.org is editing the note...", "flex"⟩ ∧
    (onOwnedSnapshot [exMarkupLocked] (onOwnedSnapshot [exMarkupLocked] exOpen)).dom.indicator =
      some ⟨"x<i>y</i>&amp;z@e.org is editing the note...", "flex"⟩ := by
  decide

/-- C17. Whatever values in [0, 1) the random source returns, `generateNoteKey`
returns a string of exactly 8 characters, each an uppercase letter `A`-`Z` or a
digit `0`-`9`. -/
theorem generated_key_shape (rand : Nat → ℚ) (h : ∀ i, i < 8 → 0 ≤ rand i ∧ rand i < 1) :
    (generateNoteKey rand).length = 8 ∧
    ∀ c ∈ (generateNoteKey rand).data,
      ('A' ≤ c ∧ c ≤ 'Z') ∨ ('0' ≤ c ∧ c ≤ '9') := by
  obtain ⟨hl, hall⟩ := generateNoteKey_data rand h
  refine ⟨hl, ?_⟩
  intro c hc
  have := hall c hc
  unfold isKeyChar at this
  simp only [Bool.or_eq_true, Bool.and_eq_true, decide_eq_true_eq] at this
  rcases this with ⟨a, b⟩ | ⟨a, b⟩
  · exact Or.inl ⟨a, b⟩
  · exact Or.inr ⟨a, b⟩

/-- Witness for C17: every call of the random source returns one half. -/
theorem generated_key_shape_witness :
    (generateNoteKey exRand).length = 8 :=
  (generated_key_shape exRand exRand_range).1

/-- C18. `shareNote` on a note whose record has a `shareKey` issues no write,
leaves the records alone and shows that key. On a note whose record has none it
issues one write carrying a generated key; when that write is acknowledged the
key is stored on the record and shown, and a further `shareNote` call on the
note then issues no write and shows the same key, which has 8 characters; when
the write is rejected instead the record's `shareKey` stays absent, nothing is
shown in the share dialog and an alert is raised. -/
theorem share_key_stable (s : State) (noteId : String) (n : Note) (rand rand2 : Nat → ℚ)
    (hr : ∀ i, i < 8 → 0 ≤ rand i ∧ rand i < 1)
    (hf : findNote s.notes (some noteId) = some n) (hne : noteId ≠ "") :
    (truthy n.shareKey = true →
      (shareNote rand noteId s).writes = s.writes ∧
      (shareNote rand noteId s).notes = s.notes ∧
      (shareNote rand noteId s).dom.shareKeyInput = orElse n.shareKey "" ∧
      (shareNote rand noteId s).dom.shareModalHidden = false) ∧
    (truthy n.shareKey = false →
      (shareNote rand noteId s).writes =
        s.writes ++ [⟨s.now, noteId,
          [("shareKey", .str (generateNoteKey rand)), ("updatedAt", .serverTimestamp)]⟩] ∧
      (shareNote rand noteId s).dom = s.dom ∧
      (⟨noteId, generateNoteKey rand, n⟩ : PendingShare) ∈ (shareNote rand noteId s).shareInflight ∧
      findNote (shareAck ⟨noteId, generateNoteKey rand, n⟩ (shareNote rand noteId s)).notes
          (some noteId) = some { n with shareKey := some (generateNoteKey rand) } ∧
      (shareAck ⟨noteId, generateNoteKey rand, n⟩ (shareNote rand noteId s)).dom.shareKeyInput =
        generateNoteKey rand ∧
      (shareAck ⟨noteId, generateNoteKey rand, n⟩ (shareNote rand noteId s)).dom.shareModalHidden =
        false ∧
      (shareNote rand2 noteId
          (shareAck ⟨noteId, generateNoteKey rand, n⟩ (shareNote rand noteId s))).writes =
        (shareNote rand noteId s).writes ∧
      (shareNote rand2 noteId
          (shareAck ⟨noteId, generateNoteKey rand, n⟩ (shareNote rand noteId s))).dom.shareKeyInput =
        generateNoteKey rand ∧
      (generateNoteKey rand).length = 8 ∧
      (shareFail ⟨noteId, generateNoteKey rand, n⟩ (shareNote rand noteId s)).notes = s.notes ∧
      (shareFail ⟨noteId, generateNoteKey rand, n⟩ (shareNote rand noteId s)).dom = s.dom ∧
      (shareFail ⟨noteId, generateNoteKey rand, n⟩ (shareNote rand noteId s)).writes =
        (shareNote rand noteId s).writes ∧
      (shareFail ⟨noteId, generateNoteKey rand, n⟩ (shareNote rand noteId s)).alerts =
        s.alerts ++ ["Failed to generate share key"]) := by
  constructor
  · intro hk
    rw [shareNote_of_key rand noteId s n hf hk]
    exact ⟨rfl, rfl, rfl, rfl⟩
  · intro hk
    have hshare : shareNote rand noteId s =
        { s with
          writes := s.writes ++ [⟨s.now, noteId, shareFields (generateNoteKey rand)⟩]
          shareInflight := s.shareInflight ++ [⟨noteId, generateNoteKey rand, n⟩] } :=
      shareNote_of_no_key rand noteId s n hf hk hne
    have hin : (⟨noteId, generateNoteKey rand, n⟩ : PendingShare) ∈
        (shareNote rand noteId s).shareInflight := by
      rw [hshare]; simp
    have hack : shareAck ⟨noteId, generateNoteKey rand, n⟩ (shareNote rand noteId s) =
        { shareNote rand noteId s with
          shareInflight := (shareNote rand noteId s).shareInflight.erase ⟨noteId, generateNoteKey rand, n⟩
          notes := assignShareKey n (generateNoteKey rand) (shareNote rand noteId s).notes
          ownedNotes := assignShareKey n (generateNoteKey rand) (shareNote rand noteId s).ownedNotes
          sharedNotes := assignShareKey n (generateNoteKey rand) (shareNote rand noteId s).sharedNotes
          dom := showShareKey (generateNoteKey rand) (shareNote rand noteId s).dom } := by
      unfold shareAck
      rw [if_pos hin]
    have hfail : shareFail ⟨noteId, generateNoteKey rand, n⟩ (shareNote rand noteId s) =
        shareCatch { shareNote rand noteId s with
          shareInflight := (shareNote rand noteId s).shareInflight.erase ⟨noteId, generateNoteKey rand, n⟩ } := by
      unfold shareFail
      rw [if_pos hin]
    have hnotes : (shareNote rand noteId s).notes = s.notes := by rw [hshare]
    have hfind2 : findNote (shareAck ⟨noteId, generateNoteKey rand, n⟩ (shareNote rand noteId s)).notes
        (some noteId) = some { n with shareKey := some (generateNoteKey rand) } := by
      rw [hack]
      show findNote (assignShareKey n (generateNoteKey rand) (shareNote rand noteId s).notes) _ = _
      rw [hnotes]
      exact findNote_assignShareKey s.notes noteId n _ hf
    obtain ⟨ht, ho⟩ := generateNoteKey_truthy rand hr
    have hsecond : shareNote rand2 noteId
        (shareAck ⟨noteId, generateNoteKey rand, n⟩ (shareNote rand noteId s)) =
        { shareAck ⟨noteId, generateNoteKey rand, n⟩ (shareNote rand noteId s) with
          dom := showShareKey (generateNoteKey rand)
            (shareAck ⟨noteId, generateNoteKey rand, n⟩ (shareNote rand noteId s)).dom } := by
      rw [shareNote_of_key rand2 noteId _ _ hfind2 ht, ho]
    refine ⟨by rw [hshare]; rfl, by rw [hshare], hin, hfind2, by rw [hack]; rfl, by rw [hack]; rfl,
      ?_, by rw [hsecond]; rfl, (generateNoteKey_data rand hr).1, ?_, ?_, ?_, ?_⟩
    · rw [hsecond, hack]
    · rw [hfail]; exact hnotes
    · rw [hfail, hshare]; rfl
    · rw [hfail]; rfl
    · rw [hfail, hshare]; rfl

/-- Witness for C18: `n1` has no share key; the write is acknowledged and
`shareNote` is called again. -/
theorem share_key_stable_witness :
    (shareNote exRand "n1" exOpen).writes =
      [⟨0, "n1", [("shareKey", .str (generateNoteKey exRand)), ("updatedAt", .serverTimestamp)]⟩] ∧
    (shareNote exRand "n1"
      (shareAck ⟨"n1", generateNoteKey exRand, exNote⟩ (shareNote exRand "n1" exOpen))).writes =
      (shareNote exRand "n1" exOpen).writes ∧
    (generateNoteKey exRand).length = 8 :=
  have h := (share_key_stable exOpen "n1" exNote exRand exRand exRand_range (by decide)
    (by decide)).2 (by decide)
  ⟨h.1, h.2.2.2.2.2.2.1, h.2.2.2.2.2.2.2.2.1⟩

/-- C19. For a signed-in user, `connectToNote(key)` run against the notes
collection `db`: when no note has `shareKey` equal to `key` it shows the error
"Note not found with that key. ..." and issues no write; when the first note
found is owned by the current user, or already lists the current user among its
collaborators, it shows an "Info" dialog and issues no write; otherwise it
issues exactly one `updateDoc`, to the note found, whose only field is
`collaborators: arrayUnion(uid)`. -/
theorem connect_writes_only_when_joining (db : List Note) (key : String) (s : State) (u : User)
    (hu : s.currentUser = some u) :
    ((∀ n ∈ db, n.shareKey ≠ some key) →
      (connectToNote (some db) key s).writes = s.writes ∧
      (connectToNote (some db) key s).dom.modalHidden = false ∧
      (connectToNote (some db) key s).dom.modalTitle = "Error" ∧
      (connectToNote (some db) key s).dom.modalMessage =
        "Note not found with that key. Please check and try again.") ∧
    (∀ d rest, queryByShareKey db key = d :: rest →
      (d.userId = some u.uid ∨ alreadyJoined d u.uid = true) →
      (connectToNote (some db) key s).writes = s.writes ∧
      (connectToNote (some db) key s).dom.modalHidden = false ∧
      (connectToNote (some db) key s).dom.modalTitle = "Info") ∧
    (∀ d rest, queryByShareKey db key = d :: rest →
      d.userId ≠ some u.uid → alreadyJoined d u.uid = false → d.id ≠ "" →
      (connectToNote (some db) key s).writes =
        s.writes ++ [⟨s.now, d.id, [("collaborators", .arrayUnion u.uid)]⟩]) := by
  rw [connectToNote_signedIn db key s u hu]
  obtain ⟨h1, h2, h3, h4⟩ := connectResume_cases (queryByShareKey db key) s u hu
  refine ⟨?_, ?_, ?_⟩
  · intro hnone
    have hq : queryByShareKey db key = [] := by
      unfold queryByShareKey
      simpa [List.filter_eq_nil_iff] using hnone
    obtain ⟨a, b⟩ := h1 hq
    obtain ⟨m1, m2, m3, -⟩ := showModal_open "Error"
      "Note not found with that key. Please check and try again." (by decide) "OK" s.dom
    exact ⟨a, by rw [b, m1], by rw [b, m2], by rw [b, m3]⟩
  · intro d rest hq hcase
    by_cases ho : d.userId = some u.uid
    · obtain ⟨a, b⟩ := h2 d rest hq ho
      obtain ⟨m1, m2, -, -⟩ := showModal_open "Info" "You are the owner of this note."
        (by decide) "OK" s.dom
      exact ⟨a, by rw [b, m1], by rw [b, m2]⟩
    · have hj : alreadyJoined d u.uid = true := hcase.resolve_left ho
      obtain ⟨a, b⟩ := h3 d rest hq ho hj
      obtain ⟨m1, m2, -, -⟩ := showModal_open "Info" "You have already joined this note."
        (by decide) "OK" s.dom
      exact ⟨a, by rw [b, m1], by rw [b, m2]⟩
  · intro d rest hq ho hj hid
    exact (h4 d rest hq ho hj hid).1

/-- Witness for C19: the key of a note of another user, not yet joined. -/
theorem connect_writes_only_when_joining_witness :
    (connectToNote (some exStore) "ABCDEFGH" exOpen).writes =
      [⟨0, "n9", [("collaborators", .arrayUnion "me")]⟩] :=
  (connect_writes_only_when_joining exStore "ABCDEFGH" exOpen exUser rfl).2.2
    exSharedNote [] (by decide) (by decide) (by decide) (by decide)

/-- C20. Let `store` be a notes collection in which no note lists its owner
among its collaborators, and `db` the collection as `connectToNote` queried it,
the notes of `store` having the owner they had in `db`. Then the collection
still has that property after the store applies any `addDoc` issued by
`createNote`'s confirm handler (the created note has the current user as owner
and no collaborators), any `updateDoc` issued by it or by `connectToNote`
(issued only for a note the current user does not own), and any `updateDoc`
issued by `leaveNote`'s confirm handler, which moreover keeps every
collaborator other than the current user in every note. -/
theorem collaborators_exclude_owner (store db : List Note) (s : State) (t : Timestamp)
    (hinv : OwnerNotCollaborator store)
    (hown : ∀ n ∈ store, ∀ d ∈ db, n.id = d.id → n.userId = d.userId) :
    (∀ (inputVal : Option String) (newId : String),
      ∀ c ∈ newCreates s (createNoteConfirm (some db) inputVal s),
        OwnerNotCollaborator (applyCreate t newId c store) ∧
        ∀ m ∈ applyCreate t newId c store, m ∉ store →
          m.collaborators = none ∧ m.userId = s.currentUser.map User.uid) ∧
    (∀ (inputVal : Option String),
      ∀ w ∈ newWrites s (createNoteConfirm (some db) inputVal s),
        OwnerNotCollaborator (applyUpdate t w store)) ∧
    (∀ key : String, ∀ w ∈ newWrites s (connectToNote (some db) key s),
      OwnerNotCollaborator (applyUpdate t w store)) ∧
    (∀ id : String, ∀ w ∈ newWrites s (leaveNoteConfirm id s),
      OwnerNotCollaborator (applyUpdate t w store) ∧
      ∀ n ∈ store, ∀ x : String, some x ≠ s.currentUser.map User.uid →
        (x ∈ (updatedDoc t w n).collaborators.getD [] ↔ x ∈ n.collaborators.getD [])) := by
  refine ⟨?_, ?_, fun key => connect_write_preserves store db s t key hinv hown, ?_⟩
  · intro inputVal newId c hc
    rcases createNoteConfirm_cases (some db) inputVal s with ⟨h, -⟩ | ⟨-, h | ⟨u, title, hu, h⟩⟩
    · rw [h] at hc; cases hc
    · rw [h] at hc; cases hc
    · rw [h] at hc
      simp only [List.mem_singleton] at hc
      rw [hc, hu]
      exact create_preserves store t newId u.uid title s.now hinv
  · intro inputVal w hw
    rcases createNoteConfirm_cases (some db) inputVal s with ⟨-, key, h⟩ | ⟨h, -⟩
    · rw [h] at hw
      exact connect_write_preserves store db s t key hinv hown w hw
    · rw [h] at hw; cases hw
  · intro id w hw
    rcases leaveNoteConfirm_newWrites id s with h | ⟨u, hu, h⟩
    · rw [h] at hw; cases hw
    · rw [h] at hw
      simp only [List.mem_singleton] at hw
      rw [hw]
      refine ⟨remove_preserves store t id u.uid s.now hinv, ?_⟩
      intro n _ x hx
      have hxu : x ≠ u.uid := by
        intro e
        apply hx
        rw [hu, e]
        rfl
      unfold updatedDoc
      by_cases hid : n.id = id
      · simp only [hid, if_true, List.foldl_cons, List.foldl_nil, applyField_collaborators,
          FieldValue.asArray, Option.getD_some, List.mem_filter, decide_eq_true_eq]
        constructor
        · exact fun h => h.1
        · exact fun h => ⟨h, hxu⟩
      · simp only [hid, if_false]

/-- Witness for C20: the user joins the note of `u2` and later leaves it. -/
theorem collaborators_exclude_owner_witness :
    OwnerNotCollaborator
      (applyUpdate ⟨200, 0⟩ ⟨0, "n9", [("collaborators", .arrayUnion "me")]⟩ exStore) ∧
    OwnerNotCollaborator
      (applyUpdate ⟨200, 0⟩ ⟨0, "n9", [("collaborators", .arrayRemove "me")]⟩ exStore) :=
  have h := collaborators_exclude_owner exStore exStore exOpen ⟨200, 0⟩ exStore_ok (by decide)
  ⟨h.2.2.1 "ABCDEFGH" _ (by decide), (h.2.2.2 "n9" _ (by decide)).1⟩

/-- C21. Ownership is fixed at creation. For a signed-in user `u`, the confirm
handler of `createNote`, given an input that is not a share key, issues one
`addDoc` whose `userId` field is `u.uid`, and the document the store creates
from it has that owner. Along any run of the client, every `updateDoc` call it
issues (lock acquisition, save, share key, connect, leave) leaves the field
`userId` out; so the store, applying any of these calls in any order and at any
server times, keeps the id and the owner of every document. -/
theorem ownership_immutable (es : List Event) (s : State) :
    (∀ db inputVal u, s.currentUser = some u →
      looksLikeShareKey (trimmedInput inputVal) = false →
      ∃ c, newCreates s (createNoteConfirm db inputVal s) = [c] ∧
        ("userId", FieldValue.str u.uid) ∈ c.fields ∧
        ∀ t newId store, ∃ n, applyCreate t newId c store = store ++ [n] ∧
          n.id = newId ∧ n.userId = some u.uid) ∧
    (∀ w ∈ newWrites s (run es s), NoOwnerField w) ∧
    (∀ tws store, (∀ tw ∈ tws, tw.2 ∈ newWrites s (run es s)) →
      (applyUpdates tws store).map (fun n => (n.id, n.userId)) =
        store.map (fun n => (n.id, n.userId))) := by
  obtain ⟨l, hl, hno⟩ := run_adds es s
  have hnew : newWrites s (run es s) = l := newWrites_append s (run es s) l hl
  refine ⟨?_, ?_, ?_⟩
  · intro db inputVal u hu hk
    refine ⟨⟨s.now, createFields u.uid (finalTitle (trimmedInput inputVal))⟩, ?_, ?_, ?_⟩
    · rw [createNoteConfirm_create db inputVal s u hu hk]
      simp [newCreates]
    · simp [createFields]
    · intro t newId store
      exact ⟨_, rfl, (createdDoc_owner t newId u.uid _).2, (createdDoc_owner t newId u.uid _).1⟩
  · rw [hnew]
    exact hno
  · intro tws store h
    apply applyUpdates_owner
    intro tw htw
    have := h tw htw
    rw [hnew] at this
    exact hno _ this

/-- Witness for C21: the user edits the title of `n1` and the save timer fires;
the store applies the lock write and the save write, and both notes keep their
owners. -/
theorem ownership_immutable_witness :
    (applyUpdates
      [(⟨200, 0⟩, ⟨0, "n1", lockFields exUser⟩), (⟨300, 0⟩, ⟨2000, "n1", saveFields "Tx" "C" "left"⟩)]
      exStore).map (fun n => (n.id, n.userId)) = exStore.map (fun n => (n.id, n.userId)) :=
  (ownership_immutable [.edit (.title "Tx"), .elapse 2000] exOpen).2.2
    [(⟨200, 0⟩, ⟨0, "n1", lockFields exUser⟩), (⟨300, 0⟩, ⟨2000, "n1", saveFields "Tx" "C" "left"⟩)]
    exStore (by decide)

/-- C22 (defect). The user creates the note `A & B`; the store names it `n7`
and the first acknowledged snapshot carrying it is merged with no timer
pending. `lastSavedState` is `{id: n7, title: 'A & B', content: '', titleAlign:
'left'}`, but the title element, assigned `A & B`, reads `A &amp; B`. The user
then picks "Left" for the title, which is left-aligned already: nothing
displayed changes, yet the timeout finds the title different from
`lastSavedState.title` and writes the title `A &amp; B` back to the store. -/
theorem created_note_saved_back :
    (createNoteConfirm none (some "A & B") exOpen).creates =
      [⟨0, createFields "me" "A & B"⟩] ∧
    (createAck "n7" (createNoteConfirm none (some "A & B") exOpen)).activeNoteId = some "n7" ∧
    (createAck "n7" (createNoteConfirm none (some "A & B") exOpen)).saveTimeout = none ∧
    exCreatedAmp.lastSavedState = ⟨some "n7", some "A & B", some "", some "left"⟩ ∧
    exCreatedAmp.dom.titleHtml = "A &amp; B" ∧
    exCreatedAmp.dom.contentHtml = "" ∧
    exCreatedAmp.dom.titleTextAlign = "left" ∧
    exCreatedAmp.writes = [] ∧
    (editEvent (.align "left") exCreatedAmp).dom.titleHtml = exCreatedAmp.dom.titleHtml ∧
    (editEvent (.align "left") exCreatedAmp).dom.contentHtml = exCreatedAmp.dom.contentHtml ∧
    (editEvent (.align "left") exCreatedAmp).dom.titleTextAlign =
      exCreatedAmp.dom.titleTextAlign ∧
    saveWrites (elapse debounceMs (editEvent (.align "left") exCreatedAmp)) =
      [⟨2000, "n7", saveFields "A &amp; B" "" "left"⟩] := by
  decide

/-- C23. For every pair of owned and shared snapshots, the merged collection
after both listeners have delivered is the merge of the two snapshots, the same
notes in the same order, whether the owned or the shared snapshot came first. -/
theorem merge_order_independent (owned shared : List Note) (s : State) :
    (onSharedSnapshot shared (onOwnedSnapshot owned s)).notes = mergeNotes owned shared ∧
    (onOwnedSnapshot owned (onSharedSnapshot shared s)).notes = mergeNotes owned shared ∧
    (onSharedSnapshot shared (onOwnedSnapshot owned s)).notes =
      (onOwnedSnapshot owned (onSharedSnapshot shared s)).notes := by
  have h1 : (onSharedSnapshot shared (onOwnedSnapshot owned s)).notes = mergeNotes owned shared := by
    unfold onSharedSnapshot
    rw [(mergeAndRenderNotes_lists _).1]
    show mergeNotes (onOwnedSnapshot owned s).ownedNotes shared = _
    unfold onOwnedSnapshot
    rw [(mergeAndRenderNotes_lists _).2.1]
  have h2 : (onOwnedSnapshot owned (onSharedSnapshot shared s)).notes = mergeNotes owned shared := by
    unfold onOwnedSnapshot
    rw [(mergeAndRenderNotes_lists _).1]
    show mergeNotes owned (onSharedSnapshot shared s).sharedNotes = _
    unfold onSharedSnapshot
    rw [(mergeAndRenderNotes_lists _).2.2.1]
  exact ⟨h1, h2, h1.trans h2.symm⟩

/-- C24. Calling `mergeAndRenderNotes` twice in a row, the owned and shared lists
being the same, yields the same merged collection both times, the same notes in
the same order; and merging the merged collection again changes nothing. -/
theorem merge_idempotent (s : State) :
    (mergeAndRenderNotes (mergeAndRenderNotes s)).notes = (mergeAndRenderNotes s).notes ∧
    mergeNotes (mergeNotes s.ownedNotes s.sharedNotes) [] = mergeNotes s.ownedNotes s.sharedNotes := by
  refine ⟨?_, mergeNotes_merged _ _⟩
  rw [(mergeAndRenderNotes_lists (mergeAndRenderNotes s)).1, (mergeAndRenderNotes_lists s).2.1,
    (mergeAndRenderNotes_lists s).2.2.1, (mergeAndRenderNotes_lists s).1]

/-- C25. For a signed-in user, the confirm handler of `createNote` treats its
input as a share key, calling `connectToNote` with it and creating no note,
exactly when the trimmed input has 8 characters, all of them in `A`-`Z` or
`0`-`9`; for every other input it issues one `addDoc` whose title is the trimmed
input, or "Untitled Note" when the trimmed input is empty, and no `updateDoc`. -/
theorem create_or_join (db : Option (List Note)) (inputVal : Option String) (s : State)
    (u : User) (hu : s.currentUser = some u) :
    (∀ v, inputVal = some v → trimmedInput inputVal = jsTrim v) ∧
    (looksLikeShareKey (trimmedInput inputVal) = true ↔
      (trimmedInput inputVal).length = 8 ∧
      ∀ c ∈ (trimmedInput inputVal).data, ('A' ≤ c ∧ c ≤ 'Z') ∨ ('0' ≤ c ∧ c ≤ '9')) ∧
    (looksLikeShareKey (trimmedInput inputVal) = true →
      createNoteConfirm db inputVal s = connectToNote db (trimmedInput inputVal) s ∧
      (createNoteConfirm db inputVal s).creates = s.creates) ∧
    (looksLikeShareKey (trimmedInput inputVal) = false →
      (createNoteConfirm db inputVal s).creates = s.creates ++
        [⟨s.now,
          [("userId", .str u.uid),
           ("title", .str (if trimmedInput inputVal = "" then "Untitled Note"
                           else trimmedInput inputVal)),
           ("content", .str ""), ("titleAlign", .str "left"),
           ("createdAt", .serverTimestamp), ("updatedAt", .serverTimestamp)]⟩] ∧
      (createNoteConfirm db inputVal s).writes = s.writes) := by
  refine ⟨?_, ?_, ?_, ?_⟩
  · intro v hv
    rw [hv, trimmedInput_some]
  · rw [looksLikeShareKey_iff]
    constructor
    · rintro ⟨h8, hall⟩
      exact ⟨h8, fun c hc => (isKeyChar_iff c).mp (hall c hc)⟩
    · rintro ⟨h8, hall⟩
      exact ⟨h8, fun c hc => (isKeyChar_iff c).mpr (hall c hc)⟩
  · intro h
    refine ⟨createNoteConfirm_join db inputVal s h, ?_⟩
    rw [createNoteConfirm_join db inputVal s h]
    exact connectToNote_creates _ _ _
  · intro h
    rw [createNoteConfirm_create db inputVal s u hu h]
    refine ⟨?_, rfl⟩
    show s.creates ++ _ = _
    unfold createFields finalTitle
    by_cases ht : trimmedInput inputVal = "" <;> simp [ht]

/-- Witness for C25: the input ` Hello ` is not a share key, and one note titled
`Hello` is created. -/
theorem create_or_join_witness :
    (createNoteConfirm none (some " Hello ") exOpen).creates =
      [⟨0, createFields "me" "Hello"⟩] :=
  ((create_or_join none (some " Hello ") exOpen exUser rfl).2.2.2 (by decide)).1.trans (by decide)

/-- C26. For every input string: the output of `escapeHtml` contains none of the
characters `<`, `>`, double quote and single quote; every `&` in the output
begins one of the entities `&amp;` `&lt;` `&gt;` `&quot;` `&#039;`; and an input
containing none of `&`, `<`, `>`, double quote, single quote is returned
unchanged. -/
theorem escapeHtml_safe (str : String) :
    (∀ c ∈ (escapeHtml str).data, c ≠ '<' ∧ c ≠ '>' ∧ c ≠ dquote ∧ c ≠ squote) ∧
    ampsBeginEntities (escapeHtml str).data = true ∧
    ((∀ c ∈ str.data, c ≠ '&' ∧ c ≠ '<' ∧ c ≠ '>' ∧ c ≠ dquote ∧ c ≠ squote) →
      escapeHtml str = str) := by
  rw [escapeHtml_data]
  refine ⟨escaped_no_markup _, escaped_amps _, ?_⟩
  intro h
  have hd : (escapeHtml str).data = str.data := by
    rw [escapeHtml_data]
    apply escaped_plain
    intro c hc
    obtain ⟨a, b, c', d, e⟩ := h c hc
    simp [isHtmlSpecial, a, b, c', d, e]
  exact String.ext hd

/-- Witness for C26: a title without special characters is returned unchanged. -/
theorem escapeHtml_safe_witness : escapeHtml "Notes" = "Notes" :=
  (escapeHtml_safe "Notes").2.2 (by decide)

/-- C27. Whatever values in [0, 1) the random source returns, the key
`generateNoteKey` returns passes the share-key test of `createNote`: it has
length 8 and matches `^[A-Z0-9]+$`, trimming leaves it unchanged, and the
confirm handler of `createNote`, given the key, calls `connectToNote` with it
and issues no `addDoc`. -/
theorem generated_key_is_join_input (rand : Nat → ℚ) (h : ∀ i, i < 8 → 0 ≤ rand i ∧ rand i < 1)
    (db : Option (List Note)) (s : State) :
    looksLikeShareKey (generateNoteKey rand) = true ∧
    trimmedInput (some (generateNoteKey rand)) = generateNoteKey rand ∧
    createNoteConfirm db (some (generateNoteKey rand)) s =
      connectToNote db (generateNoteKey rand) s ∧
    (createNoteConfirm db (some (generateNoteKey rand)) s).creates = s.creates := by
  obtain ⟨hl, hall⟩ := generateNoteKey_data rand h
  have hk : looksLikeShareKey (generateNoteKey rand) = true :=
    (looksLikeShareKey_iff _).mpr ⟨hl, hall⟩
  have ht : trimmedInput (some (generateNoteKey rand)) = generateNoteKey rand := by
    rw [trimmedInput_some]
    exact jsTrim_of_no_whitespace _ (fun c hc => not_whitespace_of_keyChar c (hall c hc))
  have hj := createNoteConfirm_join db (some (generateNoteKey rand)) s (by rw [ht]; exact hk)
  rw [ht] at hj
  refine ⟨hk, ht, hj, ?_⟩
  rw [hj]
  exact connectToNote_creates _ _ _

/-- Witness for C27: the key generated from the constant random source `1/2`. -/
theorem generated_key_is_join_input_witness :
    looksLikeShareKey (generateNoteKey exRand) = true :=
  (generated_key_is_join_input exRand exRand_range none exOpen).1

/-- C28 (defect). The user changes the title of `n1` to
`Tx`, which takes the lock and sets timeout 1, then selects `n2` before the
timeout runs. `selectNote` leaves the timeout pending and puts `n2` in the
editor and in `lastSavedState`; when the timeout runs it compares the editor
with `lastSavedState`, finds them equal, shows "Saved" and issues nothing. In
the end nothing is pending, the only `updateDoc` call is the lock write on `n1`:
the title `Tx` was never written and no call resets `lockedBy`. -/
theorem switch_drops_edit :
    (editEvent (.title "Tx") exTwo).dom.titleHtml = "Tx" ∧
    (editEvent (.title "Tx") exTwo).timers = [(1, 2000)] ∧
    (editEvent (.title "Tx") exTwo).writes = [⟨0, "n1", lockFields exUser⟩] ∧
    (selectNote "n2" (editEvent (.title "Tx") exTwo)).timers = [(1, 2000)] ∧
    (selectNote "n2" (editEvent (.title "Tx") exTwo)).dom.titleHtml = "B" ∧
    (elapse debounceMs (selectNote "n2" (editEvent (.title "Tx") exTwo))).writes =
      [⟨0, "n1", lockFields exUser⟩] ∧
    saveWrites (elapse debounceMs (selectNote "n2" (editEvent (.title "Tx") exTwo))) = [] ∧
    (∀ w ∈ (elapse debounceMs (selectNote "n2" (editEvent (.title "Tx") exTwo))).writes,
      ("lockedBy", FieldValue.null) ∉ w.fields) ∧
    (elapse debounceMs (selectNote "n2" (editEvent (.title "Tx") exTwo))).timers = [] ∧
    (elapse debounceMs (selectNote "n2" (editEvent (.title "Tx") exTwo))).inflight = [] ∧
    (elapse debounceMs (selectNote "n2" (editEvent (.title "Tx") exTwo))).dom.saveStatusText =
      "Saved" := by
  decide

/-- C29 (defect). The user changes the title of `n1` to
`Tx`, the timeout runs and sends the save write to `n1`; while the write is in
flight the user selects `n2`. When the write is acknowledged, `lastSavedState`
takes the id of the note active at that moment, `n2`, together with the title
and content that were written to `n1`. -/
theorem ack_after_switch_mislabels :
    (elapse debounceMs (editEvent (.title "Tx") exTwo)).writes =
      [⟨0, "n1", lockFields exUser⟩, ⟨2000, "n1", saveFields "Tx" "C" "left"⟩] ∧
    (elapse debounceMs (editEvent (.title "Tx") exTwo)).inflight = [exPending] ∧
    (saveAck exPending
      (selectNote "n2" (elapse debounceMs (editEvent (.title "Tx") exTwo)))).lastSavedState =
      ⟨some "n2", some "Tx", some "C", some "left"⟩ ∧
    (saveAck exPending
      (selectNote "n2" (elapse debounceMs (editEvent (.title "Tx") exTwo)))).writes =
      [⟨0, "n1", lockFields exUser⟩, ⟨2000, "n1", saveFields "Tx" "C" "left"⟩] := by
  decide

/-- C30 (defect). User `me` has the owned note `n1` and
the shared note `n8` and signs out. The sign-out branch empties `notes` and
removes the owned listener; the lists `ownedNotes` and `sharedNotes` keep their
elements and the shared listener stays registered. A snapshot delivered to that
listener after sign-out fills `notes` again. When user `u5` signs in and the
first owned snapshot, which is empty, arrives, the merged collection holds `n8`,
the shared note of `me`. -/
theorem previous_session_leaks :
    exSession.notes = [exNote, exJoined] ∧
    (onAuthStateChanged none exSession).notes = [] ∧
    (onAuthStateChanged none exSession).ownedNotes = [exNote] ∧
    (onAuthStateChanged none exSession).sharedNotes = [exJoined] ∧
    (onAuthStateChanged none exSession).listeners = [⟨2, true, "me"⟩] ∧
    (deliverSnapshot 2 [exJoined] (onAuthStateChanged none exSession)).notes =
      [exNote, exJoined] ∧
    (onAuthStateChanged (some exNewUser) (onAuthStateChanged none exSession)).listeners =
      [⟨2, true, "me"⟩, ⟨3, false, "u5"⟩, ⟨4, true, "u5"⟩] ∧
    (deliverSnapshot 3 []
      (onAuthStateChanged (some exNewUser) (onAuthStateChanged none exSession))).notes =
      [exJoined] := by
  decide

end CloudNotes
